import Mathlib

/-!
SplatServer: wire codec, arena lifecycle, spell system and tick

A shallow embedding of `SplatServer/packet.go`, `SplatServer/protocol.go`
(`ParseMessage`, the dispatch of `HandleMessage`, the debug log,
`handleJoinArena`), `SplatServer/arena.go`, `SplatServer/spell.go`,
`SplatServer/entities.go`, `SplatServer/game.go` and `initializeArenas` of
`SplatServer/main.go`, with the properties of the frame codec and the
payload parsers, of the arena roster and state machine, of casting,
cooldowns and expiry, and of the tick over the player registry proved about
it.

Conventions.
* A byte is a `Fin 256`; `uint16` and `uint32` values are naturals, reduced
  `% 2^16` / `% 2^32` where Go converts or truncates.
* An `io.Reader` is the finite list of bytes it has not delivered yet; after
  them it reports end of file.
* Go's `int` is `Int`, with `wrapInt64` where the code does arithmetic on
  it; a `float64` is carried as its 64-bit pattern, and float arithmetic is
  a parameter (`Float64Ops`); a `time.Time` is an integer count of
  nanoseconds whose zero is the zero time, a `time.Duration` an integer
  count of nanoseconds.
* Every reading of `time.Now()` is an argument of the call that takes it.
* A Go `string` is carried as its bytes; `binary.Read` into an `int`, which
  is not a fixed-size type, fails before it reads (`binaryReadInt`).
* A Go `map` is an association list with at most one entry per key; a
  pointer stored in a map is carried as the value it points to.
* A `sync.RWMutex` is its holder count; a call that can never acquire it in
  the execution considered is reported as `blocked`.
-/

namespace SplatServer

/-! ## encoding/binary and io -/

abbrev Byte := Fin 256

/-- Low eight bits of a natural, as Go's `byte(v)`. -/
def byteOf (v : Nat) : Byte := ⟨v % 256, Nat.mod_lt v (by decide)⟩

/-- Little-endian `PutUint16`: `b[0] = byte(v)`, `b[1] = byte(v >> 8)`. -/
def PutUint16 (v : Nat) : List Byte := [byteOf v, byteOf (v / 2 ^ 8)]

/-- Little-endian `PutUint32`. -/
def PutUint32 (v : Nat) : List Byte :=
  [byteOf v, byteOf (v / 2 ^ 8), byteOf (v / 2 ^ 16), byteOf (v / 2 ^ 24)]

/-- Little-endian `Uint16`: `b[0] | b[1] << 8`. -/
def Uint16 (b : List Byte) : Nat :=
  (b.getD 0 0).val + (b.getD 1 0).val * 2 ^ 8

/-- Little-endian `Uint32`: `b[0] | b[1] << 8 | b[2] << 16 | b[3] << 24`. -/
def Uint32 (b : List Byte) : Nat :=
  (b.getD 0 0).val + (b.getD 1 0).val * 2 ^ 8 + (b.getD 2 0).val * 2 ^ 16
    + (b.getD 3 0).val * 2 ^ 24

/-- The two errors `io.ReadFull` reports on a stream that ends. -/
inductive IOError where
  | EOF
  | ErrUnexpectedEOF
  deriving DecidableEq, Repr

/-- The bytes a reader has not delivered yet. -/
abbrev Reader := List Byte

/-- Result of a read: the value or the error, and the reader afterwards. -/
structure ReadResult (α : Type) where
  val : Except IOError α
  rest : Reader

/-- Function `io.ReadFull(r, buf)` with `len(buf) = n`: exactly `n` bytes, or
`EOF` when none could be read, or `ErrUnexpectedEOF` when the stream ended
after some but not all of them. -/
def ReadFull (r : Reader) (n : Nat) : ReadResult (List Byte) :=
  if n ≤ r.length then ⟨.ok (r.take n), r.drop n⟩
  else if r.length = 0 then ⟨.error .EOF, []⟩
  else ⟨.error .ErrUnexpectedEOF, []⟩

/-- Function `binary.Read(r, binary.LittleEndian, &v)` for a `uint16`. -/
def binaryReadUint16 (r : Reader) : ReadResult Nat :=
  match ReadFull r 2 with
  | ⟨.error e, r1⟩ => ⟨.error e, r1⟩
  | ⟨.ok bs, r1⟩ => ⟨.ok (Uint16 bs), r1⟩

/-- Function `binary.Read(r, binary.LittleEndian, &v)` for a `uint32`. -/
def binaryReadUint32 (r : Reader) : ReadResult Nat :=
  match ReadFull r 4 with
  | ⟨.error e, r1⟩ => ⟨.error e, r1⟩
  | ⟨.ok bs, r1⟩ => ⟨.ok (Uint32 bs), r1⟩

/-! ## packet.go -/

def PacketLogin : Nat := 1
def PacketLogout : Nat := 2
def PacketMove : Nat := 3
def PacketChat : Nat := 4
def PacketPing : Nat := 5
def PacketPlayerUpdate : Nat := 6
def PacketArenaUpdate : Nat := 7
def PacketProjectile : Nat := 8
def PacketSpellCast : Nat := 9
def PacketGameState : Nat := 10

/-- A network packet: `Typ` is the `uint16` field `Type`, `Length` the
`uint32` field, `Data` the payload. The three fields are independent. -/
structure Packet where
  Typ : Nat
  Length : Nat
  Data : List Byte
  deriving DecidableEq, Repr

/-- Function `NewPacket`: `Length` is `uint32(len(data))`. -/
def NewPacket (packetType : Nat) (data : List Byte) : Packet :=
  { Typ := packetType, Length := data.length % 2 ^ 32, Data := data }

/-- Method `Packet.Serialize`: type, length, then the data as it is. -/
def Packet.Serialize (p : Packet) : List Byte :=
  PutUint16 p.Typ ++ PutUint32 p.Length ++ p.Data

/-- Function `DeserializePacket`: reads the type, the length, then `length`
bytes of data; the first failing read ends it with that read's error. -/
def DeserializePacket (r : Reader) : ReadResult Packet :=
  match binaryReadUint16 r with
  | ⟨.error e, r1⟩ => ⟨.error e, r1⟩
  | ⟨.ok packetType, r1⟩ =>
    match binaryReadUint32 r1 with
    | ⟨.error e, r2⟩ => ⟨.error e, r2⟩
    | ⟨.ok length, r2⟩ =>
      match ReadFull r2 length with
      | ⟨.error e, r3⟩ => ⟨.error e, r3⟩
      | ⟨.ok data, r3⟩ => ⟨.ok { Typ := packetType, Length := length, Data := data }, r3⟩

/-! ## protocol.go: ParseMessage -/

def MsgLogin : Nat := 1

/-- A parsed message; `Typ` is the one-byte `MessageType`. -/
structure Message where
  Typ : Nat
  Data : List Byte
  deriving DecidableEq, Repr

/-- Function `ParseMessage`: the packet read from the connection, its type
converted to the one-byte `MessageType`. -/
def ParseMessage (conn : Reader) : ReadResult Message :=
  match DeserializePacket conn with
  | ⟨.error e, r⟩ => ⟨.error e, r⟩
  | ⟨.ok packet, r⟩ => ⟨.ok { Typ := packet.Typ % 2 ^ 8, Data := packet.Data }, r⟩

/-! ## Go maps, mutexes and calls that may block -/

/-- A Go `map[int]V`, as the list of its entries; iteration order is not
observable through the operations below. -/
structure GoMap (V : Type) where
  entries : List (Int × V)
  deriving DecidableEq, Repr

namespace GoMap

/-- The result of `make(map[int]V)`. -/
def empty {V : Type} : GoMap V := ⟨[]⟩

/-- Builtin `len(m)`. -/
def len {V : Type} (m : GoMap V) : Nat := m.entries.length

/-- Lookup `v, ok := m[k]`; a key that is absent gives `none`. -/
def get {V : Type} (m : GoMap V) (k : Int) : Option V := m.entries.lookup k

/-- The `ok` of `_, ok := m[k]`. -/
def contains {V : Type} (m : GoMap V) (k : Int) : Bool := (m.get k).isSome

/-- Assignment `m[k] = v`: replaces the entry of `k`, or adds one. -/
def set {V : Type} (m : GoMap V) (k : Int) (v : V) : GoMap V :=
  if m.contains k then ⟨m.entries.map fun e => if e.1 = k then (k, v) else e⟩
  else ⟨m.entries ++ [(k, v)]⟩

/-- Builtin `delete(m, k)`; deleting an absent key does nothing. -/
def delete {V : Type} (m : GoMap V) (k : Int) : GoMap V :=
  ⟨m.entries.filter fun e => e.1 ≠ k⟩

/-- The keys of the map. -/
def keys {V : Type} (m : GoMap V) : List Int := m.entries.map Prod.fst

end GoMap

/-- A `sync.RWMutex`: whether a writer holds it, and how many readers do. -/
structure RWMutex where
  writer : Bool
  readers : Nat
  deriving DecidableEq, Repr

namespace RWMutex

/-- The zero value: an unlocked mutex. -/
def unlocked : RWMutex := ⟨false, 0⟩

/-- Method `Lock`: acquires the mutex for writing when nobody holds it;
`none` when it is held, in which case the caller waits. -/
def Lock (m : RWMutex) : Option RWMutex :=
  if m.writer = false ∧ m.readers = 0 then some { m with writer := true } else none

/-- Method `Unlock`. -/
def Unlock (m : RWMutex) : RWMutex := { m with writer := false }

/-- Method `RLock`: acquires the mutex for reading when no writer holds it;
`none` when one does, in which case the caller waits. -/
def RLock (m : RWMutex) : Option RWMutex :=
  if m.writer = false then some { m with readers := m.readers + 1 } else none

/-- Method `RUnlock`. -/
def RUnlock (m : RWMutex) : RWMutex := { m with readers := m.readers - 1 }

end RWMutex

/-- Outcome of a call on a shared object of type `σ`, run with no other
goroutine active: it returns `ret` and leaves the object as `state`, or it
waits for ever on a mutex and the object stays as `state`. -/
inductive Call (σ α : Type) where
  | returned (state : σ) (ret : α)
  | blocked (state : σ)
  deriving DecidableEq, Repr

namespace Call

/-- The object after the call, whether the call returned or not. -/
def state {σ α : Type} : Call σ α → σ
  | returned s _ => s
  | blocked s => s

/-- The value returned, if the call returned. -/
def ret {σ α : Type} : Call σ α → Option α
  | returned _ a => some a
  | blocked _ => none

end Call

/-! ## arena.go -/

/-- Type `float64`, carried as its IEEE-754 bit pattern. -/
structure Float64 where
  bits : Nat
  deriving DecidableEq, Repr

/-- The constant `0` of type `float64`. -/
def Float64.zero : Float64 := ⟨0⟩

/-- A `time.Time`: nanoseconds, `0` for the zero time. -/
abbrev Time := Int

inductive ArenaState where
  | ArenaStateWaiting
  | ArenaStateActive
  | ArenaStateEnded
  deriving DecidableEq, Repr

open ArenaState

/-- The `iota` value of an arena state. -/
def ArenaState.toInt : ArenaState → Int
  | ArenaStateWaiting => 0
  | ArenaStateActive => 1
  | ArenaStateEnded => 2

/-- Type `Team`, an `int`. -/
abbrev Team := Int

def TeamNone : Team := 0
def TeamChaos : Team := 1
def TeamBalance : Team := 2
def TeamOrder : Team := 3

structure ArenaPlayer where
  PlayerID : Int
  Team : Team
  X : Float64
  Y : Float64
  Health : Int
  Score : Int
  deriving DecidableEq, Repr

structure Arena where
  ID : Int
  Name : String
  MaxPlayers : Int
  Players : GoMap ArenaPlayer
  State : ArenaState
  StartTime : Time
  EndTime : Time
  GridID : Int
  mu : RWMutex
  deriving DecidableEq, Repr

/-- The two errors of `Arena.AddPlayer`. -/
inductive ArenaError where
  /-- Error "arena is full". -/
  | arenaIsFull
  /-- Error "player already in arena". -/
  | playerAlreadyInArena
  deriving DecidableEq, Repr

/-- The directory of arenas; an arena pointer is carried as the arena. -/
structure ArenaManager where
  Arenas : GoMap Arena
  mu : RWMutex
  deriving DecidableEq, Repr

/-- Function `NewArenaManager`. -/
def NewArenaManager : ArenaManager := { Arenas := GoMap.empty, mu := RWMutex.unlocked }

/-- Method `ArenaManager.CreateArena`: builds the arena, stores it under
`id` while holding the manager lock, and returns it. -/
def ArenaManager.CreateArena (am : ArenaManager) (id : Int) (name : String)
    (maxPlayers : Int) (gridID : Int) : Call ArenaManager Arena :=
  let arena : Arena :=
    { ID := id, Name := name, MaxPlayers := maxPlayers, Players := GoMap.empty,
      State := ArenaStateWaiting, StartTime := 0, EndTime := 0, GridID := gridID,
      mu := RWMutex.unlocked }
  match am.mu.Lock with
  | none => .blocked am
  | some mu =>
    let am1 := { am with mu := mu, Arenas := am.Arenas.set id arena }
    .returned { am1 with mu := am1.mu.Unlock } arena

/-- Method `Arena.AddPlayer`; `none` is the `nil` error. -/
def Arena.AddPlayer (a : Arena) (playerID : Int) (team : Team) :
    Call Arena (Option ArenaError) :=
  match a.mu.Lock with
  | none => .blocked a
  | some mu =>
    let a1 := { a with mu := mu }
    if (a1.Players.len : Int) ≥ a1.MaxPlayers then
      .returned { a1 with mu := a1.mu.Unlock } (some .arenaIsFull)
    else if a1.Players.contains playerID then
      .returned { a1 with mu := a1.mu.Unlock } (some .playerAlreadyInArena)
    else
      let arenaPlayer : ArenaPlayer :=
        { PlayerID := playerID, Team := team, X := Float64.zero, Y := Float64.zero,
          Health := 100, Score := 0 }
      let a2 := { a1 with Players := a1.Players.set playerID arenaPlayer }
      .returned { a2 with mu := a2.mu.Unlock } none

/-- Method `Arena.RemovePlayer`. -/
def Arena.RemovePlayer (a : Arena) (playerID : Int) : Call Arena Unit :=
  match a.mu.Lock with
  | none => .blocked a
  | some mu =>
    let a1 := { a with mu := mu }
    let a2 := { a1 with Players := a1.Players.delete playerID }
    .returned { a2 with mu := a2.mu.Unlock } ()

/-- Method `Arena.GetPlayer`; `none` is the `nil` pointer. -/
def Arena.GetPlayer (a : Arena) (playerID : Int) : Call Arena (Option ArenaPlayer) :=
  match a.mu.RLock with
  | none => .blocked a
  | some mu =>
    let a1 := { a with mu := mu }
    .returned { a1 with mu := a1.mu.RUnlock } (a1.Players.get playerID)

/-- Method `Arena.UpdatePlayerPosition`. -/
def Arena.UpdatePlayerPosition (a : Arena) (playerID : Int) (x y : Float64) :
    Call Arena Unit :=
  match a.mu.Lock with
  | none => .blocked a
  | some mu =>
    let a1 := { a with mu := mu }
    match a1.Players.get playerID with
    | some player =>
      let a2 := { a1 with Players := a1.Players.set playerID { player with X := x, Y := y } }
      .returned { a2 with mu := a2.mu.Unlock } ()
    | none => .returned { a1 with mu := a1.mu.Unlock } ()

/-- Method `Arena.StartArena`; `now` is the reading of `time.Now()`. -/
def Arena.StartArena (a : Arena) (now : Time) : Call Arena Unit :=
  match a.mu.Lock with
  | none => .blocked a
  | some mu =>
    let a1 := { a with mu := mu }
    if a1.State ≠ ArenaStateWaiting then
      .returned { a1 with mu := a1.mu.Unlock } ()
    else
      let a2 := { a1 with State := ArenaStateActive, StartTime := now }
      .returned { a2 with mu := a2.mu.Unlock } ()

/-- Method `Arena.EndArena`; `now` is the reading of `time.Now()`. -/
def Arena.EndArena (a : Arena) (now : Time) : Call Arena Unit :=
  match a.mu.Lock with
  | none => .blocked a
  | some mu =>
    let a1 := { a with mu := mu }
    if a1.State ≠ ArenaStateActive then
      .returned { a1 with mu := a1.mu.Unlock } ()
    else
      let a2 := { a1 with State := ArenaStateEnded, EndTime := now }
      .returned { a2 with mu := a2.mu.Unlock } ()

/-- Method `Arena.GetPlayerCount`. -/
def Arena.GetPlayerCount (a : Arena) : Call Arena Int :=
  match a.mu.RLock with
  | none => .blocked a
  | some mu =>
    let a1 := { a with mu := mu }
    .returned { a1 with mu := a1.mu.RUnlock } (a1.Players.len : Int)

/-- Method `Arena.IsFull`. -/
def Arena.IsFull (a : Arena) : Call Arena Bool :=
  match a.mu.RLock with
  | none => .blocked a
  | some mu =>
    let a1 := { a with mu := mu }
    .returned { a1 with mu := a1.mu.RUnlock } (decide ((a1.Players.len : Int) ≥ a1.MaxPlayers))

/-! ## game.go: UpdateArena -/

/-- Function `UpdateArena`: takes the arena lock, then, for a waiting arena,
asks `GetPlayerCount` and, with two players or more, `StartArena`; the
`switch` on the state that follows has empty cases. `now` is the reading of
`time.Now()` inside `StartArena`. -/
def UpdateArena (arena : Arena) (now : Time) : Call Arena Unit :=
  match arena.mu.Lock with
  | none => .blocked arena
  | some mu =>
    let a1 := { arena with mu := mu }
    if a1.State = ArenaStateWaiting then
      match a1.GetPlayerCount with
      | .blocked a2 => .blocked a2
      | .returned a2 count =>
        if count ≥ 2 then
          match a2.StartArena now with
          | .blocked a3 => .blocked a3
          | .returned a3 _ =>
            match a3.GetPlayerCount with
            | .blocked a4 => .blocked a4
            | .returned a4 _ => .returned { a4 with mu := a4.mu.Unlock } ()
        else .returned { a2 with mu := a2.mu.Unlock } ()
    else .returned { a1 with mu := a1.mu.Unlock } ()

/-! ## Sequences of calls on one arena -/

/-- One call on an arena, with its arguments and the clock reading it takes. -/
inductive ArenaOp where
  | addPlayer (playerID : Int) (team : Team)
  | removePlayer (playerID : Int)
  | updatePlayerPosition (playerID : Int) (x y : Float64)
  | startArena (now : Time)
  | endArena (now : Time)
  | updateArena (now : Time)
  deriving DecidableEq, Repr

/-- The arena after one call, whether the call returned or is left waiting. -/
def ArenaOp.apply (a : Arena) : ArenaOp → Arena
  | .addPlayer playerID team => (a.AddPlayer playerID team).state
  | .removePlayer playerID => (a.RemovePlayer playerID).state
  | .updatePlayerPosition playerID x y => (a.UpdatePlayerPosition playerID x y).state
  | .startArena now => (a.StartArena now).state
  | .endArena now => (a.EndArena now).state
  | .updateArena now => (UpdateArena a now).state

/-- The arena after a sequence of calls, made one after the other. -/
def runOps (a : Arena) (ops : List ArenaOp) : Arena := ops.foldl ArenaOp.apply a

/-- The arena after a sequence of `AddPlayer` calls, with the number of
calls that returned the `nil` error. -/
def addAll (a : Arena) : List (Int × Team) → Arena × Nat
  | [] => (a, 0)
  | (playerID, team) :: rest =>
    let c := a.AddPlayer playerID team
    let r := addAll c.state rest
    (r.1, r.2 + (if c.ret = some none then 1 else 0))

/-- The arena the tests build: `&Arena{ID: 1, Name: "Test Arena",
MaxPlayers: maxPlayers, Players: make(map[int]*ArenaPlayer), State:
ArenaStateWaiting}`. -/
def testArena (maxPlayers : Int) : Arena :=
  { ID := 1, Name := "Test Arena", MaxPlayers := maxPlayers, Players := GoMap.empty,
    State := ArenaStateWaiting, StartTime := 0, EndTime := 0, GridID := 0,
    mu := RWMutex.unlocked }

/-! ## spell.go -/

/-- A `time.Duration`: nanoseconds. -/
abbrev Time.Duration := Int

/-- Constant `time.Millisecond`. -/
def Millisecond : Time.Duration := 1000000

/-- Constant `time.Second`. -/
def Second : Time.Duration := 1000000000

/-- Method `Time.Sub`: `t - u` as a duration (for readings less than 292
years apart, where Go does not saturate). -/
def Time.Sub (t u : Time) : Time.Duration := t - u

/-- Method `Time.After`: `t` is strictly after `u`. -/
def Time.After (t u : Time) : Bool := decide (u < t)

/-- Method `Time.Add`. -/
def Time.Add (t : Time) (d : Time.Duration) : Time := t + d

def SpellEffectNone : Int := 0
def SpellEffectDamage : Int := 1
def SpellEffectHealing : Int := 2
def SpellEffectSpeed : Int := 3
def SpellEffectShield : Int := 4
def SpellEffectSlow : Int := 5
def SpellEffectStun : Int := 6

def SpellElementNone : Int := 0
def SpellElementFire : Int := 1
def SpellElementCold : Int := 2
def SpellElementLight : Int := 3
def SpellElementVoid : Int := 4
def SpellElementHoly : Int := 5
def SpellElementEarth : Int := 6
def SpellElementNature : Int := 7
def SpellElementAir : Int := 8
def SpellElementMana : Int := 9

def SpellFriendlyEnemy : Int := 0
def SpellFriendlyAlly : Int := 1
def SpellFriendlySelf : Int := 2

def SpellProjectileInstant : Int := 0
def SpellProjectileBolt : Int := 1
def SpellProjectileBall : Int := 2
def SpellProjectileWave : Int := 3

/-- A spell definition. `Range` and `Speed` are `float64` bit patterns. -/
structure Spell where
  ID : Int
  Name : String
  Description : String
  EffectType : Int
  ElementType : Int
  FriendlyType : Int
  ProjectileType : Int
  Damage : Int
  Healing : Int
  Duration : Time.Duration
  Cooldown : Time.Duration
  Range : Float64
  Speed : Float64
  deriving DecidableEq, Repr

structure SpellManager where
  Spells : GoMap Spell
  mu : RWMutex
  deriving DecidableEq, Repr

/-- The slice of definitions in `initializeSpells`; a field the literal
leaves out has its zero value. -/
def initialSpells : List Spell :=
  [ { ID := 1, Name := "Fire Bolt", Description := "Launches a bolt of fire",
      EffectType := SpellEffectDamage, ElementType := SpellElementFire,
      FriendlyType := SpellFriendlyEnemy, ProjectileType := SpellProjectileBolt,
      Damage := 25, Healing := 0, Duration := 2 * Second, Cooldown := 1 * Second,
      Range := ⟨0x4059000000000000⟩, Speed := ⟨0x4069000000000000⟩ },
    { ID := 2, Name := "Heal", Description := "Restores health to an ally",
      EffectType := SpellEffectHealing, ElementType := SpellElementHoly,
      FriendlyType := SpellFriendlyAlly, ProjectileType := SpellProjectileInstant,
      Damage := 0, Healing := 30, Duration := 0, Cooldown := 3 * Second,
      Range := ⟨0x4049000000000000⟩, Speed := Float64.zero },
    { ID := 3, Name := "Speed Boost", Description := "Increases movement speed",
      EffectType := SpellEffectSpeed, ElementType := SpellElementAir,
      FriendlyType := SpellFriendlySelf, ProjectileType := SpellProjectileInstant,
      Damage := 0, Healing := 0, Duration := 10 * Second, Cooldown := 15 * Second,
      Range := Float64.zero, Speed := Float64.zero },
    { ID := 4, Name := "Ice Blast", Description := "Freezes and damages enemies",
      EffectType := SpellEffectSlow, ElementType := SpellElementCold,
      FriendlyType := SpellFriendlyEnemy, ProjectileType := SpellProjectileBall,
      Damage := 20, Healing := 0, Duration := 3 * Second, Cooldown := 2 * Second,
      Range := ⟨0x4054000000000000⟩, Speed := ⟨0x4062C00000000000⟩ },
    { ID := 5, Name := "Lightning Strike", Description := "Instant lightning damage",
      EffectType := SpellEffectDamage, ElementType := SpellElementLight,
      FriendlyType := SpellFriendlyEnemy, ProjectileType := SpellProjectileInstant,
      Damage := 40, Healing := 0, Duration := 0, Cooldown := 4 * Second,
      Range := ⟨0x404E000000000000⟩, Speed := Float64.zero } ]

/-- Method `SpellManager.initializeSpells`: `sm.Spells[spell.ID] = spell` for
each definition of the slice. -/
def SpellManager.initializeSpells (sm : SpellManager) : SpellManager :=
  initialSpells.foldl (fun m spell => { m with Spells := m.Spells.set spell.ID spell }) sm

/-- Function `NewSpellManager`. -/
def NewSpellManager : SpellManager :=
  SpellManager.initializeSpells { Spells := GoMap.empty, mu := RWMutex.unlocked }

/-- Method `SpellManager.GetSpell`; `none` is the `nil` pointer. -/
def SpellManager.GetSpell (sm : SpellManager) (id : Int) : Call SpellManager (Option Spell) :=
  match sm.mu.RLock with
  | none => .blocked sm
  | some mu =>
    let sm1 := { sm with mu := mu }
    .returned { sm1 with mu := sm1.mu.RUnlock } (sm1.Spells.get id)

/-- An active spell cast; `ID` is an `int64`. -/
structure SpellInstance where
  ID : Int
  SpellID : Int
  CasterID : Int
  TargetID : Int
  X : Float64
  Y : Float64
  VelocityX : Float64
  VelocityY : Float64
  StartTime : Time
  Duration : Time.Duration
  deriving DecidableEq, Repr

structure SpellSystem where
  SpellManager : SpellManager
  ActiveSpells : GoMap SpellInstance
  CasterCooldowns : GoMap (GoMap Time)
  mu : RWMutex
  deriving DecidableEq, Repr

/-- Function `NewSpellSystem`. -/
def NewSpellSystem : SpellSystem :=
  { SpellManager := NewSpellManager, ActiveSpells := GoMap.empty,
    CasterCooldowns := GoMap.empty, mu := RWMutex.unlocked }

/-- The two errors of `CastSpell`. -/
inductive SpellError where
  /-- Error "spell %d not found". -/
  | spellNotFound (spellID : Int)
  /-- Error "spell %d is on cooldown". -/
  | spellOnCooldown (spellID : Int)
  deriving DecidableEq, Repr

/-- An `int64` kept in range by two's-complement wrap-around. -/
def wrapInt64 (x : Int) : Int := (x + 2 ^ 63) % 2 ^ 64 - 2 ^ 63

/-- Function `generateSpellID`, on the package variable `spellIDCounter`:
`atomic.AddInt64(&spellIDCounter, 1) + time.Now().UnixNano()`. Returns the
counter afterwards and the ID. -/
def generateSpellID (spellIDCounter : Int) (unixNano : Int) : Int × Int :=
  let c := wrapInt64 (spellIDCounter + 1)
  (c, wrapInt64 (c + unixNano))

/-- The clock readings one `CastSpell` call takes, in program order: in
`canCastSpell`, in `generateSpellID` (wall clock, as `UnixNano`), for
`StartTime`, and in `setCooldown`. -/
structure CastClock where
  check : Time
  unixNano : Int
  start : Time
  set : Time
  deriving DecidableEq, Repr

/-- Method `SpellSystem.canCastSpell`; `now` is the reading of `time.Now()`. -/
def SpellSystem.canCastSpell (ss : SpellSystem) (playerID spellID : Int) (now : Time) :
    Call SpellSystem Bool :=
  match ss.mu.RLock with
  | none => .blocked ss
  | some mu =>
    let ss1 := { ss with mu := mu }
    let unlock : SpellSystem := { ss1 with mu := ss1.mu.RUnlock }
    match ss1.CasterCooldowns.get playerID with
    | some playerCooldowns =>
      match playerCooldowns.get spellID with
      | some cooldownEnd => .returned unlock (Time.After now cooldownEnd)
      | none => .returned unlock true
    | none => .returned unlock true

/-- Method `SpellSystem.setCooldown`; `now` is the reading of `time.Now()`. -/
def SpellSystem.setCooldown (ss : SpellSystem) (playerID spellID : Int)
    (duration : Time.Duration) (now : Time) : Call SpellSystem Unit :=
  match ss.mu.Lock with
  | none => .blocked ss
  | some mu =>
    let ss1 := { ss with mu := mu }
    let ss2 :=
      if ss1.CasterCooldowns.get playerID = none then
        { ss1 with CasterCooldowns := ss1.CasterCooldowns.set playerID GoMap.empty }
      else ss1
    let playerCooldowns := (ss2.CasterCooldowns.get playerID).getD GoMap.empty
    let ss3 := { ss2 with
      CasterCooldowns :=
        ss2.CasterCooldowns.set playerID (playerCooldowns.set spellID (Time.Add now duration)) }
    .returned { ss3 with mu := ss3.mu.Unlock } ()

/-- Method `SpellSystem.CastSpell`, on the spell system and the package
variable `spellIDCounter`. -/
def SpellSystem.CastSpell (ss : SpellSystem) (spellIDCounter : Int) (clock : CastClock)
    (casterID spellID : Int) (targetX targetY : Float64) (targetID : Int) :
    Call (SpellSystem × Int) (Except SpellError SpellInstance) :=
  match ss.SpellManager.GetSpell spellID with
  | .blocked sm => .blocked ({ ss with SpellManager := sm }, spellIDCounter)
  | .returned sm none =>
    .returned ({ ss with SpellManager := sm }, spellIDCounter) (.error (.spellNotFound spellID))
  | .returned sm (some spell) =>
    match SpellSystem.canCastSpell { ss with SpellManager := sm } casterID spellID clock.check with
    | .blocked ss2 => .blocked (ss2, spellIDCounter)
    | .returned ss2 false =>
      .returned (ss2, spellIDCounter) (.error (.spellOnCooldown spellID))
    | .returned ss2 true =>
      let gen := generateSpellID spellIDCounter clock.unixNano
      let spellInstance : SpellInstance :=
        { ID := gen.2, SpellID := spellID, CasterID := casterID, TargetID := targetID,
          X := targetX, Y := targetY, VelocityX := Float64.zero, VelocityY := Float64.zero,
          StartTime := clock.start, Duration := spell.Duration }
      match ss2.setCooldown casterID spellID spell.Cooldown clock.set with
      | .blocked ss3 => .blocked (ss3, gen.1)
      | .returned ss3 _ =>
        match ss3.mu.Lock with
        | none => .blocked (ss3, gen.1)
        | some mu =>
          let ss4 := { ss3 with mu := mu }
          let ss5 := { ss4 with ActiveSpells := ss4.ActiveSpells.set spellInstance.ID spellInstance }
          .returned ({ ss5 with mu := ss5.mu.Unlock }, gen.1) (.ok spellInstance)

/-- The `float64` operations `UpdateSpellSystem` uses, taken as given:
`x > 0`, `x + y`, `x * y` and `Duration.Seconds`. -/
structure Float64Ops where
  isPositive : Float64 → Bool
  add : Float64 → Float64 → Float64
  mul : Float64 → Float64 → Float64
  seconds : Time.Duration → Float64

/-- One round of the loop of `UpdateSpellSystem` on an entry, given the
definition `GetSpell` returned for it: the instance moved, or `none` when the
round deletes it. -/
def updateSpell (F : Float64Ops) (deltaTime : Time.Duration) (now : Time)
    (spellDef : Option Spell) (spell : SpellInstance) : Option SpellInstance :=
  let moved : SpellInstance :=
    match spellDef with
    | some d =>
      if F.isPositive d.Speed then
        { spell with
          X := F.add spell.X (F.mul spell.VelocityX (F.seconds deltaTime)),
          Y := F.add spell.Y (F.mul spell.VelocityY (F.seconds deltaTime)) }
      else spell
    | none => spell
  if moved.Duration > 0 ∧ Time.Sub now moved.StartTime > moved.Duration then none
  else some moved

/-- Method `SpellSystem.UpdateSpellSystem`; `now` is its reading of
`time.Now()`. Each round of the loop calls `GetSpell`, which waits when the
spell manager is locked for writing, in the first round already. -/
def SpellSystem.UpdateSpellSystem (F : Float64Ops) (ss : SpellSystem)
    (deltaTime : Time.Duration) (now : Time) : Call SpellSystem Unit :=
  match ss.mu.Lock with
  | none => .blocked ss
  | some mu =>
    let ss1 := { ss with mu := mu }
    if ss1.ActiveSpells.entries = [] then .returned { ss1 with mu := ss1.mu.Unlock } ()
    else
      match ss1.SpellManager.mu.RLock with
      | none => .blocked ss1
      | some _ =>
        let ss2 := { ss1 with
          ActiveSpells := ⟨ss1.ActiveSpells.entries.filterMap fun (e : Int × SpellInstance) =>
            (updateSpell F deltaTime now (ss1.SpellManager.Spells.get e.2.SpellID) e.2).map
              fun spell => (e.1, spell)⟩ }
        .returned { ss2 with mu := ss2.mu.Unlock } ()

/-- Method `SpellSystem.RemoveSpell`. -/
def SpellSystem.RemoveSpell (ss : SpellSystem) (spellID : Int) : Call SpellSystem Unit :=
  match ss.mu.Lock with
  | none => .blocked ss
  | some mu =>
    let ss1 := { ss with mu := mu }
    let ss2 := { ss1 with ActiveSpells := ss1.ActiveSpells.delete spellID }
    .returned { ss2 with mu := ss2.mu.Unlock } ()

/-- The cooldown end stored for `(playerID, spellID)`, if there is one. -/
def SpellSystem.cooldownEnd (ss : SpellSystem) (playerID spellID : Int) : Option Time :=
  (ss.CasterCooldowns.get playerID).bind fun playerCooldowns => playerCooldowns.get spellID

/-! ## Sequences of calls on the spell system -/

/-- One call on the spell system, with its arguments and clock readings. -/
inductive SpellOp where
  | cast (clock : CastClock) (casterID spellID : Int) (targetX targetY : Float64)
      (targetID : Int)
  | update (deltaTime : Time.Duration) (now : Time)
  deriving DecidableEq, Repr

/-- The spell system and `spellIDCounter` after one call. -/
def SpellOp.apply (F : Float64Ops) (w : SpellSystem × Int) : SpellOp → SpellSystem × Int
  | .cast clock casterID spellID targetX targetY targetID =>
    (w.1.CastSpell w.2 clock casterID spellID targetX targetY targetID).state
  | .update deltaTime now => ((SpellSystem.UpdateSpellSystem F w.1 deltaTime now).state, w.2)

/-- The instance the call returned, for a `CastSpell` that succeeded. -/
def SpellOp.result (w : SpellSystem × Int) : SpellOp → Option SpellInstance
  | .cast clock casterID spellID targetX targetY targetID =>
    match (w.1.CastSpell w.2 clock casterID spellID targetX targetY targetID).ret with
    | some (.ok spellInstance) => some spellInstance
    | _ => none
  | .update _ _ => none

/-- The spell system and `spellIDCounter` after a sequence of calls. -/
def runSpellOps (F : Float64Ops) (w : SpellSystem × Int) (ops : List SpellOp) :
    SpellSystem × Int :=
  ops.foldl (SpellOp.apply F) w

/-- The instances returned by the successful casts of a run, in order. -/
def castResults (F : Float64Ops) (w : SpellSystem × Int) : List SpellOp → List SpellInstance
  | [] => []
  | op :: rest => (op.result w).toList ++ castResults F (op.apply F w) rest

/-- The locks of a spell system that no call is holding: its own mutex is
unlocked and the spell manager has no writer. -/
def SpellSystem.Free (ss : SpellSystem) : Prop :=
  ss.mu = RWMutex.unlocked ∧ ss.SpellManager.mu.writer = false

/-- What `canCastSpell` computes from the cooldown table at reading `now`. -/
def SpellSystem.ready (ss : SpellSystem) (playerID spellID : Int) (now : Time) : Bool :=
  match ss.cooldownEnd playerID spellID with
  | some cooldownEnd => Time.After now cooldownEnd
  | none => true

/-- The cooldown table after the two assignments of `setCooldown`. -/
def cooldownsAfter (cd : GoMap (GoMap Time)) (playerID spellID : Int) (cooldownEnd : Time) :
    GoMap (GoMap Time) :=
  let cd1 := if cd.get playerID = none then cd.set playerID GoMap.empty else cd
  cd1.set playerID (((cd1.get playerID).getD GoMap.empty).set spellID cooldownEnd)

/-- Whether the call is a `CastSpell` of `spellID` by `playerID`. -/
def SpellOp.isCastOf (playerID spellID : Int) : SpellOp → Bool
  | .cast _ casterID sid _ _ _ => decide (casterID = playerID ∧ sid = spellID)
  | .update _ _ => false

/-- Whether every `CastSpell` of the sequence reads the clock in `setCooldown`
no earlier than in `canCastSpell`. -/
def SpellOp.clockForward : SpellOp → Bool
  | .cast clock _ _ _ _ _ => decide (clock.check ≤ clock.set)
  | .update _ _ => true

/-- Whether a `CastSpell` call returned an instance and the `nil` error. -/
def castOk (c : Call (SpellSystem × Int) (Except SpellError SpellInstance)) : Bool :=
  match c.ret with
  | some (.ok _) => true
  | _ => false

/-- Float operations for evaluating examples: nothing is positive, sums and
products are their first operand. No spell of an example moves. -/
def stillOps : Float64Ops :=
  { isPositive := fun _ => false, add := fun x _ => x, mul := fun x _ => x,
    seconds := fun _ => Float64.zero }

/-! ## entities.go -/

/-- A connected player; `Conn` is an opaque handle for the connection. -/
structure Player where
  ID : Int
  Name : String
  X : Float64
  Y : Float64
  Health : Int
  Conn : Nat
  LastSeen : Time
  deriving DecidableEq, Repr

/-- The game world; a player pointer in `Players` is carried as the player. -/
structure GameState where
  Players : GoMap Player
  ArenaManager : ArenaManager
  SpellSystem : SpellSystem
  mu : RWMutex
  deriving DecidableEq, Repr

/-- Function `NewGameState`. -/
def NewGameState : GameState :=
  { Players := GoMap.empty, ArenaManager := NewArenaManager, SpellSystem := NewSpellSystem,
    mu := RWMutex.unlocked }

/-- Method `GameState.AddPlayer`, for a player that is not `nil`. -/
def GameState.AddPlayer (gs : GameState) (p : Player) : Call GameState Unit :=
  match gs.mu.Lock with
  | none => .blocked gs
  | some mu =>
    let gs1 := { gs with mu := mu }
    let gs2 := { gs1 with Players := gs1.Players.set p.ID p }
    .returned { gs2 with mu := gs2.mu.Unlock } ()

/-- Method `GameState.RemovePlayer`. -/
def GameState.RemovePlayer (gs : GameState) (id : Int) : Call GameState Unit :=
  match gs.mu.Lock with
  | none => .blocked gs
  | some mu =>
    let gs1 := { gs with mu := mu }
    let gs2 := { gs1 with Players := gs1.Players.delete id }
    .returned { gs2 with mu := gs2.mu.Unlock } ()

/-- Method `GameState.GetPlayer`: the player and `exists`, as an option. -/
def GameState.GetPlayer (gs : GameState) (id : Int) : Call GameState (Option Player) :=
  match gs.mu.RLock with
  | none => .blocked gs
  | some mu =>
    let gs1 := { gs with mu := mu }
    .returned { gs1 with mu := gs1.mu.RUnlock } (gs1.Players.get id)

/-! ## game.go: the tick -/

def TICK_RATE : Int := 60

/-- Function `min` of game.go. -/
def minInt (a b : Int) : Int := if a < b then a else b

/-- What one tick takes from outside: `now` is the reading at the start of
`UpdateGameState`; `seen id` is the reading stored in `LastSeen` of the
player under key `id` and `since id` the reading `time.Since` takes next;
`arena` is the reading of `StartArena`; `spell` is the reading of
`UpdateSpellSystem`; `SavePlayer p` tells whether persisting `p` returns the
`nil` error. -/
structure TickEnv where
  now : Time
  seen : Int → Time
  since : Int → Time
  arena : Time
  spell : Time
  SavePlayer : Player → Bool

/-- First loop of `UpdateGameState`: every player whose `LastSeen` is more
than 30 seconds before `now` is passed to `SavePlayer` and deleted. Returns
the players left and the `SavePlayer` calls with their outcome. -/
def prunePlayers (env : TickEnv) (players : GoMap Player) : GoMap Player × List (Player × Bool) :=
  (⟨players.entries.filter fun e => ¬ (Time.Sub env.now e.2.LastSeen > 30 * Second)⟩,
   (players.entries.filter fun e => Time.Sub env.now e.2.LastSeen > 30 * Second).map
     fun e => (e.2, env.SavePlayer e.2))

/-- One round of the second loop on the player under key `id`. -/
def regenPlayer (env : TickEnv) (id : Int) (player : Player) : Player :=
  { player with Health := minInt 100 (wrapInt64 (player.Health + 1)), LastSeen := env.seen id }

/-- Second loop of `UpdateGameState`: health regeneration, refresh of
`LastSeen`, and the periodic save. Returns the players and the `SavePlayer`
calls with their outcome. -/
def regenPlayers (env : TickEnv) (players : GoMap Player) : GoMap Player × List (Player × Bool) :=
  (⟨players.entries.map fun e => (e.1, regenPlayer env e.1 e.2)⟩,
   ((players.entries.map fun e => (e.1, regenPlayer env e.1 e.2)).filter
      fun e => Time.Sub (env.since e.1) e.2.LastSeen > 10 * Second).map
     fun e => (e.2, env.SavePlayer e.2))

/-- The loop of `UpdateArenas` over the snapshot of the arenas. -/
def updateArenaList (now : Time) : List (Int × Arena) → Call (List (Int × Arena)) Unit
  | [] => .returned [] ()
  | (id, arena) :: rest =>
    match UpdateArena arena now with
    | .blocked arena1 => .blocked ((id, arena1) :: rest)
    | .returned arena1 _ =>
      match updateArenaList now rest with
      | .blocked rest1 => .blocked ((id, arena1) :: rest1)
      | .returned rest1 _ => .returned ((id, arena1) :: rest1) ()

/-- Function `UpdateArenas`: snapshot of the arenas under the manager's read
lock, `UpdateArena` on each, then `UpdateSpellSystem` with 16 ms. -/
def UpdateArenas (F : Float64Ops) (env : TickEnv) (gs : GameState) : Call GameState Unit :=
  match gs.ArenaManager.mu.RLock with
  | none => .blocked gs
  | some mu =>
    let am1 := { gs.ArenaManager with mu := mu }
    let am2 := { am1 with mu := am1.mu.RUnlock }
    match updateArenaList env.arena am2.Arenas.entries with
    | .blocked arenas => .blocked { gs with ArenaManager := { am2 with Arenas := ⟨arenas⟩ } }
    | .returned arenas _ =>
      let gs1 := { gs with ArenaManager := { am2 with Arenas := ⟨arenas⟩ } }
      match SpellSystem.UpdateSpellSystem F gs1.SpellSystem (16 * Millisecond) env.spell with
      | .blocked ss => .blocked { gs1 with SpellSystem := ss }
      | .returned ss _ => .returned { gs1 with SpellSystem := ss } ()

/-- Function `UpdateGameState`: under the game state lock, the prune loop,
the regeneration loop, then `UpdateArenas`. -/
def UpdateGameState (F : Float64Ops) (env : TickEnv) (gs : GameState) : Call GameState Unit :=
  match gs.mu.Lock with
  | none => .blocked gs
  | some mu =>
    let gs1 := { gs with mu := mu }
    let gs2 := { gs1 with Players := (prunePlayers env gs1.Players).1 }
    let gs3 := { gs2 with Players := (regenPlayers env gs2.Players).1 }
    match UpdateArenas F env gs3 with
    | .blocked gs4 => .blocked gs4
    | .returned gs4 _ => .returned { gs4 with mu := gs4.mu.Unlock } ()

/-- The `SavePlayer` calls of one `UpdateGameState` that got the lock, in
order, each with its outcome. -/
def savePlayerCalls (env : TickEnv) (gs : GameState) : List (Player × Bool) :=
  (prunePlayers env gs.Players).2 ++ (regenPlayers env (prunePlayers env gs.Players).1).2

/-- A tick environment for evaluating examples: every reading is `now` and
every save succeeds. -/
def tickAt (now : Time) : TickEnv :=
  { now := now, seen := fun _ => now, since := fun _ => now, arena := now, spell := now,
    SavePlayer := fun _ => true }

/-! ## packet.go: builders and payload parsers -/

/-- Little-endian `PutUint64`. -/
def PutUint64 (v : Nat) : List Byte :=
  [byteOf v, byteOf (v / 2 ^ 8), byteOf (v / 2 ^ 16), byteOf (v / 2 ^ 24),
   byteOf (v / 2 ^ 32), byteOf (v / 2 ^ 40), byteOf (v / 2 ^ 48), byteOf (v / 2 ^ 56)]

/-- Little-endian `Uint64`. -/
def Uint64 (b : List Byte) : Nat :=
  (b.getD 0 0).val + (b.getD 1 0).val * 2 ^ 8 + (b.getD 2 0).val * 2 ^ 16
    + (b.getD 3 0).val * 2 ^ 24 + (b.getD 4 0).val * 2 ^ 32 + (b.getD 5 0).val * 2 ^ 40
    + (b.getD 6 0).val * 2 ^ 48 + (b.getD 7 0).val * 2 ^ 56

/-- Function `binary.Write(buf, binary.LittleEndian, x)` for a `float64`:
the eight bytes of `math.Float64bits(x)`. -/
def binaryWriteFloat64 (x : Float64) : List Byte := PutUint64 x.bits

/-- Function `binary.Read(buf, binary.LittleEndian, &v)` for `v` a `float64`,
the returned error dropped as the parsers drop it: the variable afterwards
and the reader afterwards. -/
def binaryReadFloat64 (r : Reader) (v : Float64) : Float64 × Reader :=
  match ReadFull r 8 with
  | ⟨.ok bs, r1⟩ => (⟨Uint64 bs⟩, r1)
  | ⟨.error _, r1⟩ => (v, r1)

/-- Function `binary.Read(buf, binary.LittleEndian, &v)` for `v` an `int` or
a `Team` (an `int`), the returned error dropped as the parsers drop it.
`int` is not a fixed-size type: `binary.Read` returns the error
"binary.Read: invalid type" before it reads anything, so the variable keeps
its value and the reader its position. -/
def binaryReadInt (r : Reader) (v : Int) : Int × Reader := (v, r)

/-- Function `BuildLoginPacket`; a Go `string` is carried as its bytes. -/
def BuildLoginPacket (name : List Byte) : Packet := NewPacket PacketLogin name

/-- Function `BuildMovePacket`. -/
def BuildMovePacket (x y : Float64) : Packet :=
  NewPacket PacketMove (binaryWriteFloat64 x ++ binaryWriteFloat64 y)

/-- Function `BuildChatPacket`. -/
def BuildChatPacket (message : List Byte) : Packet := NewPacket PacketChat message

/-- The errors of the payload parsers. -/
inductive PayloadError where
  /-- Error "empty login data". -/
  | emptyLoginData
  /-- Error "insufficient move data". -/
  | insufficientMoveData
  /-- Error "empty chat data". -/
  | emptyChatData
  /-- Error "insufficient join arena data". -/
  | insufficientJoinArenaData
  /-- Error "insufficient leave arena data". -/
  | insufficientLeaveArenaData
  /-- Error "insufficient arena update data". -/
  | insufficientArenaUpdateData
  /-- Error "insufficient cast spell data". -/
  | insufficientCastSpellData
  deriving DecidableEq, Repr

/-- Function `ParseLoginPacket`. -/
def ParseLoginPacket (data : List Byte) : Except PayloadError (List Byte) :=
  if data.length = 0 then .error .emptyLoginData else .ok data

/-- Function `ParseMovePacket`. -/
def ParseMovePacket (data : List Byte) : Except PayloadError (Float64 × Float64) :=
  if data.length < 16 then .error .insufficientMoveData
  else
    let rx := binaryReadFloat64 data Float64.zero
    let ry := binaryReadFloat64 rx.2 Float64.zero
    .ok (rx.1, ry.1)

/-- Function `ParseChatPacket`. -/
def ParseChatPacket (data : List Byte) : Except PayloadError (List Byte) :=
  if data.length = 0 then .error .emptyChatData else .ok data

/-- Function `ParseJoinArenaPacket`: `arenaID` is an `int` and `team` a
`Team`, both read with `binary.Read`. -/
def ParseJoinArenaPacket (data : List Byte) : Except PayloadError (Int × Team) :=
  if data.length < 8 then .error .insufficientJoinArenaData
  else
    let ra := binaryReadInt data 0
    let rt := binaryReadInt ra.2 TeamNone
    .ok (ra.1, rt.1)

/-- Function `ParseLeaveArenaPacket`. -/
def ParseLeaveArenaPacket (data : List Byte) : Except PayloadError Int :=
  if data.length < 4 then .error .insufficientLeaveArenaData
  else .ok (binaryReadInt data 0).1

/-- Function `ParseArenaUpdatePacket`. -/
def ParseArenaUpdatePacket (data : List Byte) : Except PayloadError (Int × Float64 × Float64) :=
  if data.length < 20 then .error .insufficientArenaUpdateData
  else
    let ra := binaryReadInt data 0
    let rx := binaryReadFloat64 ra.2 Float64.zero
    let ry := binaryReadFloat64 rx.2 Float64.zero
    .ok (ra.1, rx.1, ry.1)

/-- Function `ParseCastSpellPacket`: `spellID` and `targetID` are `int`s,
read with `binary.Read`. Returns spell ID, target x, target y, target ID. -/
def ParseCastSpellPacket (data : List Byte) :
    Except PayloadError (Int × Float64 × Float64 × Int) :=
  if data.length < 24 then .error .insufficientCastSpellData
  else
    let rs := binaryReadInt data 0
    let rx := binaryReadFloat64 rs.2 Float64.zero
    let ry := binaryReadFloat64 rx.2 Float64.zero
    let rt := binaryReadInt ry.2 0
    .ok (rs.1, rx.1, ry.1, rt.1)

/-! ## protocol.go: dispatch, debug log, join -/

def MsgMove : Nat := 2
def MsgChat : Nat := 3
def MsgLogout : Nat := 4
def MsgPing : Nat := 5
def MsgJoinArena : Nat := 6
def MsgLeaveArena : Nat := 7
def MsgArenaList : Nat := 8
def MsgArenaUpdate : Nat := 9
def MsgCastSpell : Nat := 10
def MsgSpellList : Nat := 11

/-- The handlers `HandleMessage` can call. -/
inductive Handler where
  | handleLogin
  | handleMove
  | handleChat
  | handleLogout
  | handlePing
  | handleJoinArena
  | handleLeaveArena
  | handleArenaList
  | handleArenaUpdate
  | handleCastSpell
  | handleSpellList
  | handleUnknownMessage
  deriving DecidableEq, Repr

/-- The `switch msg.Type` of `HandleMessage`: the one handler it calls. -/
def HandleMessage.handler (msg : Message) : Handler :=
  if msg.Typ = MsgLogin then .handleLogin
  else if msg.Typ = MsgMove then .handleMove
  else if msg.Typ = MsgChat then .handleChat
  else if msg.Typ = MsgLogout then .handleLogout
  else if msg.Typ = MsgPing then .handlePing
  else if msg.Typ = MsgJoinArena then .handleJoinArena
  else if msg.Typ = MsgLeaveArena then .handleLeaveArena
  else if msg.Typ = MsgArenaList then .handleArenaList
  else if msg.Typ = MsgArenaUpdate then .handleArenaUpdate
  else if msg.Typ = MsgCastSpell then .handleCastSpell
  else if msg.Typ = MsgSpellList then .handleSpellList
  else .handleUnknownMessage

/-- A captured packet; `Timestamp` is the formatted clock reading. -/
structure DebugPacketCapture where
  MessageType : Nat
  Data : List Byte
  PlayerID : Int
  PlayerName : String
  Timestamp : String
  deriving DecidableEq, Repr

structure DebugPacketLogger where
  CapturedPackets : List DebugPacketCapture
  MaxPackets : Int
  Enabled : Bool
  deriving DecidableEq, Repr

/-- Method `DebugPacketLogger.CapturePacket`; `timestamp` is the formatted
reading of `time.Now()`. -/
def DebugPacketLogger.CapturePacket (d : DebugPacketLogger) (msg : Message) (player : Player)
    (timestamp : String) : DebugPacketLogger :=
  if !d.Enabled then d
  else
    let capture : DebugPacketCapture :=
      { MessageType := msg.Typ, Data := msg.Data, PlayerID := player.ID,
        PlayerName := player.Name, Timestamp := timestamp }
    let d1 := { d with CapturedPackets := d.CapturedPackets ++ [capture] }
    if (d1.CapturedPackets.length : Int) > d1.MaxPackets then
      { d1 with CapturedPackets := d1.CapturedPackets.drop 1 }
    else d1

/-- Function `handleUnknownMessage`, on the package variable `debugLogger`;
it has no access to the game state and does not write to the player. -/
def handleUnknownMessage (debugLogger : DebugPacketLogger) (msg : Message) (player : Player)
    (timestamp : String) : DebugPacketLogger :=
  if debugLogger.Enabled then debugLogger.CapturePacket msg player timestamp else debugLogger

/-- Method `ArenaManager.GetArena`; `none` is the `nil` pointer. -/
def ArenaManager.GetArena (am : ArenaManager) (id : Int) : Call ArenaManager (Option Arena) :=
  match am.mu.RLock with
  | none => .blocked am
  | some mu =>
    let am1 := { am with mu := mu }
    .returned { am1 with mu := am1.mu.RUnlock } (am1.Arenas.get id)

/-- The game state with the arena under `id` replaced: what a method called
through the pointer `GetArena(id)` returned leaves. -/
def GameState.withArena (gs : GameState) (id : Int) (arena : Arena) : GameState :=
  { gs with ArenaManager := { gs.ArenaManager with Arenas := gs.ArenaManager.Arenas.set id arena } }

/-- Function `handleJoinArena`. -/
def handleJoinArena (msg : Message) (player : Player) (gs : GameState) : Call GameState Unit :=
  match ParseJoinArenaPacket msg.Data with
  | .error _ => .returned gs ()
  | .ok (arenaID, team) =>
    match gs.ArenaManager.GetArena arenaID with
    | .blocked am => .blocked { gs with ArenaManager := am }
    | .returned am none => .returned { gs with ArenaManager := am } ()
    | .returned am (some arena) =>
      let gs1 := { gs with ArenaManager := am }
      match arena.IsFull with
      | .blocked arena1 => .blocked (gs1.withArena arenaID arena1)
      | .returned arena1 true => .returned (gs1.withArena arenaID arena1) ()
      | .returned arena1 false =>
        match arena1.AddPlayer player.ID team with
        | .blocked arena2 => .blocked (gs1.withArena arenaID arena2)
        | .returned arena2 _ => .returned (gs1.withArena arenaID arena2) ()

/-- Function `initializeArenas` of main.go: arenas 1, 2 and 3, capacity 8. -/
def initializeArenas (gs : GameState) : Call GameState Unit :=
  match gs.ArenaManager.CreateArena 1 "Chaos Arena" 8 1 with
  | .blocked am => .blocked { gs with ArenaManager := am }
  | .returned am1 _ =>
    match am1.CreateArena 2 "Balance Arena" 8 2 with
    | .blocked am => .blocked { gs with ArenaManager := am }
    | .returned am2 _ =>
      match am2.CreateArena 3 "Order Arena" 8 3 with
      | .blocked am => .blocked { gs with ArenaManager := am }
      | .returned am3 _ => .returned { gs with ArenaManager := am3 } ()

/-- The payload the test client sends to cast spell 1 at (50, 50) on player
2: `PutUint32` of 1, `PutUint64` of 50 twice, `PutUint32` of 2. -/
def castData : List Byte := PutUint32 1 ++ PutUint64 50 ++ PutUint64 50 ++ PutUint32 2

/-- The payload the test client sends to join arena 1 as team Chaos:
`PutUint32` of 1, `PutUint32` of `TeamChaos`. -/
def joinData : List Byte := PutUint32 1 ++ PutUint32 1

/-- The handler a frame reaches: `ParseMessage` on the bytes, then the
`switch` of `HandleMessage`; `none` when `ParseMessage` fails. -/
def dispatchFrame (bytes : Reader) : Option Handler :=
  match (ParseMessage bytes).val with
  | .ok msg => some (HandleMessage.handler msg)
  | .error _ => none

/-! ## Further methods and harnesses -/

/-- Method `SpellManager.GetAllSpells`: the definitions of the table, in the
order the map yields them. -/
def SpellManager.GetAllSpells (sm : SpellManager) : Call SpellManager (List Spell) :=
  match sm.mu.RLock with
  | none => .blocked sm
  | some mu =>
    let sm1 := { sm with mu := mu }
    .returned { sm1 with mu := sm1.mu.RUnlock } (sm1.Spells.entries.map Prod.snd)

/-- The debug log after a sequence of `CapturePacket` calls, each with its
message, player and formatted clock reading. -/
def captureAll (d : DebugPacketLogger) (cs : List (Message × Player × String)) :
    DebugPacketLogger :=
  cs.foldl (fun d1 c => d1.CapturePacket c.1 c.2.1 c.2.2) d

/-- The entry `CapturePacket` builds for a message, player and timestamp. -/
def captureOf (c : Message × Player × String) : DebugPacketCapture :=
  { MessageType := c.1.Typ, Data := c.1.Data, PlayerID := c.2.1.ID, PlayerName := c.2.1.Name,
    Timestamp := c.2.2 }

/-- The game state after a sequence of `UpdateGameState` ticks, with nothing
else happening in between. -/
def runTicks (F : Float64Ops) (gs : GameState) (envs : List TickEnv) : GameState :=
  envs.foldl (fun g env => (UpdateGameState F env g).state) gs

/-- A tick whose clock does not run backwards: the readings stored in
`LastSeen` are not earlier than the reading at the start of the tick. -/
def TickEnv.forward (env : TickEnv) : Prop := ∀ id, env.now ≤ env.seen id

/-- Consecutive ticks start at most 30 seconds apart, the first of them at
most 30 seconds after `prev`. -/
def ticksClose (prev : Time) : List TickEnv → Prop
  | [] => True
  | env :: rest => Time.Sub env.now prev ≤ 30 * Second ∧ ticksClose env.now rest

/-- Function `binary.Write(buf, binary.LittleEndian, v)` for `v` an `int`:
`int` is not a fixed-size type, so `binary.Write` returns an error and
writes nothing; the builders drop the error. -/
def binaryWriteInt (_v : Int) : List Byte := []

/-- The bytes of a Go `string` held as a `String`: its UTF-8 encoding. -/
def stringBytes (s : String) : List Byte := s.toUTF8.data.toList.map fun b => byteOf b.toNat

/-- Function `BuildPlayerUpdatePacket`. -/
def BuildPlayerUpdatePacket (player : Player) : Packet :=
  NewPacket PacketPlayerUpdate
    (binaryWriteInt player.ID ++ stringBytes player.Name ++ [0]
      ++ binaryWriteFloat64 player.X ++ binaryWriteFloat64 player.Y
      ++ binaryWriteInt player.Health)

/-! ## Lemmas: byte order and reads -/

theorem Uint16_PutUint16 (v : Nat) (h : v < 2 ^ 16) : Uint16 (PutUint16 v) = v := by
  simp only [Uint16, PutUint16, byteOf, List.getD_cons_zero, List.getD_cons_succ]
  omega

theorem Uint32_PutUint32 (v : Nat) (h : v < 2 ^ 32) : Uint32 (PutUint32 v) = v := by
  simp only [Uint32, PutUint32, byteOf, List.getD_cons_zero, List.getD_cons_succ]
  omega

theorem ReadFull_append (a b : List Byte) : ReadFull (a ++ b) a.length = ⟨.ok a, b⟩ := by
  simp [ReadFull]

theorem ReadFull_short (r : Reader) (n : Nat) (h : r.length < n) :
    ∃ e, (ReadFull r n).val = .error e := by
  unfold ReadFull
  rw [if_neg (by omega)]
  split
  · exact ⟨_, rfl⟩
  · exact ⟨_, rfl⟩

theorem ReadFull_enough (r : Reader) (n : Nat) (h : n ≤ r.length) :
    ReadFull r n = ⟨.ok (r.take n), r.drop n⟩ := by
  simp [ReadFull, h]

/-- A frame followed by anything decodes to the frame and leaves the rest. -/
theorem DeserializePacket_frame (t n : Nat) (d rest : List Byte)
    (ht : t < 2 ^ 16) (hn : n < 2 ^ 32) (hd : d.length = n) :
    DeserializePacket (PutUint16 t ++ PutUint32 n ++ d ++ rest)
      = ⟨.ok { Typ := t, Length := n, Data := d }, rest⟩ := by
  have h1 : ReadFull (PutUint16 t ++ (PutUint32 n ++ d ++ rest)) 2
      = ⟨.ok (PutUint16 t), PutUint32 n ++ d ++ rest⟩ :=
    ReadFull_append (PutUint16 t) _
  have h2 : ReadFull (PutUint32 n ++ (d ++ rest)) 4 = ⟨.ok (PutUint32 n), d ++ rest⟩ :=
    ReadFull_append (PutUint32 n) _
  have h3 : ReadFull (d ++ rest) n = ⟨.ok d, rest⟩ := hd ▸ ReadFull_append d rest
  simp only [List.append_assoc] at h1 h2 h3 ⊢
  simp only [DeserializePacket, binaryReadUint16, binaryReadUint32, h1, h2,
    Uint16_PutUint16 t ht, Uint32_PutUint32 n hn, h3]

/-- What decides whether `DeserializePacket` fails: the stream is shorter
than the header, or shorter than the header and the declared payload. -/
theorem DeserializePacket_short (s : List Byte)
    (h : s.length < 6 ∨ s.length < 6 + Uint32 ((s.drop 2).take 4)) :
    ∃ e, (DeserializePacket s).val = .error e := by
  unfold DeserializePacket binaryReadUint16
  by_cases h2 : 2 ≤ s.length
  · rw [ReadFull_enough s 2 h2]
    simp only
    unfold binaryReadUint32
    by_cases h4 : 4 ≤ (s.drop 2).length
    · rw [ReadFull_enough _ 4 h4]
      simp only
      have hlen : (List.drop 4 (List.drop 2 s)).length < Uint32 ((s.drop 2).take 4) := by
        simp only [List.length_drop] at h4 ⊢
        omega
      obtain ⟨e, he⟩ := ReadFull_short _ _ hlen
      generalize ReadFull (List.drop 4 (List.drop 2 s)) (Uint32 ((s.drop 2).take 4)) = res at he
      obtain ⟨v, r⟩ := res
      simp only at he
      subst he
      exact ⟨e, rfl⟩
    · obtain ⟨e, he⟩ := ReadFull_short (s.drop 2) 4 (by omega)
      generalize ReadFull (List.drop 2 s) 4 = res at he
      obtain ⟨v, r⟩ := res
      simp only at he
      subst he
      exact ⟨e, rfl⟩
  · obtain ⟨e, he⟩ := ReadFull_short s 2 (by omega)
    generalize ReadFull s 2 = res at he
    obtain ⟨v, r⟩ := res
    simp only at he
    subst he
    exact ⟨e, rfl⟩

theorem Serialize_length (p : Packet) : p.Serialize.length = 6 + p.Data.length := by
  simp [Packet.Serialize, PutUint16, PutUint32]
  omega

theorem Serialize_NewPacket (t : Nat) (d : List Byte) (hd : d.length < 2 ^ 32) :
    (NewPacket t d).Serialize = PutUint16 t ++ PutUint32 d.length ++ d := by
  have h : d.length % 2 ^ 32 = d.length := Nat.mod_eq_of_lt hd
  simp only [Packet.Serialize, NewPacket, h]

theorem DeserializePacket_NewPacket (t : Nat) (d rest : List Byte)
    (ht : t < 2 ^ 16) (hd : d.length < 2 ^ 32) :
    DeserializePacket ((NewPacket t d).Serialize ++ rest)
      = ⟨.ok { Typ := t, Length := d.length, Data := d }, rest⟩ := by
  rw [Serialize_NewPacket t d hd]
  exact DeserializePacket_frame t d.length d rest ht hd rfl

/-- In a prefix of a frame that holds the whole header, bytes `[2,6)` are
the length field of the frame. -/
theorem declared_in_frame_head (t n : Nat) (d s : List Byte)
    (hs : s <+: PutUint16 t ++ PutUint32 n ++ d) (h6 : 6 ≤ s.length) :
    (s.drop 2).take 4 = PutUint32 n := by
  obtain ⟨r, hr⟩ := hs
  have h1 : (s.drop 2).take 4 = (s.take 6).drop 2 := by
    rw [List.drop_take]
  have h2 : s.take 6 = (s ++ r).take 6 := by
    rw [List.take_append_of_le_length h6]
  rw [h1, h2, hr]
  simp [PutUint16, PutUint32]

/-! ## The frame codec -/

/-- C1. Round trip: for every 16-bit type tag `t` and every payload `d` of
fewer than `2^32` bytes, `DeserializePacket` on the bytes of
`NewPacket(t, d).Serialize()` succeeds with `Type = t`, `Length = len(d)`
and `Data = d`. -/
theorem C1_roundtrip (t : Nat) (d : List Byte) (ht : t < 2 ^ 16) (hd : d.length < 2 ^ 32) :
    (DeserializePacket (NewPacket t d).Serialize).val
      = .ok { Typ := t, Length := d.length, Data := d } := by
  have h := DeserializePacket_NewPacket t d [] ht hd
  rw [List.append_nil] at h
  rw [h]

theorem C1_roundtrip_witness :
    (DeserializePacket (NewPacket 1 [0x41, 0x6C, 0x69, 0x63, 0x65]).Serialize).val
      = .ok { Typ := 1, Length := 5, Data := [0x41, 0x6C, 0x69, 0x63, 0x65] } :=
  C1_roundtrip 1 [0x41, 0x6C, 0x69, 0x63, 0x65] (by decide) (by decide)

/-- C2. Frame layout: for every 16-bit tag `t` and payload `d` of fewer than
`2^32` bytes, `NewPacket(t, d).Serialize()` is two bytes that are `t` in
little-endian order, four bytes that are `len(d)` in little-endian order,
then `d` unchanged, `6 + len(d)` bytes in all; tag 1 with payload "Alice"
gives `01 00 05 00 00 00 41 6C 69 63 65`, and `ParseMessage` on those bytes
yields type Login and data "Alice". -/
theorem C2_frame_layout :
    (∀ (t : Nat) (d : List Byte), t < 2 ^ 16 → d.length < 2 ^ 32 →
      ∃ t0 t1 l0 l1 l2 l3 : Byte,
        (NewPacket t d).Serialize = [t0, t1, l0, l1, l2, l3] ++ d
        ∧ t0.val + t1.val * 2 ^ 8 = t
        ∧ l0.val + l1.val * 2 ^ 8 + l2.val * 2 ^ 16 + l3.val * 2 ^ 24 = d.length
        ∧ (NewPacket t d).Serialize.length = 6 + d.length)
    ∧ (NewPacket 1 [0x41, 0x6C, 0x69, 0x63, 0x65]).Serialize
        = [0x01, 0x00, 0x05, 0x00, 0x00, 0x00, 0x41, 0x6C, 0x69, 0x63, 0x65]
    ∧ (ParseMessage [0x01, 0x00, 0x05, 0x00, 0x00, 0x00, 0x41, 0x6C, 0x69, 0x63, 0x65]).val
        = .ok { Typ := MsgLogin, Data := [0x41, 0x6C, 0x69, 0x63, 0x65] } := by
  refine ⟨?_, by decide, by rfl⟩
  intro t d ht hd
  refine ⟨byteOf t, byteOf (t / 2 ^ 8), byteOf d.length, byteOf (d.length / 2 ^ 8),
    byteOf (d.length / 2 ^ 16), byteOf (d.length / 2 ^ 24), ?_, ?_, ?_, ?_⟩
  · rw [Serialize_NewPacket t d hd]
    simp [PutUint16, PutUint32]
  · simp only [byteOf]
    omega
  · simp only [byteOf]
    omega
  · rw [Serialize_length]
    rfl

theorem C2_frame_layout_witness :
    ∃ t0 t1 l0 l1 l2 l3 : Byte,
      (NewPacket 3 [7, 9]).Serialize = [t0, t1, l0, l1, l2, l3] ++ [7, 9]
      ∧ t0.val + t1.val * 2 ^ 8 = 3
      ∧ l0.val + l1.val * 2 ^ 8 + l2.val * 2 ^ 16 + l3.val * 2 ^ 24 = [(7 : Byte), 9].length
      ∧ (NewPacket 3 [7, 9]).Serialize.length = 6 + [(7 : Byte), 9].length :=
  C2_frame_layout.1 3 [7, 9] (by decide) (by decide)

/-- C3. Short read is rejected: `DeserializePacket` returns an error, and no
packet, on every stream with fewer than 2 bytes, with fewer than 6 bytes, or
with fewer than 6 bytes plus the length its bytes `[2,6)` declare; in
particular on every strict prefix of the serialization of a frame (16-bit
tag, payload below `2^32` bytes), and on the empty stream. -/
theorem C3_short_read :
    (∀ s : List Byte,
      (s.length < 2 ∨ s.length < 6 ∨ s.length < 6 + Uint32 ((s.drop 2).take 4)) →
      ∃ e, (DeserializePacket s).val = .error e)
    ∧ (∀ (t : Nat) (d s : List Byte), t < 2 ^ 16 → d.length < 2 ^ 32 →
        s <+: (NewPacket t d).Serialize → s ≠ (NewPacket t d).Serialize →
        ∃ e, (DeserializePacket s).val = .error e)
    ∧ (∃ e, (DeserializePacket []).val = .error e) := by
  refine ⟨?_, ?_, ?_⟩
  · intro s h
    apply DeserializePacket_short
    omega
  · intro t d s _ hd hs hne
    apply DeserializePacket_short
    have hlen : s.length < (NewPacket t d).Serialize.length := by
      rcases Nat.lt_or_ge s.length (NewPacket t d).Serialize.length with h | h
      · exact h
      · exact absurd (hs.eq_of_length_le h) hne
    rw [Serialize_length] at hlen
    by_cases h6 : 6 ≤ s.length
    · right
      rw [Serialize_NewPacket t d hd] at hs
      rw [declared_in_frame_head t d.length d s hs h6, Uint32_PutUint32 _ hd]
      exact hlen
    · left
      omega
  · exact ⟨.EOF, rfl⟩

theorem C3_short_read_witness :
    ∃ e, (DeserializePacket [0x01, 0x00, 0x05, 0x00, 0x00, 0x00, 0x41, 0x6C]).val = .error e :=
  C3_short_read.1 [0x01, 0x00, 0x05, 0x00, 0x00, 0x00, 0x41, 0x6C] (by decide)

/-- C4. Exact consumption: `DeserializePacket` on the encoding of frame
`(t, d)` followed by any bytes `rest` returns `(t, d)` and leaves exactly
`rest` unread; so on two frames written back to back the first call returns
the first frame and the second call, on what the first left, the second. -/
theorem C4_exact_consumption (t : Nat) (d rest : List Byte)
    (ht : t < 2 ^ 16) (hd : d.length < 2 ^ 32) :
    DeserializePacket ((NewPacket t d).Serialize ++ rest)
        = ⟨.ok { Typ := t, Length := d.length, Data := d }, rest⟩
    ∧ ∀ (t2 : Nat) (d2 : List Byte), t2 < 2 ^ 16 → d2.length < 2 ^ 32 →
        (DeserializePacket ((NewPacket t d).Serialize ++ (NewPacket t2 d2).Serialize ++ rest)).val
            = .ok { Typ := t, Length := d.length, Data := d }
        ∧ DeserializePacket
            (DeserializePacket
              ((NewPacket t d).Serialize ++ (NewPacket t2 d2).Serialize ++ rest)).rest
            = ⟨.ok { Typ := t2, Length := d2.length, Data := d2 }, rest⟩ := by
  refine ⟨DeserializePacket_NewPacket t d rest ht hd, ?_⟩
  intro t2 d2 ht2 hd2
  rw [List.append_assoc, DeserializePacket_NewPacket t d _ ht hd]
  exact ⟨rfl, DeserializePacket_NewPacket t2 d2 rest ht2 hd2⟩

theorem C4_exact_consumption_witness :
    DeserializePacket ((NewPacket 1 [0x41]).Serialize ++ [9, 9])
        = ⟨.ok { Typ := 1, Length := [(0x41 : Byte)].length, Data := [0x41] }, [9, 9]⟩
    ∧ ∀ (t2 : Nat) (d2 : List Byte), t2 < 2 ^ 16 → d2.length < 2 ^ 32 →
        (DeserializePacket ((NewPacket 1 [0x41]).Serialize ++ (NewPacket t2 d2).Serialize
            ++ [9, 9])).val
            = .ok { Typ := 1, Length := [(0x41 : Byte)].length, Data := [0x41] }
        ∧ DeserializePacket
            (DeserializePacket
              ((NewPacket 1 [0x41]).Serialize ++ (NewPacket t2 d2).Serialize ++ [9, 9])).rest
            = ⟨.ok { Typ := t2, Length := d2.length, Data := d2 }, [9, 9]⟩ :=
  C4_exact_consumption 1 [0x41] [9, 9] (by decide) (by decide)

/-! ## Lemmas: maps -/

namespace GoMap

theorem contains_iff_mem_keys {V : Type} (m : GoMap V) (k : Int) :
    m.contains k = true ↔ k ∈ m.keys := by
  obtain ⟨es⟩ := m
  simp only [contains, get, keys]
  induction es with
  | nil => simp
  | cons e es ih =>
    obtain ⟨k1, v1⟩ := e
    by_cases hk : k = k1
    · subst hk
      simp [List.lookup]
    · have hb : (k == k1) = false := by simpa using hk
      simp only [List.lookup, hb, List.map_cons, List.mem_cons, hk, false_or]
      exact ih

theorem lookup_append_of_ne {V : Type} (es : List (Int × V)) (k k1 : Int) (v : V)
    (h : k1 ≠ k) : (es ++ [(k, v)]).lookup k1 = es.lookup k1 := by
  induction es with
  | nil =>
    have hb : (k1 == k) = false := by simpa using h
    simp [List.lookup, hb]
  | cons e es ih =>
    obtain ⟨k2, v2⟩ := e
    cases hb : k1 == k2 <;> simp [List.lookup, hb, ih]

theorem lookup_append_self {V : Type} (es : List (Int × V)) (k : Int) (v : V)
    (h : es.lookup k = none) : (es ++ [(k, v)]).lookup k = some v := by
  induction es with
  | nil => simp [List.lookup]
  | cons e es ih =>
    obtain ⟨k2, v2⟩ := e
    cases hb : k == k2
    · simp only [List.lookup, hb, List.cons_append] at h ⊢
      exact ih h
    · simp [List.lookup, hb] at h

theorem set_of_not_contains {V : Type} (m : GoMap V) (k : Int) (v : V)
    (h : m.contains k = false) : m.set k v = ⟨m.entries ++ [(k, v)]⟩ := by
  simp [set, h]

theorem len_set_of_not_contains {V : Type} (m : GoMap V) (k : Int) (v : V)
    (h : m.contains k = false) : (m.set k v).len = m.len + 1 := by
  simp [set_of_not_contains m k v h, len]

theorem len_set_of_contains {V : Type} (m : GoMap V) (k : Int) (v : V)
    (h : m.contains k = true) : (m.set k v).len = m.len := by
  simp [set, h, len]

theorem len_delete_le {V : Type} (m : GoMap V) (k : Int) : (m.delete k).len ≤ m.len := by
  simp only [delete, len]
  exact List.length_filter_le _ _

theorem get_set_self_of_not_contains {V : Type} (m : GoMap V) (k : Int) (v : V)
    (h : m.contains k = false) : (m.set k v).get k = some v := by
  rw [set_of_not_contains m k v h]
  apply lookup_append_self
  simpa [contains, get] using h

theorem get_set_of_ne_of_not_contains {V : Type} (m : GoMap V) (k k1 : Int) (v : V)
    (h : m.contains k = false) (hne : k1 ≠ k) : (m.set k v).get k1 = m.get k1 := by
  rw [set_of_not_contains m k v h]
  exact lookup_append_of_ne m.entries k k1 v hne

theorem keys_set_of_not_contains {V : Type} (m : GoMap V) (k : Int) (v : V)
    (h : m.contains k = false) : (m.set k v).keys = m.keys ++ [k] := by
  simp [set_of_not_contains m k v h, keys]

end GoMap

/-! ## Lemmas: arena calls made while the arena lock is free -/

theorem Lock_unlocked : RWMutex.unlocked.Lock = some ⟨true, 0⟩ := rfl

theorem Arena.AddPlayer_unlocked (a : Arena) (h : a.mu = RWMutex.unlocked)
    (playerID : Int) (team : Team) :
    a.AddPlayer playerID team =
      if (a.Players.len : Int) ≥ a.MaxPlayers then .returned a (some .arenaIsFull)
      else if a.Players.contains playerID then .returned a (some .playerAlreadyInArena)
      else .returned
        { a with
          Players := a.Players.set playerID ⟨playerID, team, Float64.zero, Float64.zero, 100, 0⟩ }
        none := by
  obtain ⟨_, _, _, _, _, _, _, _, mu⟩ := a
  simp only at h
  subst h
  simp only [Arena.AddPlayer, Lock_unlocked]
  split_ifs <;> rfl

theorem Arena.RemovePlayer_unlocked (a : Arena) (h : a.mu = RWMutex.unlocked)
    (playerID : Int) :
    a.RemovePlayer playerID
      = .returned { a with Players := a.Players.delete playerID } () := by
  obtain ⟨_, _, _, _, _, _, _, _, mu⟩ := a
  simp only at h
  subst h
  rfl

theorem Arena.UpdatePlayerPosition_unlocked (a : Arena) (h : a.mu = RWMutex.unlocked)
    (playerID : Int) (x y : Float64) :
    a.UpdatePlayerPosition playerID x y =
      match a.Players.get playerID with
      | some player =>
        .returned { a with Players := a.Players.set playerID { player with X := x, Y := y } } ()
      | none => .returned a () := by
  obtain ⟨_, _, _, _, _, _, _, _, mu⟩ := a
  simp only at h
  subst h
  simp only [Arena.UpdatePlayerPosition, Lock_unlocked]
  split <;> rfl

theorem Arena.StartArena_unlocked (a : Arena) (h : a.mu = RWMutex.unlocked) (now : Time) :
    a.StartArena now =
      if a.State ≠ ArenaStateWaiting then .returned a ()
      else .returned { a with State := ArenaStateActive, StartTime := now } () := by
  obtain ⟨_, _, _, _, _, _, _, _, mu⟩ := a
  simp only at h
  subst h
  simp only [Arena.StartArena, Lock_unlocked]
  split_ifs <;> rfl

theorem Arena.EndArena_unlocked (a : Arena) (h : a.mu = RWMutex.unlocked) (now : Time) :
    a.EndArena now =
      if a.State ≠ ArenaStateActive then .returned a ()
      else .returned { a with State := ArenaStateEnded, EndTime := now } () := by
  obtain ⟨_, _, _, _, _, _, _, _, mu⟩ := a
  simp only at h
  subst h
  simp only [Arena.EndArena, Lock_unlocked]
  split_ifs <;> rfl

/-- A call on an arena whose lock is held waits, and leaves the arena as it is. -/
theorem Lock_eq_none_of_ne (m : RWMutex) (h : m ≠ RWMutex.unlocked) : m.Lock = none := by
  obtain ⟨w, r⟩ := m
  simp only [RWMutex.Lock]
  rw [if_neg]
  rintro ⟨rfl, rfl⟩
  exact h rfl


/-- With the lock free, `UpdateArena` returns at once on an arena that is
not waiting; on a waiting arena it takes the lock and then waits for it in
`GetPlayerCount`. -/
theorem UpdateArena_unlocked (a : Arena) (h : a.mu = RWMutex.unlocked) (now : Time) :
    UpdateArena a now =
      if a.State = ArenaStateWaiting then .blocked { a with mu := ⟨true, 0⟩ }
      else .returned a () := by
  obtain ⟨_, _, _, _, _, _, _, _, mu⟩ := a
  simp only at h
  subst h
  simp only [UpdateArena, Lock_unlocked]
  split_ifs <;> rfl

theorem ArenaOp.apply_locked (a : Arena) (h : a.mu ≠ RWMutex.unlocked) (op : ArenaOp) :
    op.apply a = a := by
  have hl := Lock_eq_none_of_ne a.mu h
  cases op <;>
    simp only [ArenaOp.apply, Arena.AddPlayer, Arena.RemovePlayer, Arena.UpdatePlayerPosition,
      Arena.StartArena, Arena.EndArena, UpdateArena, hl, Call.state]

/-- The arena after one call that found the lock free. -/
theorem ArenaOp.apply_unlocked (a : Arena) (h : a.mu = RWMutex.unlocked) (op : ArenaOp) :
    op.apply a =
      match op with
      | .addPlayer playerID team =>
        if (a.Players.len : Int) ≥ a.MaxPlayers then a
        else if a.Players.contains playerID then a
        else { a with
          Players := a.Players.set playerID ⟨playerID, team, Float64.zero, Float64.zero, 100, 0⟩ }
      | .removePlayer playerID => { a with Players := a.Players.delete playerID }
      | .updatePlayerPosition playerID x y =>
        match a.Players.get playerID with
        | some player =>
          { a with Players := a.Players.set playerID { player with X := x, Y := y } }
        | none => a
      | .startArena now =>
        if a.State ≠ ArenaStateWaiting then a
        else { a with State := ArenaStateActive, StartTime := now }
      | .endArena now =>
        if a.State ≠ ArenaStateActive then a
        else { a with State := ArenaStateEnded, EndTime := now }
      | .updateArena _ =>
        if a.State = ArenaStateWaiting then { a with mu := ⟨true, 0⟩ } else a := by
  cases op with
  | addPlayer playerID team =>
    simp only [ArenaOp.apply, Arena.AddPlayer_unlocked a h]
    split_ifs <;> rfl
  | removePlayer playerID =>
    simp only [ArenaOp.apply, Arena.RemovePlayer_unlocked a h, Call.state]
  | updatePlayerPosition playerID x y =>
    simp only [ArenaOp.apply, Arena.UpdatePlayerPosition_unlocked a h]
    split <;> rfl
  | startArena now =>
    simp only [ArenaOp.apply, Arena.StartArena_unlocked a h]
    split_ifs <;> rfl
  | endArena now =>
    simp only [ArenaOp.apply, Arena.EndArena_unlocked a h]
    split_ifs <;> rfl
  | updateArena now =>
    simp only [ArenaOp.apply, UpdateArena_unlocked a h]
    split_ifs <;> rfl

/-- No call changes the capacity. -/
theorem ArenaOp.apply_MaxPlayers (a : Arena) (op : ArenaOp) :
    (op.apply a).MaxPlayers = a.MaxPlayers := by
  by_cases h : a.mu = RWMutex.unlocked
  · rw [ArenaOp.apply_unlocked a h]
    cases op <;> simp only <;> (try split) <;> (try split) <;> rfl
  · rw [ArenaOp.apply_locked a h]

/-- A roster within the capacity stays within it over one call. -/
theorem ArenaOp.apply_len_le (a : Arena) (op : ArenaOp)
    (hinv : (a.Players.len : Int) ≤ a.MaxPlayers) :
    ((op.apply a).Players.len : Int) ≤ (op.apply a).MaxPlayers := by
  rw [ArenaOp.apply_MaxPlayers]
  by_cases h : a.mu = RWMutex.unlocked
  · rw [ArenaOp.apply_unlocked a h]
    cases op with
    | addPlayer playerID team =>
      simp only
      split_ifs with h1 h2
      · exact hinv
      · exact hinv
      · have hc : a.Players.contains playerID = false := by simpa using h2
        simp only [GoMap.len_set_of_not_contains _ _ _ hc]
        push_cast
        omega
    | removePlayer playerID =>
      have := GoMap.len_delete_le a.Players playerID
      simp only
      omega
    | updatePlayerPosition playerID x y =>
      simp only
      split
      · rename_i player hp
        have hc : a.Players.contains playerID = true := by simp [GoMap.contains, hp]
        simp only [GoMap.len_set_of_contains _ _ _ hc]
        exact hinv
      · exact hinv
    | startArena now => simp only; split_ifs <;> exact hinv
    | endArena now => simp only; split_ifs <;> exact hinv
    | updateArena now => simp only; split_ifs <;> exact hinv
  · rw [ArenaOp.apply_locked a h]
    exact hinv

theorem runOps_len_le (ops : List ArenaOp) (a : Arena)
    (hinv : (a.Players.len : Int) ≤ a.MaxPlayers) :
    ((runOps a ops).Players.len : Int) ≤ a.MaxPlayers := by
  induction ops generalizing a with
  | nil => exact hinv
  | cons op ops ih =>
    have h := ih (op.apply a) (ArenaOp.apply_len_le a op hinv)
    rw [ArenaOp.apply_MaxPlayers] at h
    exact h

theorem CreateArena_returned (am am1 : ArenaManager) (id : Int) (name : String)
    (maxPlayers gridID : Int) (a : Arena)
    (h : am.CreateArena id name maxPlayers gridID = .returned am1 a) :
    a = { ID := id, Name := name, MaxPlayers := maxPlayers, Players := GoMap.empty,
          State := ArenaStateWaiting, StartTime := 0, EndTime := 0, GridID := gridID,
          mu := RWMutex.unlocked } := by
  unfold ArenaManager.CreateArena at h
  split at h
  · cases h
  · simp only [Call.returned.injEq] at h
    exact h.2.symm

/-- What a run of `AddPlayer` calls on an arena with a free lock and a
roster within capacity leaves: the lock free, the capacity unchanged, one
more roster entry per successful call, the roster within capacity, and
either a full roster or every ID of the run on the roster. -/
theorem addAll_spec (calls : List (Int × Team)) (a : Arena)
    (hmu : a.mu = RWMutex.unlocked) (hinv : (a.Players.len : Int) ≤ a.MaxPlayers) :
    (addAll a calls).1.mu = RWMutex.unlocked
    ∧ (addAll a calls).1.MaxPlayers = a.MaxPlayers
    ∧ (addAll a calls).1.Players.len = a.Players.len + (addAll a calls).2
    ∧ ((addAll a calls).1.Players.len : Int) ≤ a.MaxPlayers
    ∧ (∀ k ∈ a.Players.keys, k ∈ (addAll a calls).1.Players.keys)
    ∧ (((addAll a calls).1.Players.len : Int) = a.MaxPlayers
        ∨ ∀ k ∈ calls.map Prod.fst, k ∈ (addAll a calls).1.Players.keys) := by
  induction calls generalizing a with
  | nil => simp [addAll, hmu, hinv]
  | cons c rest ih =>
    obtain ⟨playerID, team⟩ := c
    simp only [addAll, List.map_cons, List.mem_cons, forall_eq_or_imp]
    by_cases h1 : (a.Players.len : Int) ≥ a.MaxPlayers
    · have hc : a.AddPlayer playerID team = .returned a (some .arenaIsFull) := by
        rw [Arena.AddPlayer_unlocked a hmu, if_pos h1]
      obtain ⟨i1, i2, i3, i4, i5, i6⟩ := ih a hmu hinv
      rw [hc]
      simp only [Call.state, Call.ret]
      refine ⟨i1, i2, by simpa using i3, i4, i5, Or.inl ?_⟩
      omega
    · by_cases h2 : a.Players.contains playerID = true
      · have hc : a.AddPlayer playerID team = .returned a (some .playerAlreadyInArena) := by
          rw [Arena.AddPlayer_unlocked a hmu, if_neg h1, if_pos h2]
        obtain ⟨i1, i2, i3, i4, i5, i6⟩ := ih a hmu hinv
        rw [hc]
        simp only [Call.state, Call.ret]
        refine ⟨i1, i2, by simpa using i3, i4, i5, ?_⟩
        rcases i6 with i6 | i6
        · exact Or.inl i6
        · exact Or.inr ⟨i5 _ ((GoMap.contains_iff_mem_keys _ _).1 h2), i6⟩
      · have hc : a.AddPlayer playerID team = .returned
            { a with
              Players := a.Players.set playerID
                ⟨playerID, team, Float64.zero, Float64.zero, 100, 0⟩ } none := by
          rw [Arena.AddPlayer_unlocked a hmu, if_neg h1, if_neg h2]
        have hnc : a.Players.contains playerID = false := by simpa using h2
        have hlen := GoMap.len_set_of_not_contains a.Players playerID
          ⟨playerID, team, Float64.zero, Float64.zero, 100, 0⟩ hnc
        have hkeys := GoMap.keys_set_of_not_contains a.Players playerID
          ⟨playerID, team, Float64.zero, Float64.zero, 100, 0⟩ hnc
        obtain ⟨i1, i2, i3, i4, i5, i6⟩ := ih
          { a with
            Players := a.Players.set playerID
              ⟨playerID, team, Float64.zero, Float64.zero, 100, 0⟩ }
          hmu (by simp only [hlen]; push_cast; omega)
        simp only [hlen, hkeys, List.mem_append, List.mem_singleton] at i3 i5
        rw [hc]
        simp only [Call.state, Call.ret]
        refine ⟨i1, i2, ?_, i4, fun k hk => i5 k (Or.inl hk), ?_⟩
        · simp only [i3, if_true]
          omega
        · rcases i6 with i6 | i6
          · exact Or.inl i6
          · exact Or.inr ⟨i5 _ (Or.inr rfl), i6⟩

namespace GoMap

theorem keys_set_of_contains {V : Type} (m : GoMap V) (k : Int) (v : V)
    (h : m.contains k = true) : (m.set k v).keys = m.keys := by
  simp only [set, h, if_true, keys, List.map_map]
  apply List.map_congr_left
  intro e _
  simp only [Function.comp]
  split_ifs with he
  · exact he.symm
  · rfl

theorem mem_keys_delete_of_ne {V : Type} (m : GoMap V) (k k1 : Int)
    (hne : k1 ≠ k) (h : k1 ∈ m.keys) : k1 ∈ (m.delete k).keys := by
  simp only [keys, delete, List.mem_map, List.mem_filter] at h ⊢
  obtain ⟨e, he, hk⟩ := h
  refine ⟨e, ⟨he, ?_⟩, hk⟩
  simpa [hk] using hne

end GoMap

/-- A call that returned found the lock free. -/
theorem AddPlayer_ret_unlocked (a : Arena) (playerID : Int) (team : Team)
    (r : Option ArenaError) (h : (a.AddPlayer playerID team).ret = some r) :
    a.mu = RWMutex.unlocked := by
  by_contra hne
  have hl := Lock_eq_none_of_ne a.mu hne
  simp [Arena.AddPlayer, hl, Call.ret] at h

/-- Over one call of an arena method other than the removal of `playerID`,
made with the lock free, the lock is free again afterwards and `playerID`
stays on the roster. -/
theorem ArenaOp.apply_keeps (a : Arena) (op : ArenaOp) (playerID : Int)
    (hmu : a.mu = RWMutex.unlocked) (hin : playerID ∈ a.Players.keys)
    (hop : op ≠ .removePlayer playerID ∧ ∀ now, op ≠ .updateArena now) :
    (op.apply a).mu = RWMutex.unlocked ∧ playerID ∈ (op.apply a).Players.keys := by
  rw [ArenaOp.apply_unlocked a hmu]
  cases op with
  | addPlayer k team =>
    simp only
    split_ifs with h1 h2
    · exact ⟨hmu, hin⟩
    · exact ⟨hmu, hin⟩
    · have hc : a.Players.contains k = false := by simpa using h2
      refine ⟨hmu, ?_⟩
      simp only [GoMap.keys_set_of_not_contains _ _ _ hc, List.mem_append]
      exact Or.inl hin
  | removePlayer k =>
    refine ⟨hmu, ?_⟩
    have hne : playerID ≠ k := by
      rintro rfl
      exact hop.1 rfl
    exact GoMap.mem_keys_delete_of_ne a.Players k playerID hne hin
  | updatePlayerPosition k x y =>
    simp only
    split
    · rename_i player hp
      have hc : a.Players.contains k = true := by simp [GoMap.contains, hp]
      refine ⟨hmu, ?_⟩
      simp only [GoMap.keys_set_of_contains _ _ _ hc]
      exact hin
    · exact ⟨hmu, hin⟩
  | startArena now => simp only; split_ifs <;> exact ⟨hmu, hin⟩
  | endArena now => simp only; split_ifs <;> exact ⟨hmu, hin⟩
  | updateArena now => exact absurd rfl (hop.2 now)

theorem runOps_keeps (ops : List ArenaOp) (a : Arena) (playerID : Int)
    (hmu : a.mu = RWMutex.unlocked) (hin : playerID ∈ a.Players.keys)
    (hops : ∀ op ∈ ops, op ≠ .removePlayer playerID ∧ ∀ now, op ≠ .updateArena now) :
    (runOps a ops).mu = RWMutex.unlocked ∧ playerID ∈ (runOps a ops).Players.keys := by
  induction ops generalizing a with
  | nil => exact ⟨hmu, hin⟩
  | cons op ops ih =>
    obtain ⟨h1, h2⟩ := ArenaOp.apply_keeps a op playerID hmu hin (hops op (List.mem_cons_self _ _))
    exact ih (op.apply a) h1 h2 (fun o ho => hops o (List.mem_cons_of_mem _ ho))

/-- The state of the arena after one call, against the state before it. -/
theorem ArenaOp.apply_State (a : Arena) (op : ArenaOp) :
    (op.apply a).State = a.State
    ∨ (a.State = ArenaStateWaiting ∧ (op.apply a).State = ArenaStateActive)
    ∨ (a.State = ArenaStateActive ∧ (op.apply a).State = ArenaStateEnded) := by
  by_cases h : a.mu = RWMutex.unlocked
  · rw [ArenaOp.apply_unlocked a h]
    cases op with
    | addPlayer k team => simp only; split_ifs <;> exact Or.inl rfl
    | removePlayer k => exact Or.inl rfl
    | updatePlayerPosition k x y => simp only; split <;> exact Or.inl rfl
    | startArena now =>
      simp only
      split_ifs with h1
      · exact Or.inl rfl
      · exact Or.inr (Or.inl ⟨by simpa using h1, rfl⟩)
    | endArena now =>
      simp only
      split_ifs with h1
      · exact Or.inl rfl
      · exact Or.inr (Or.inr ⟨by simpa using h1, rfl⟩)
    | updateArena now => simp only; split_ifs <;> exact Or.inl rfl
  · rw [ArenaOp.apply_locked a h]
    exact Or.inl rfl

theorem ArenaOp.apply_State_le (a : Arena) (op : ArenaOp) :
    a.State.toInt ≤ (op.apply a).State.toInt := by
  rcases ArenaOp.apply_State a op with h | ⟨h1, h2⟩ | ⟨h1, h2⟩
  · rw [h]
  · rw [h1, h2]; decide
  · rw [h1, h2]; decide

theorem runOps_State_le (ops : List ArenaOp) (a : Arena) :
    a.State.toInt ≤ (runOps a ops).State.toInt := by
  induction ops generalizing a with
  | nil => exact le_refl _
  | cons op ops ih => exact le_trans (ArenaOp.apply_State_le a op) (ih (op.apply a))

theorem runOps_append (a : Arena) (ops1 ops2 : List ArenaOp) :
    runOps a (ops1 ++ ops2) = runOps (runOps a ops1) ops2 := by
  simp [runOps, List.foldl_append]

/-! ## The arena roster -/

/-- C5. Arena capacity invariant: for every arena created by `CreateArena`
with capacity `N >= 0`, after any finite sequence of `AddPlayer`,
`RemovePlayer`, `UpdatePlayerPosition`, `StartArena` and `EndArena` calls
(and `UpdateArena` ticks) the roster size is at most `N`. -/
theorem C5_capacity_invariant (am am1 : ArenaManager) (id : Int) (name : String)
    (N gridID : Int) (a : Arena) (ops : List ArenaOp) (hN : 0 ≤ N)
    (hcreate : am.CreateArena id name N gridID = .returned am1 a) :
    ((runOps a ops).Players.len : Int) ≤ N := by
  have ha := CreateArena_returned am am1 id name N gridID a hcreate
  have h := runOps_len_le ops a (by rw [ha]; exact hN)
  rw [ha] at h
  rw [ha]
  exact h

theorem C5_capacity_invariant_witness :
    ((runOps (testArena 2)
        [.addPlayer 1 TeamChaos, .addPlayer 2 TeamBalance, .addPlayer 3 TeamOrder,
         .removePlayer 1, .startArena 5]).Players.len : Int) ≤ 2 :=
  C5_capacity_invariant NewArenaManager _ 1 "Test Arena" 2 0 (testArena 2) _ (by decide) rfl

/-- C6. Exactly N joins succeed: on an empty arena of capacity `N >= 0`
whose lock is free, for any sequence of `AddPlayer` calls that names more
than `N` distinct player IDs, exactly `N` of the calls return success and
the final roster size is `N`. -/
theorem C6_exactly_N_joins (a : Arena) (calls : List (Int × Team))
    (hempty : a.Players = GoMap.empty) (hmu : a.mu = RWMutex.unlocked)
    (hN : 0 ≤ a.MaxPlayers)
    (hmore : a.MaxPlayers < ((calls.map Prod.fst).dedup.length : Int)) :
    ((addAll a calls).2 : Int) = a.MaxPlayers
    ∧ ((addAll a calls).1.Players.len : Int) = a.MaxPlayers := by
  have hlen0 : a.Players.len = 0 := by rw [hempty]; rfl
  obtain ⟨_, _, i3, i4, _, i6⟩ := addAll_spec calls a hmu (by rw [hlen0]; exact hN)
  have hfull : ((addAll a calls).1.Players.len : Int) = a.MaxPlayers := by
    rcases i6 with i6 | i6
    · exact i6
    · exfalso
      have hsub : (calls.map Prod.fst).dedup ⊆ (addAll a calls).1.Players.keys := by
        intro k hk
        exact i6 k (List.mem_dedup.1 hk)
      have hle := (List.subperm_of_subset (List.nodup_dedup _) hsub).length_le
      have hk : (addAll a calls).1.Players.keys.length = (addAll a calls).1.Players.len := by
        simp [GoMap.keys, GoMap.len]
      omega
  refine ⟨?_, hfull⟩
  rw [hlen0] at i3
  omega

theorem C6_exactly_N_joins_witness :
    ((addAll (testArena 2)
        [(1, TeamChaos), (2, TeamBalance), (1, TeamChaos), (3, TeamOrder)]).2 : Int)
      = (testArena 2).MaxPlayers
    ∧ ((addAll (testArena 2)
        [(1, TeamChaos), (2, TeamBalance), (1, TeamChaos), (3, TeamOrder)]).1.Players.len : Int)
      = (testArena 2).MaxPlayers :=
  C6_exactly_N_joins (testArena 2)
    [(1, TeamChaos), (2, TeamBalance), (1, TeamChaos), (3, TeamOrder)]
    rfl rfl (by decide) (by decide)

/-- C7. `AddPlayer` specification: run with the arena lock free,
`AddPlayer(id, team)` returns, and returns success if and only if the roster
size is below capacity and `id` is not in the roster; on success the new
roster is the old one plus exactly one entry, for `id`, with `PlayerID = id`,
the given team, position (0,0), health 100 and score 0, every other roster
entry is unchanged, and so are the state, the timestamps and every other
field of the arena. -/
theorem C7_AddPlayer_spec (a : Arena) (playerID : Int) (team : Team)
    (hmu : a.mu = RWMutex.unlocked) :
    (∃ r, (a.AddPlayer playerID team).ret = some r)
    ∧ ((a.AddPlayer playerID team).ret = some none ↔
        ((a.Players.len : Int) < a.MaxPlayers ∧ a.Players.contains playerID = false))
    ∧ ((a.AddPlayer playerID team).ret = some none →
        (a.AddPlayer playerID team).state.Players.entries
            = a.Players.entries ++ [(playerID, ⟨playerID, team, Float64.zero, Float64.zero, 100, 0⟩)]
        ∧ (a.AddPlayer playerID team).state.Players.len = a.Players.len + 1
        ∧ (a.AddPlayer playerID team).state.Players.get playerID
            = some ⟨playerID, team, Float64.zero, Float64.zero, 100, 0⟩
        ∧ (∀ k, k ≠ playerID →
            (a.AddPlayer playerID team).state.Players.get k = a.Players.get k)
        ∧ (a.AddPlayer playerID team).state
            = { a with Players := (a.AddPlayer playerID team).state.Players }) := by
  rw [Arena.AddPlayer_unlocked a hmu]
  by_cases h1 : (a.Players.len : Int) ≥ a.MaxPlayers
  · rw [if_pos h1]
    refine ⟨⟨_, rfl⟩, ?_, ?_⟩
    · simp only [Call.ret, Option.some.injEq, reduceCtorEq, false_iff, not_and]
      intro h
      omega
    · intro h
      simp [Call.ret] at h
  · rw [if_neg h1]
    by_cases h2 : a.Players.contains playerID = true
    · rw [if_pos h2]
      refine ⟨⟨_, rfl⟩, ?_, ?_⟩
      · simp [Call.ret, h2]
      · intro h
        simp [Call.ret] at h
    · rw [if_neg h2]
      have hc : a.Players.contains playerID = false := by simpa using h2
      refine ⟨⟨_, rfl⟩, ?_, ?_⟩
      · simp only [Call.ret, true_iff]
        exact ⟨by omega, hc⟩
      · intro _
        simp only [Call.state]
        refine ⟨?_, GoMap.len_set_of_not_contains _ _ _ hc,
          GoMap.get_set_self_of_not_contains _ _ _ hc,
          fun k hk => GoMap.get_set_of_ne_of_not_contains _ _ k _ hc hk, trivial⟩
        rw [GoMap.set_of_not_contains _ _ _ hc]

theorem C7_AddPlayer_spec_witness :
    (((testArena 2).AddPlayer 1 TeamChaos).ret = some none ↔
        (((testArena 2).Players.len : Int) < (testArena 2).MaxPlayers
          ∧ (testArena 2).Players.contains 1 = false))
    ∧ ((testArena 2).AddPlayer 1 TeamChaos).ret = some none :=
  ⟨(C7_AddPlayer_spec (testArena 2) 1 TeamChaos rfl).2.1, by decide⟩

/-- C8 as stated fails: on an arena of capacity 1 the first `AddPlayer(1)`
succeeds and the second one fails with the arena-full error, not with the
duplicate-player error. -/
theorem C8_counterexample :
    ((testArena 1).AddPlayer 1 TeamChaos).ret = some none
    ∧ (((testArena 1).AddPlayer 1 TeamChaos).state.AddPlayer 1 TeamChaos).ret
        = some (some ArenaError.arenaIsFull)
    ∧ (((testArena 1).AddPlayer 1 TeamChaos).state.AddPlayer 1 TeamChaos).ret
        ≠ some (some ArenaError.playerAlreadyInArena) := by
  decide

/-- C8, amended. Duplicate join: for every arena and every player ID whose
first `AddPlayer` succeeds, every later `AddPlayer` with the same ID, with
only arena methods other than the removal of that ID in between, returns an
error and leaves the arena, its roster included, unchanged; the error is the
duplicate-player error when the roster is below capacity at that call and
the arena-full error when it is at capacity. -/
theorem C8_duplicate_join (a : Arena) (playerID : Int) (team team2 : Team)
    (ops : List ArenaOp)
    (hfirst : (a.AddPlayer playerID team).ret = some none)
    (hops : ∀ op ∈ ops, op ≠ .removePlayer playerID ∧ ∀ now, op ≠ .updateArena now) :
    (runOps (a.AddPlayer playerID team).state ops).AddPlayer playerID team2
      = .returned (runOps (a.AddPlayer playerID team).state ops)
          (some (if ((runOps (a.AddPlayer playerID team).state ops).Players.len : Int)
                      ≥ (runOps (a.AddPlayer playerID team).state ops).MaxPlayers
                 then ArenaError.arenaIsFull else ArenaError.playerAlreadyInArena)) := by
  have hmu := AddPlayer_ret_unlocked a playerID team none hfirst
  have hstate : (a.AddPlayer playerID team).state.mu = RWMutex.unlocked
      ∧ playerID ∈ (a.AddPlayer playerID team).state.Players.keys := by
    rw [Arena.AddPlayer_unlocked a hmu] at hfirst ⊢
    by_cases h1 : (a.Players.len : Int) ≥ a.MaxPlayers
    · rw [if_pos h1] at hfirst
      simp [Call.ret] at hfirst
    · rw [if_neg h1] at hfirst ⊢
      by_cases h2 : a.Players.contains playerID = true
      · rw [if_pos h2] at hfirst
        simp [Call.ret] at hfirst
      · rw [if_neg h2]
        have hc : a.Players.contains playerID = false := by simpa using h2
        simp only [Call.state, GoMap.keys_set_of_not_contains _ _ _ hc, List.mem_append,
          List.mem_singleton, or_true, and_true]
        exact hmu
  obtain ⟨hb1, hb2⟩ := runOps_keeps ops _ playerID hstate.1 hstate.2 hops
  rw [Arena.AddPlayer_unlocked _ hb1]
  have hc := (GoMap.contains_iff_mem_keys _ _).2 hb2
  split_ifs <;> rfl

theorem C8_duplicate_join_witness :
    (runOps ((testArena 2).AddPlayer 1 TeamChaos).state
        [.addPlayer 2 TeamBalance, .updatePlayerPosition 1 ⟨3⟩ ⟨4⟩, .removePlayer 2]).AddPlayer
        1 TeamOrder
      = .returned
          (runOps ((testArena 2).AddPlayer 1 TeamChaos).state
            [.addPlayer 2 TeamBalance, .updatePlayerPosition 1 ⟨3⟩ ⟨4⟩, .removePlayer 2])
          (some (if ((runOps ((testArena 2).AddPlayer 1 TeamChaos).state
                      [.addPlayer 2 TeamBalance, .updatePlayerPosition 1 ⟨3⟩ ⟨4⟩,
                       .removePlayer 2]).Players.len : Int)
                    ≥ (runOps ((testArena 2).AddPlayer 1 TeamChaos).state
                      [.addPlayer 2 TeamBalance, .updatePlayerPosition 1 ⟨3⟩ ⟨4⟩,
                       .removePlayer 2]).MaxPlayers
                 then ArenaError.arenaIsFull else ArenaError.playerAlreadyInArena)) :=
  C8_duplicate_join (testArena 2) 1 TeamChaos TeamOrder
    [.addPlayer 2 TeamBalance, .updatePlayerPosition 1 ⟨3⟩ ⟨4⟩, .removePlayer 2]
    (by decide) (by simp)

/-! ## The arena state machine -/

/-- C9. No backward transitions: with `Waiting < Active < Ended`, no call
(`AddPlayer`, `RemovePlayer`, `UpdatePlayerPosition`, `StartArena`,
`EndArena`, `UpdateArena`) and no sequence of calls decreases the state of
an arena; `Ended` is terminal, `Ended` is entered only from `Active`, and an
arena that is not `Waiting` never is `Waiting` again. -/
theorem C9_no_backward_transitions (a : Arena) (op : ArenaOp) (ops : List ArenaOp) :
    a.State.toInt ≤ (op.apply a).State.toInt
    ∧ a.State.toInt ≤ (runOps a ops).State.toInt
    ∧ (a.State = ArenaStateEnded → (runOps a ops).State = ArenaStateEnded)
    ∧ ((op.apply a).State = ArenaStateEnded → a.State ≠ ArenaStateEnded →
        a.State = ArenaStateActive)
    ∧ (a.State ≠ ArenaStateWaiting → (runOps a ops).State ≠ ArenaStateWaiting) := by
  have hrun := runOps_State_le ops a
  refine ⟨ArenaOp.apply_State_le a op, hrun, ?_, ?_, ?_⟩
  · intro h
    rw [h] at hrun
    revert hrun
    cases (runOps a ops).State <;> simp [ArenaState.toInt]
  · intro h hne
    rcases ArenaOp.apply_State a op with h1 | ⟨h1, h2⟩ | ⟨h1, _⟩
    · rw [h1] at h
      exact absurd h hne
    · rw [h2] at h
      cases h
    · exact h1
  · intro h hw
    rw [hw] at hrun
    revert hrun h
    cases a.State <;> simp [ArenaState.toInt]

theorem C9_no_backward_transitions_witness :
    (runOps (runOps (testArena 4) [.startArena 5, .endArena 9])
        [.startArena 11, .addPlayer 1 TeamChaos, .updateArena 12, .endArena 13]).State
      = ArenaStateEnded :=
  (C9_no_backward_transitions (runOps (testArena 4) [.startArena 5, .endArena 9])
    (.startArena 11)
    [.startArena 11, .addPlayer 1 TeamChaos, .updateArena 12, .endArena 13]).2.2.1 (by decide)

/-- C10. Explicit start and end, for a call made with the arena lock free:
`StartArena` on a `Waiting` arena sets the state to `Active` and the start
timestamp to the current time, and on an arena in any other state changes
nothing; `EndArena` on an `Active` arena sets the state to `Ended` and the
end timestamp to the current time, and on an arena in any other state
(`Waiting` included) changes nothing; neither changes the roster. -/
theorem C10_start_end (a : Arena) (now : Time) (hmu : a.mu = RWMutex.unlocked) :
    (a.State = ArenaStateWaiting →
      a.StartArena now = .returned { a with State := ArenaStateActive, StartTime := now } ())
    ∧ (a.State ≠ ArenaStateWaiting → a.StartArena now = .returned a ())
    ∧ (a.State = ArenaStateActive →
      a.EndArena now = .returned { a with State := ArenaStateEnded, EndTime := now } ())
    ∧ (a.State ≠ ArenaStateActive → a.EndArena now = .returned a ())
    ∧ (a.StartArena now).state.Players = a.Players
    ∧ (a.EndArena now).state.Players = a.Players := by
  rw [Arena.StartArena_unlocked a hmu, Arena.EndArena_unlocked a hmu]
  refine ⟨?_, ?_, ?_, ?_, ?_, ?_⟩
  · intro h
    rw [if_neg (by simpa using h)]
  · intro h
    rw [if_pos h]
  · intro h
    rw [if_neg (by simpa using h)]
  · intro h
    rw [if_pos h]
  · split_ifs <;> rfl
  · split_ifs <;> rfl

theorem C10_start_end_witness :
    (testArena 4).StartArena 5
      = .returned { testArena 4 with State := ArenaStateActive, StartTime := 5 } () :=
  (C10_start_end (testArena 4) 5 rfl).1 rfl

/-! ## Lemmas: maps, continued -/

namespace GoMap

theorem lookup_map_self {V : Type} (es : List (Int × V)) (k : Int) (v : V)
    (h : (es.lookup k).isSome = true) :
    (es.map fun e => if e.1 = k then (k, v) else e).lookup k = some v := by
  induction es with
  | nil => simp at h
  | cons e es ih =>
    obtain ⟨k1, v1⟩ := e
    by_cases hk : k1 = k
    · simp only [List.map_cons, hk, if_true, List.lookup_cons, beq_self_eq_true]
    · have hb : (k == k1) = false := by simpa using fun h => hk h.symm
      simp only [List.lookup_cons, hb] at h
      simp only [List.map_cons, hk, if_false, List.lookup_cons, hb]
      exact ih h

theorem lookup_map_of_ne {V : Type} (es : List (Int × V)) (k k1 : Int) (v : V)
    (hne : k1 ≠ k) :
    (es.map fun e => if e.1 = k then (k, v) else e).lookup k1 = es.lookup k1 := by
  induction es with
  | nil => rfl
  | cons e es ih =>
    obtain ⟨k2, v2⟩ := e
    by_cases hk : k2 = k
    · have hb : (k1 == k) = false := by simpa using hne
      simp only [List.map_cons, hk, if_true, List.lookup_cons, hb]
      exact ih
    · simp only [List.map_cons, hk, if_false, List.lookup_cons]
      cases hb : k1 == k2
      · exact ih
      · rfl

theorem get_set_self {V : Type} (m : GoMap V) (k : Int) (v : V) : (m.set k v).get k = some v := by
  cases h : m.contains k
  · exact get_set_self_of_not_contains m k v h
  · simp only [set, h, if_true, get]
    exact lookup_map_self m.entries k v h

theorem get_set_of_ne {V : Type} (m : GoMap V) (k k1 : Int) (v : V) (hne : k1 ≠ k) :
    (m.set k v).get k1 = m.get k1 := by
  cases h : m.contains k
  · exact get_set_of_ne_of_not_contains m k k1 v h hne
  · simp only [set, h, if_true, get]
    exact lookup_map_of_ne m.entries k k1 v hne

theorem len_set_ge {V : Type} (m : GoMap V) (k : Int) (v : V) : m.len ≤ (m.set k v).len := by
  cases h : m.contains k
  · rw [len_set_of_not_contains m k v h]
    omega
  · rw [len_set_of_contains m k v h]

theorem get_empty {V : Type} (k : Int) : (GoMap.empty : GoMap V).get k = none := rfl

/-- In a map with one entry per key, a lookup finds exactly the entries. -/
theorem lookup_eq_some_iff_mem {V : Type} (es : List (Int × V)) (k : Int) (v : V)
    (hnd : (es.map Prod.fst).Nodup) : es.lookup k = some v ↔ (k, v) ∈ es := by
  induction es with
  | nil => simp
  | cons e es ih =>
    obtain ⟨k1, v1⟩ := e
    simp only [List.map_cons, List.nodup_cons, List.mem_map, not_exists, not_and] at hnd
    by_cases hk : k = k1
    · subst hk
      simp only [List.lookup, beq_self_eq_true, Option.some.injEq, List.mem_cons, Prod.mk.injEq,
        true_and]
      constructor
      · intro h
        exact Or.inl h.symm
      · rintro (h | h)
        · exact h.symm
        · exact absurd rfl (hnd.1 (k, v) h)
    · have hb : (k == k1) = false := by simpa using hk
      simp only [List.lookup, hb, List.mem_cons, Prod.mk.injEq, hk, false_and, false_or]
      exact ih hnd.2

theorem mem_of_lookup_eq_some {V : Type} (es : List (Int × V)) (k : Int) (v : V)
    (h : es.lookup k = some v) : (k, v) ∈ es := by
  induction es with
  | nil => simp at h
  | cons e es ih =>
    obtain ⟨k1, v1⟩ := e
    cases hb : k == k1
    · simp only [List.lookup, hb] at h
      exact List.mem_cons_of_mem _ (ih h)
    · simp only [List.lookup, hb, Option.some.injEq] at h
      have hk : k = k1 := by simpa using hb
      subst hk h
      exact List.mem_cons_self _ _

end GoMap

/-! ## Lemmas: the cooldown table -/

theorem get_cooldownsAfter_self (cd : GoMap (GoMap Time)) (p s : Int) (t : Time) :
    (cooldownsAfter cd p s t).get p = some (((cd.get p).getD GoMap.empty).set s t) := by
  unfold cooldownsAfter
  by_cases h : cd.get p = none
  · simp only [h, if_true, GoMap.get_set_self, Option.getD_some, Option.getD_none]
  · simp only [h, if_false, GoMap.get_set_self]

theorem get_cooldownsAfter_of_ne (cd : GoMap (GoMap Time)) (p s p1 : Int) (t : Time)
    (hne : p1 ≠ p) : (cooldownsAfter cd p s t).get p1 = cd.get p1 := by
  unfold cooldownsAfter
  by_cases h : cd.get p = none
  · simp only [h, if_true, GoMap.get_set_of_ne _ _ _ _ hne]
  · simp only [h, if_false, GoMap.get_set_of_ne _ _ _ _ hne]

theorem cooldownEnd_write_self (ss : SpellSystem) (p s : Int) (t : Time) :
    SpellSystem.cooldownEnd { ss with CasterCooldowns := cooldownsAfter ss.CasterCooldowns p s t }
      p s = some t := by
  simp only [SpellSystem.cooldownEnd, get_cooldownsAfter_self, Option.some_bind,
    GoMap.get_set_self]

theorem cooldownEnd_write_of_ne (ss : SpellSystem) (p s p1 s1 : Int) (t : Time)
    (hne : ¬ (p1 = p ∧ s1 = s)) :
    SpellSystem.cooldownEnd { ss with CasterCooldowns := cooldownsAfter ss.CasterCooldowns p s t }
      p1 s1 = ss.cooldownEnd p1 s1 := by
  simp only [SpellSystem.cooldownEnd]
  by_cases hp : p1 = p
  · subst hp
    have hs : s1 ≠ s := fun h => hne ⟨rfl, h⟩
    rw [get_cooldownsAfter_self]
    cases hget : ss.CasterCooldowns.get p1 with
    | none =>
      simp only [Option.getD_none, Option.some_bind, Option.none_bind,
        GoMap.get_set_of_ne _ _ _ _ hs, GoMap.get_empty]
    | some pc =>
      simp only [Option.getD_some, Option.some_bind, GoMap.get_set_of_ne _ _ _ _ hs]
  · rw [get_cooldownsAfter_of_ne _ _ _ _ _ hp]

/-! ## Lemmas: spell system calls made while its locks are free -/

theorem GetSpell_free (sm : SpellManager) (h : sm.mu.writer = false) (id : Int) :
    sm.GetSpell id = .returned sm (sm.Spells.get id) := by
  obtain ⟨spells, ⟨w, r⟩⟩ := sm
  simp only at h
  subst h
  simp [SpellManager.GetSpell, RWMutex.RLock, RWMutex.RUnlock]

theorem canCastSpell_free (ss : SpellSystem) (h : ss.mu = RWMutex.unlocked)
    (p s : Int) (now : Time) : ss.canCastSpell p s now = .returned ss (ss.ready p s now) := by
  obtain ⟨sm, act, cd, mu⟩ := ss
  simp only at h
  subst h
  simp only [SpellSystem.canCastSpell, SpellSystem.ready, SpellSystem.cooldownEnd,
    RWMutex.RLock, RWMutex.RUnlock, RWMutex.unlocked, if_true]
  cases h1 : cd.get p with
  | none => rfl
  | some pc =>
    simp only [Option.some_bind]
    cases h2 : pc.get s <;> rfl

theorem setCooldown_free (ss : SpellSystem) (h : ss.mu = RWMutex.unlocked)
    (p s : Int) (d : Time.Duration) (now : Time) :
    ss.setCooldown p s d now
      = .returned { ss with CasterCooldowns := cooldownsAfter ss.CasterCooldowns p s (now + d) }
          () := by
  obtain ⟨sm, act, cd, mu⟩ := ss
  simp only at h
  subst h
  simp only [SpellSystem.setCooldown, Lock_unlocked, cooldownsAfter, Time.Add]
  by_cases hc : cd.get p = none
  · simp only [hc, if_true]
    rfl
  · simp only [hc, if_false]
    rfl

theorem CastSpell_notFound (ss : SpellSystem) (h : ss.SpellManager.mu.writer = false)
    (counter : Int) (clock : CastClock) (p s : Int) (x y : Float64) (t : Int)
    (hd : ss.SpellManager.Spells.get s = none) :
    ss.CastSpell counter clock p s x y t
      = .returned (ss, counter) (.error (.spellNotFound s)) := by
  simp only [SpellSystem.CastSpell, GetSpell_free _ h, hd]

theorem CastSpell_onCooldown (ss : SpellSystem) (hfree : ss.Free)
    (counter : Int) (clock : CastClock) (p s : Int) (x y : Float64) (t : Int) (d : Spell)
    (hd : ss.SpellManager.Spells.get s = some d) (hr : ss.ready p s clock.check = false) :
    ss.CastSpell counter clock p s x y t
      = .returned (ss, counter) (.error (.spellOnCooldown s)) := by
  simp only [SpellSystem.CastSpell, GetSpell_free _ hfree.2, hd,
    canCastSpell_free _ hfree.1, hr]

theorem CastSpell_success (ss : SpellSystem) (hfree : ss.Free)
    (counter : Int) (clock : CastClock) (p s : Int) (x y : Float64) (t : Int) (d : Spell)
    (hd : ss.SpellManager.Spells.get s = some d) (hr : ss.ready p s clock.check = true) :
    ss.CastSpell counter clock p s x y t
      = .returned
          ({ ss with
              CasterCooldowns := cooldownsAfter ss.CasterCooldowns p s (clock.set + d.Cooldown),
              ActiveSpells := ss.ActiveSpells.set (generateSpellID counter clock.unixNano).2
                ⟨(generateSpellID counter clock.unixNano).2, s, p, t, x, y, Float64.zero,
                  Float64.zero, clock.start, d.Duration⟩ },
            (generateSpellID counter clock.unixNano).1)
          (.ok ⟨(generateSpellID counter clock.unixNano).2, s, p, t, x, y, Float64.zero,
            Float64.zero, clock.start, d.Duration⟩) := by
  obtain ⟨sm, act, cd, mu⟩ := ss
  obtain ⟨h1, h2⟩ := hfree
  simp only at h1 h2 hd
  subst h1
  have hc := canCastSpell_free ⟨sm, act, cd, RWMutex.unlocked⟩ rfl p s clock.check
  have hs := setCooldown_free ⟨sm, act, cd, RWMutex.unlocked⟩ rfl p s d.Cooldown clock.set
  simp only [SpellSystem.CastSpell, GetSpell_free _ h2, hd, hc, hr, hs, Lock_unlocked]
  rfl

theorem UpdateSpellSystem_free (F : Float64Ops) (ss : SpellSystem) (hfree : ss.Free)
    (deltaTime : Time.Duration) (now : Time) :
    SpellSystem.UpdateSpellSystem F ss deltaTime now
      = .returned
          { ss with
            ActiveSpells := ⟨ss.ActiveSpells.entries.filterMap fun (e : Int × SpellInstance) =>
              (updateSpell F deltaTime now (ss.SpellManager.Spells.get e.2.SpellID) e.2).map
                fun spell => (e.1, spell)⟩ } () := by
  obtain ⟨⟨spells, ⟨w, r⟩⟩, ⟨act⟩, cd, mu⟩ := ss
  obtain ⟨h1, h2⟩ := hfree
  simp only at h1 h2
  subst h1 h2
  simp only [SpellSystem.UpdateSpellSystem, Lock_unlocked, RWMutex.RLock, if_true]
  by_cases he : act = []
  · subst he
    rfl
  · simp only [he, if_false]
    rfl

/-- One call made with the locks free leaves them free and the spell table
as it is. -/
theorem SpellOp.apply_free (F : Float64Ops) (w : SpellSystem × Int) (hfree : w.1.Free)
    (op : SpellOp) :
    (op.apply F w).1.Free ∧ (op.apply F w).1.SpellManager = w.1.SpellManager := by
  cases op with
  | cast clock p s x y t =>
    simp only [SpellOp.apply]
    cases hd : w.1.SpellManager.Spells.get s with
    | none =>
      rw [CastSpell_notFound _ hfree.2 _ _ _ _ _ _ _ hd]
      exact ⟨hfree, rfl⟩
    | some d =>
      cases hr : w.1.ready p s clock.check with
      | false =>
        rw [CastSpell_onCooldown _ hfree _ _ _ _ _ _ _ d hd hr]
        exact ⟨hfree, rfl⟩
      | true =>
        rw [CastSpell_success _ hfree _ _ _ _ _ _ _ d hd hr]
        exact ⟨hfree, rfl⟩
  | update deltaTime now =>
    simp only [SpellOp.apply, UpdateSpellSystem_free F _ hfree]
    exact ⟨hfree, rfl⟩

/-- The cooldown end of `(P, S)` over one call: unchanged, or written by a
successful cast of `S` by `P`. -/
theorem SpellOp.apply_cooldownEnd (F : Float64Ops) (w : SpellSystem × Int) (hfree : w.1.Free)
    (op : SpellOp) (P S : Int) :
    (op.apply F w).1.cooldownEnd P S = w.1.cooldownEnd P S
    ∨ ∃ clock x y t d, op = .cast clock P S x y t
        ∧ w.1.SpellManager.Spells.get S = some d
        ∧ w.1.ready P S clock.check = true
        ∧ (op.apply F w).1.cooldownEnd P S = some (clock.set + d.Cooldown) := by
  cases op with
  | cast clock p s x y t =>
    simp only [SpellOp.apply]
    cases hd : w.1.SpellManager.Spells.get s with
    | none =>
      rw [CastSpell_notFound _ hfree.2 _ _ _ _ _ _ _ hd]
      exact Or.inl rfl
    | some d =>
      cases hr : w.1.ready p s clock.check with
      | false =>
        rw [CastSpell_onCooldown _ hfree _ _ _ _ _ _ _ d hd hr]
        exact Or.inl rfl
      | true =>
        rw [CastSpell_success _ hfree _ _ _ _ _ _ _ d hd hr]
        by_cases hps : P = p ∧ S = s
        · obtain ⟨rfl, rfl⟩ := hps
          refine Or.inr ⟨clock, x, y, t, d, rfl, hd, hr, ?_⟩
          exact cooldownEnd_write_self _ _ _ _
        · left
          exact cooldownEnd_write_of_ne _ p s P S _ hps
  | update deltaTime now =>
    simp only [SpellOp.apply, UpdateSpellSystem_free F _ hfree]
    exact Or.inl rfl

/-- Over calls none of which is a cast of `S` by `P`, the locks stay free,
the spell table is unchanged and so is the cooldown end of `(P, S)`. -/
theorem runSpellOps_frame (F : Float64Ops) (ops : List SpellOp) (w : SpellSystem × Int)
    (hfree : w.1.Free) (P S : Int) (hops : ∀ op ∈ ops, SpellOp.isCastOf P S op = false) :
    (runSpellOps F w ops).1.Free
    ∧ (runSpellOps F w ops).1.SpellManager = w.1.SpellManager
    ∧ (runSpellOps F w ops).1.cooldownEnd P S = w.1.cooldownEnd P S := by
  induction ops generalizing w with
  | nil => exact ⟨hfree, rfl, rfl⟩
  | cons op ops ih =>
    obtain ⟨h1, h2⟩ := SpellOp.apply_free F w hfree op
    have h3 : (op.apply F w).1.cooldownEnd P S = w.1.cooldownEnd P S := by
      rcases SpellOp.apply_cooldownEnd F w hfree op P S with h | ⟨clock, x, y, t, d, hop, _⟩
      · exact h
      · have := hops op (List.mem_cons_self _ _)
        rw [hop] at this
        simp [SpellOp.isCastOf] at this
    obtain ⟨i1, i2, i3⟩ := ih (op.apply F w) h1 (fun o ho => hops o (List.mem_cons_of_mem _ ho))
    exact ⟨i1, i2.trans h2, i3.trans h3⟩

/-- A successful cast found the locks free. -/
theorem CastSpell_ok_free (ss : SpellSystem) (counter : Int) (clock : CastClock)
    (p s : Int) (x y : Float64) (t : Int) (spellInstance : SpellInstance)
    (h : (ss.CastSpell counter clock p s x y t).ret = some (.ok spellInstance)) : ss.Free := by
  unfold SpellSystem.CastSpell at h
  have hw : ss.SpellManager.mu.writer = false := by
    by_contra hne
    have : ss.SpellManager.mu.RLock = none := by simp [RWMutex.RLock, hne]
    simp [SpellManager.GetSpell, this, Call.ret] at h
  refine ⟨?_, hw⟩
  by_contra hne
  have hl := Lock_eq_none_of_ne ss.mu hne
  rw [GetSpell_free _ hw] at h
  cases hd : ss.SpellManager.Spells.get s with
  | none => simp [hd, Call.ret] at h
  | some d =>
    simp only [hd] at h
    split at h
    · simp [Call.ret] at h
    · simp [Call.ret] at h
    · rename_i ss2 hc
      have hss2 : ss2.mu = ss.mu := by
        simp only [SpellSystem.canCastSpell] at hc
        split at hc
        · cases hc
        · rename_i mu hmu
          have hmu2 : mu.RUnlock = ss.mu := by
            simp only [RWMutex.RLock] at hmu
            split at hmu
            · cases hmu
              simp [RWMutex.RUnlock]
            · cases hmu
          split at hc
          · split at hc
            · simp only [Call.returned.injEq] at hc
              rw [← hc.1]
              exact hmu2
            · simp only [Call.returned.injEq] at hc
              rw [← hc.1]
              exact hmu2
          · simp only [Call.returned.injEq] at hc
            rw [← hc.1]
            exact hmu2
      simp only [SpellSystem.setCooldown, hss2, hl, Call.ret] at h
      cases h

theorem castOk_iff (c : Call (SpellSystem × Int) (Except SpellError SpellInstance)) :
    castOk c = true ↔ ∃ spellInstance, c.ret = some (.ok spellInstance) := by
  unfold castOk
  split
  · rename_i i h
    simp [h]
  · rename_i h
    constructor
    · intro hf
      cases hf
    · rintro ⟨i, hi⟩
      exact absurd hi (h i)

/-- After a successful cast of `S` by `P`, and further calls none of which
is a cast of `S` by `P`: the locks are free, the spell table is the same, and
the cooldown end of `(P, S)` is the reading in `setCooldown` plus the
cooldown of the spell. -/
theorem after_cast (F : Float64Ops) (ss : SpellSystem) (counter : Int) (c1 : CastClock)
    (P S : Int) (x1 y1 : Float64) (t1 : Int) (spell : Spell) (ops : List SpellOp)
    (hspell : ss.SpellManager.Spells.get S = some spell)
    (hfirst : castOk (ss.CastSpell counter c1 P S x1 y1 t1) = true)
    (hops : ∀ op ∈ ops, SpellOp.isCastOf P S op = false) :
    (runSpellOps F (ss.CastSpell counter c1 P S x1 y1 t1).state ops).1.Free
    ∧ (runSpellOps F (ss.CastSpell counter c1 P S x1 y1 t1).state ops).1.SpellManager.Spells.get S
        = some spell
    ∧ (runSpellOps F (ss.CastSpell counter c1 P S x1 y1 t1).state ops).1.cooldownEnd P S
        = some (c1.set + spell.Cooldown) := by
  obtain ⟨i, hi⟩ := (castOk_iff _).1 hfirst
  have hfree := CastSpell_ok_free ss counter c1 P S x1 y1 t1 i hi
  cases hr : ss.ready P S c1.check with
  | false =>
    rw [CastSpell_onCooldown _ hfree _ _ _ _ _ _ _ spell hspell hr] at hi
    simp [Call.ret] at hi
  | true =>
    rw [CastSpell_success _ hfree _ _ _ _ _ _ _ spell hspell hr]
    simp only [Call.state]
    obtain ⟨f1, f2, f3⟩ := runSpellOps_frame F ops
      ({ ss with
          CasterCooldowns := cooldownsAfter ss.CasterCooldowns P S (c1.set + spell.Cooldown),
          ActiveSpells := ss.ActiveSpells.set (generateSpellID counter c1.unixNano).2
            ⟨(generateSpellID counter c1.unixNano).2, S, P, t1, x1, y1, Float64.zero,
              Float64.zero, c1.start, spell.Duration⟩ },
        (generateSpellID counter c1.unixNano).1) hfree P S hops
    refine ⟨f1, ?_, ?_⟩
    · rw [f2]
      exact hspell
    · rw [f3]
      exact cooldownEnd_write_self _ _ _ _

/-! ## The arena tick -/

/-- C11 fails on the code. `UpdateArena` on a `Waiting` arena, whatever its
roster (two players or more included), never returns: holding the arena
lock it waits for that lock in `GetPlayerCount`. The arena stays `Waiting`,
its start timestamp is not set, and the lock stays held. -/
theorem C11_tick_on_waiting_blocks (a : Arena) (now : Time)
    (hmu : a.mu = RWMutex.unlocked) (hw : a.State = ArenaStateWaiting) :
    UpdateArena a now = .blocked { a with mu := ⟨true, 0⟩ }
    ∧ (UpdateArena a now).ret = none
    ∧ (UpdateArena a now).state.State = ArenaStateWaiting
    ∧ (UpdateArena a now).state.StartTime = a.StartTime := by
  rw [UpdateArena_unlocked a hmu, if_pos hw]
  exact ⟨rfl, rfl, hw, rfl⟩

theorem C11_tick_on_waiting_blocks_witness :
    (runOps (testArena 4) [.addPlayer 1 TeamChaos, .addPlayer 2 TeamBalance]).Players.len = 2
    ∧ (UpdateArena
        (runOps (testArena 4) [.addPlayer 1 TeamChaos, .addPlayer 2 TeamBalance]) 5).ret = none
    ∧ (UpdateArena
        (runOps (testArena 4) [.addPlayer 1 TeamChaos, .addPlayer 2 TeamBalance]) 5).state.State
        = ArenaStateWaiting :=
  ⟨by decide,
   (C11_tick_on_waiting_blocks
      (runOps (testArena 4) [.addPlayer 1 TeamChaos, .addPlayer 2 TeamBalance]) 5
      (by decide) (by decide)).2.1,
   (C11_tick_on_waiting_blocks
      (runOps (testArena 4) [.addPlayer 1 TeamChaos, .addPlayer 2 TeamBalance]) 5
      (by decide) (by decide)).2.2.1⟩

/-! ## Casting and cooldowns -/

/-- C12. Cooldown blocks an early recast: if player `P` successfully casts
spell `S` (cooldown `D`) in a call made at time `T`, so that its clock
reading in `setCooldown` is not before `T`, then the next `CastSpell` of `S`
by `P`, whatever other calls come in between, at any time earlier than
`T + D` returns the on-cooldown error and no instance, and leaves the spell
system (active-instance table and cooldown table) and the ID counter
unchanged. -/
theorem C12_cooldown_blocks_early_recast (F : Float64Ops) (ss : SpellSystem) (counter : Int)
    (c1 c2 : CastClock) (P S : Int) (x1 y1 x2 y2 : Float64) (t1 t2 : Int) (spell : Spell)
    (ops : List SpellOp) (T : Time)
    (hspell : ss.SpellManager.Spells.get S = some spell)
    (hfirst : castOk (ss.CastSpell counter c1 P S x1 y1 t1) = true)
    (hT : T ≤ c1.set)
    (hops : ∀ op ∈ ops, SpellOp.isCastOf P S op = false)
    (hearly : c2.check < T + spell.Cooldown) :
    (runSpellOps F (ss.CastSpell counter c1 P S x1 y1 t1).state ops).1.CastSpell
        (runSpellOps F (ss.CastSpell counter c1 P S x1 y1 t1).state ops).2 c2 P S x2 y2 t2
      = .returned (runSpellOps F (ss.CastSpell counter c1 P S x1 y1 t1).state ops)
          (.error (.spellOnCooldown S)) := by
  obtain ⟨hfree, hs, hcd⟩ := after_cast F ss counter c1 P S x1 y1 t1 spell ops hspell hfirst hops
  apply CastSpell_onCooldown _ hfree _ _ _ _ _ _ _ spell hs
  simp only [SpellSystem.ready, hcd, Time.After, decide_eq_false_iff_not, not_lt]
  exact (lt_of_lt_of_le hearly (add_le_add_right hT _)).le

theorem C12_cooldown_blocks_early_recast_witness :
    (runSpellOps stillOps (NewSpellSystem.CastSpell 0 ⟨100, 100, 100, 100⟩ 1 1 ⟨1⟩ ⟨2⟩ 2).state
        [.update (16 * Millisecond) 120]).1.CastSpell
        (runSpellOps stillOps (NewSpellSystem.CastSpell 0 ⟨100, 100, 100, 100⟩ 1 1 ⟨1⟩ ⟨2⟩ 2).state
          [.update (16 * Millisecond) 120]).2
        ⟨999999999, 999999999, 999999999, 999999999⟩ 1 1 ⟨1⟩ ⟨2⟩ 2
      = .returned
          (runSpellOps stillOps
            (NewSpellSystem.CastSpell 0 ⟨100, 100, 100, 100⟩ 1 1 ⟨1⟩ ⟨2⟩ 2).state
            [.update (16 * Millisecond) 120])
          (.error (.spellOnCooldown 1)) :=
  C12_cooldown_blocks_early_recast stillOps NewSpellSystem 0 ⟨100, 100, 100, 100⟩
    ⟨999999999, 999999999, 999999999, 999999999⟩ 1 1 ⟨1⟩ ⟨2⟩ ⟨1⟩ ⟨2⟩ 2 2
    (initialSpells.head (by decide)) [.update (16 * Millisecond) 120] 100
    (by decide) (by decide) (by decide) (by decide) (by decide)

/-- C13 as stated fails: player 1 casts spell 1 (cooldown one second) with
every clock reading of the call equal to 100; a cast of spell 1 by player 1
at exactly 100 plus one second returns the on-cooldown error. -/
theorem C13_counterexample :
    castOk (NewSpellSystem.CastSpell 0 ⟨100, 100, 100, 100⟩ 1 1 ⟨1⟩ ⟨2⟩ 2) = true
    ∧ ((NewSpellSystem.CastSpell 0 ⟨100, 100, 100, 100⟩ 1 1 ⟨1⟩ ⟨2⟩ 2).state.1.CastSpell
        (NewSpellSystem.CastSpell 0 ⟨100, 100, 100, 100⟩ 1 1 ⟨1⟩ ⟨2⟩ 2).state.2
        ⟨100 + 1 * Second, 100 + 1 * Second, 100 + 1 * Second, 100 + 1 * Second⟩
        1 1 ⟨1⟩ ⟨2⟩ 2).ret = some (.error (.spellOnCooldown 1)) :=
  ⟨by decide, by rfl⟩

/-- C13, amended. Recast after the end of the cooldown: if player `P`
successfully casts spell `S` (cooldown `D`), the clock reading of that call
in `setCooldown` being `T`, and does not cast `S` again before, then a
`CastSpell` of `S` by `P` at any time strictly later than `T + D`
succeeds. -/
theorem C13_recast_after_cooldown (F : Float64Ops) (ss : SpellSystem) (counter : Int)
    (c1 c2 : CastClock) (P S : Int) (x1 y1 x2 y2 : Float64) (t1 t2 : Int) (spell : Spell)
    (ops : List SpellOp)
    (hspell : ss.SpellManager.Spells.get S = some spell)
    (hfirst : castOk (ss.CastSpell counter c1 P S x1 y1 t1) = true)
    (hops : ∀ op ∈ ops, SpellOp.isCastOf P S op = false)
    (hlate : c1.set + spell.Cooldown < c2.check) :
    castOk ((runSpellOps F (ss.CastSpell counter c1 P S x1 y1 t1).state ops).1.CastSpell
        (runSpellOps F (ss.CastSpell counter c1 P S x1 y1 t1).state ops).2 c2 P S x2 y2 t2)
      = true := by
  obtain ⟨hfree, hs, hcd⟩ := after_cast F ss counter c1 P S x1 y1 t1 spell ops hspell hfirst hops
  rw [CastSpell_success _ hfree _ _ _ _ _ _ _ spell hs]
  · rfl
  · simp only [SpellSystem.ready, hcd, Time.After, decide_eq_true_eq]
    exact hlate

theorem C13_recast_after_cooldown_witness :
    castOk ((runSpellOps stillOps
          (NewSpellSystem.CastSpell 0 ⟨100, 100, 100, 100⟩ 1 1 ⟨1⟩ ⟨2⟩ 2).state
          [.update (16 * Millisecond) 120]).1.CastSpell
        (runSpellOps stillOps (NewSpellSystem.CastSpell 0 ⟨100, 100, 100, 100⟩ 1 1 ⟨1⟩ ⟨2⟩ 2).state
          [.update (16 * Millisecond) 120]).2
        ⟨1000000101, 1000000101, 1000000101, 1000000101⟩ 1 1 ⟨1⟩ ⟨2⟩ 2)
      = true :=
  C13_recast_after_cooldown stillOps NewSpellSystem 0 ⟨100, 100, 100, 100⟩
    ⟨1000000101, 1000000101, 1000000101, 1000000101⟩ 1 1 ⟨1⟩ ⟨2⟩ ⟨1⟩ ⟨2⟩ 2 2
    (initialSpells.head (by decide)) [.update (16 * Millisecond) 120]
    (by decide) (by decide) (by decide) (by decide)

/-- C14. Unknown spell: for every spell ID that has no definition in the
spell table (999 is one, for the table `NewSpellManager` builds),
`CastSpell` returns the not-found error and no instance, and leaves the
spell system (active-instance table and cooldown table) and the ID counter
unchanged, whatever the caster, the target and the cooldown state. -/
theorem C14_unknown_spell (ss : SpellSystem) (counter : Int) (clock : CastClock)
    (casterID spellID : Int) (x y : Float64) (targetID : Int)
    (hmu : ss.SpellManager.mu.writer = false)
    (hunknown : ss.SpellManager.Spells.get spellID = none) :
    ss.CastSpell counter clock casterID spellID x y targetID
        = .returned (ss, counter) (.error (.spellNotFound spellID))
    ∧ NewSpellSystem.SpellManager.Spells.get 999 = none :=
  ⟨CastSpell_notFound ss hmu counter clock casterID spellID x y targetID hunknown, by decide⟩

theorem C14_unknown_spell_witness :
    NewSpellSystem.CastSpell 0 ⟨100, 100, 100, 100⟩ 1 999 ⟨1⟩ ⟨2⟩ 2
        = .returned (NewSpellSystem, 0) (.error (.spellNotFound 999))
    ∧ NewSpellSystem.SpellManager.Spells.get 999 = none :=
  C14_unknown_spell NewSpellSystem 0 ⟨100, 100, 100, 100⟩ 1 999 ⟨1⟩ ⟨2⟩ 2 (by decide) (by decide)

/-- The instance a successful cast returns, and the table entry it leaves. -/
theorem CastSpell_ok_spec (ss : SpellSystem) (counter : Int) (clock : CastClock)
    (p s : Int) (x y : Float64) (t : Int) (spellInstance : SpellInstance)
    (h : (ss.CastSpell counter clock p s x y t).ret = some (.ok spellInstance)) :
    ∃ d, ss.SpellManager.Spells.get s = some d
      ∧ ss.ready p s clock.check = true
      ∧ spellInstance = ⟨(generateSpellID counter clock.unixNano).2, s, p, t, x, y, Float64.zero,
          Float64.zero, clock.start, d.Duration⟩ := by
  have hfree := CastSpell_ok_free ss counter clock p s x y t spellInstance h
  cases hd : ss.SpellManager.Spells.get s with
  | none =>
    rw [CastSpell_notFound _ hfree.2 _ _ _ _ _ _ _ hd] at h
    simp [Call.ret] at h
  | some d =>
    cases hr : ss.ready p s clock.check with
    | false =>
      rw [CastSpell_onCooldown _ hfree _ _ _ _ _ _ _ d hd hr] at h
      simp [Call.ret] at h
    | true =>
      rw [CastSpell_success _ hfree _ _ _ _ _ _ _ d hd hr] at h
      simp only [Call.ret, Option.some.injEq, Except.ok.injEq] at h
      exact ⟨d, rfl, rfl, h.symm⟩

/-- C15. Successful cast postcondition: when `CastSpell(caster, spell, x, y,
target)` succeeds, the returned instance has `SpellID = spell`, `CasterID =
caster`, `TargetID = target`, position `(x, y)`, start time equal to the
clock reading the call takes for it and `Duration` equal to the duration of
the spell definition, and that instance is in the active-instance table
under its own ID afterwards. -/
theorem C15_cast_postcondition (ss : SpellSystem) (counter : Int) (clock : CastClock)
    (casterID spellID : Int) (x y : Float64) (targetID : Int) (spellInstance : SpellInstance)
    (hok : (ss.CastSpell counter clock casterID spellID x y targetID).ret
        = some (.ok spellInstance)) :
    spellInstance.SpellID = spellID
    ∧ spellInstance.CasterID = casterID
    ∧ spellInstance.TargetID = targetID
    ∧ spellInstance.X = x ∧ spellInstance.Y = y
    ∧ spellInstance.StartTime = clock.start
    ∧ (∃ d, ss.SpellManager.Spells.get spellID = some d ∧ spellInstance.Duration = d.Duration)
    ∧ (ss.CastSpell counter clock casterID spellID x y targetID).state.1.ActiveSpells.get
        spellInstance.ID = some spellInstance := by
  have hfree := CastSpell_ok_free ss counter clock casterID spellID x y targetID spellInstance hok
  obtain ⟨d, hd, hr, hi⟩ := CastSpell_ok_spec ss counter clock casterID spellID x y targetID
    spellInstance hok
  rw [CastSpell_success _ hfree _ _ _ _ _ _ _ d hd hr]
  subst hi
  refine ⟨rfl, rfl, rfl, rfl, rfl, rfl, ⟨d, hd, rfl⟩, ?_⟩
  simp only [Call.state]
  exact GoMap.get_set_self _ _ _

theorem C15_cast_postcondition_witness :
    (⟨101, 1, 1, 2, ⟨1⟩, ⟨2⟩, Float64.zero, Float64.zero, 100, 2 * Second⟩ : SpellInstance).SpellID
      = 1
    ∧ (NewSpellSystem.CastSpell 0 ⟨100, 100, 100, 100⟩ 1 1 ⟨1⟩ ⟨2⟩ 2).state.1.ActiveSpells.get
        (⟨101, 1, 1, 2, ⟨1⟩, ⟨2⟩, Float64.zero, Float64.zero, 100, 2 * Second⟩ :
          SpellInstance).ID
      = some ⟨101, 1, 1, 2, ⟨1⟩, ⟨2⟩, Float64.zero, Float64.zero, 100, 2 * Second⟩ :=
  ⟨(C15_cast_postcondition NewSpellSystem 0 ⟨100, 100, 100, 100⟩ 1 1 ⟨1⟩ ⟨2⟩ 2
      ⟨101, 1, 1, 2, ⟨1⟩, ⟨2⟩, Float64.zero, Float64.zero, 100, 2 * Second⟩ (by rfl)).1,
   (C15_cast_postcondition NewSpellSystem 0 ⟨100, 100, 100, 100⟩ 1 1 ⟨1⟩ ⟨2⟩ 2
      ⟨101, 1, 1, 2, ⟨1⟩, ⟨2⟩, Float64.zero, Float64.zero, 100, 2 * Second⟩ (by rfl)).2.2.2.2.2.2.2⟩

/-- A player none of whose casts succeeded has no entry in the cooldown
table, if there was none before. -/
theorem never_cast_no_entry (F : Float64Ops) (ops : List SpellOp) (w : SpellSystem × Int)
    (hfree : w.1.Free) (Q : Int) (h0 : w.1.CasterCooldowns.get Q = none)
    (hres : ∀ i ∈ castResults F w ops, i.CasterID ≠ Q) :
    (runSpellOps F w ops).1.CasterCooldowns.get Q = none := by
  induction ops generalizing w with
  | nil => exact h0
  | cons op ops ih =>
    simp only [castResults, List.mem_append] at hres
    have hfree1 := (SpellOp.apply_free F w hfree op).1
    apply ih (op.apply F w) hfree1
    · cases op with
      | cast clock p s x y t =>
        simp only [SpellOp.apply]
        cases hd : w.1.SpellManager.Spells.get s with
        | none =>
          rw [CastSpell_notFound _ hfree.2 _ _ _ _ _ _ _ hd]
          exact h0
        | some d =>
          cases hr : w.1.ready p s clock.check with
          | false =>
            rw [CastSpell_onCooldown _ hfree _ _ _ _ _ _ _ d hd hr]
            exact h0
          | true =>
            have hne : Q ≠ p := by
              have := hres ⟨(generateSpellID w.2 clock.unixNano).2, s, p, t, x, y, Float64.zero,
                Float64.zero, clock.start, d.Duration⟩
                (Or.inl (by
                  simp only [SpellOp.result, CastSpell_success _ hfree _ _ _ _ _ _ _ d hd hr,
                    Call.ret, Option.toList, List.mem_singleton]))
              exact fun h => this h.symm
            rw [CastSpell_success _ hfree _ _ _ _ _ _ _ d hd hr]
            simp only [Call.state]
            rw [get_cooldownsAfter_of_ne _ _ _ _ _ hne]
            exact h0
      | update deltaTime now =>
        simp only [SpellOp.apply, UpdateSpellSystem_free F _ hfree, Call.state]
        exact h0
    · intro i hi
      exact hres i (Or.inr hi)

/-- C16. Cooldown write and its frame: a successful `CastSpell` by player
`P` of spell `S` sets the cooldown entry of `(P, S)` to the clock reading
taken in `setCooldown` plus the cooldown of the spell, and leaves the entry
of every other (player, spell) pair as it was; and, in any run of calls from
a new spell system, a player none of whose casts succeeded has no cooldown
entries. -/
theorem C16_cooldown_write_frame (F : Float64Ops) (ss : SpellSystem) (counter : Int)
    (clock : CastClock) (P S : Int) (x y : Float64) (t : Int) (spell : Spell)
    (hspell : ss.SpellManager.Spells.get S = some spell)
    (hok : castOk (ss.CastSpell counter clock P S x y t) = true) :
    (ss.CastSpell counter clock P S x y t).state.1.cooldownEnd P S
        = some (clock.set + spell.Cooldown)
    ∧ (∀ p s, ¬ (p = P ∧ s = S) →
        (ss.CastSpell counter clock P S x y t).state.1.cooldownEnd p s = ss.cooldownEnd p s)
    ∧ (∀ (ops : List SpellOp) (c0 Q : Int),
        (∀ i ∈ castResults F (NewSpellSystem, c0) ops, i.CasterID ≠ Q) →
        (runSpellOps F (NewSpellSystem, c0) ops).1.CasterCooldowns.get Q = none) := by
  obtain ⟨i, hi⟩ := (castOk_iff _).1 hok
  have hfree := CastSpell_ok_free ss counter clock P S x y t i hi
  obtain ⟨d, hd, hr, _⟩ := CastSpell_ok_spec ss counter clock P S x y t i hi
  rw [hspell] at hd
  cases hd
  rw [CastSpell_success _ hfree _ _ _ _ _ _ _ spell hspell hr]
  refine ⟨cooldownEnd_write_self _ _ _ _, ?_, ?_⟩
  · intro p s hne
    exact cooldownEnd_write_of_ne _ P S p s _ hne
  · intro ops c0 Q hres
    exact never_cast_no_entry F ops (NewSpellSystem, c0) ⟨rfl, rfl⟩ Q rfl hres

theorem C16_cooldown_write_frame_witness :
    (NewSpellSystem.CastSpell 0 ⟨100, 100, 100, 105⟩ 1 1 ⟨1⟩ ⟨2⟩ 2).state.1.cooldownEnd 1 1
      = some ((⟨100, 100, 100, 105⟩ : CastClock).set
          + (initialSpells.head (by decide)).Cooldown) :=
  (C16_cooldown_write_frame stillOps NewSpellSystem 0 ⟨100, 100, 100, 105⟩ 1 1 ⟨1⟩ ⟨2⟩ 2
    (initialSpells.head (by decide)) (by decide) (by decide)).1

/-- Every spell of the table `NewSpellManager` builds has a cooldown that is
not negative. -/
theorem NewSpellManager_cooldown_nonneg (id : Int) (d : Spell)
    (h : NewSpellManager.Spells.get id = some d) : 0 ≤ d.Cooldown := by
  have hall : ∀ e ∈ NewSpellManager.Spells.entries, 0 ≤ e.2.Cooldown := by decide
  exact hall (id, d) (GoMap.mem_of_lookup_eq_some _ _ _ h)

/-- Over one call, an entry of the cooldown table stays and its end does not
decrease. -/
theorem SpellOp.apply_cooldownEnd_le (F : Float64Ops) (w : SpellSystem × Int)
    (hfree : w.1.Free)
    (hnonneg : ∀ id d, w.1.SpellManager.Spells.get id = some d → 0 ≤ d.Cooldown)
    (op : SpellOp) (hclock : op.clockForward = true) (P S : Int) (E : Time)
    (hE : w.1.cooldownEnd P S = some E) :
    ∃ E1, (op.apply F w).1.cooldownEnd P S = some E1 ∧ E ≤ E1 := by
  rcases SpellOp.apply_cooldownEnd F w hfree op P S with h | ⟨clock, x, y, t, d, hop, hd, hr, h⟩
  · exact ⟨E, h.trans hE, le_refl _⟩
  · refine ⟨_, h, ?_⟩
    have h0 := hnonneg S d hd
    subst hop
    simp only [SpellOp.clockForward, decide_eq_true_eq] at hclock
    simp only [SpellSystem.ready, hE, Time.After, decide_eq_true_eq] at hr
    have h1 : E < clock.set := lt_of_lt_of_le hr hclock
    have h2 : clock.set ≤ clock.set + d.Cooldown := le_add_of_nonneg_right h0
    exact (lt_of_lt_of_le h1 h2).le

theorem runSpellOps_cooldownEnd_le (F : Float64Ops) (ops : List SpellOp)
    (w : SpellSystem × Int) (hfree : w.1.Free)
    (hnonneg : ∀ id d, w.1.SpellManager.Spells.get id = some d → 0 ≤ d.Cooldown)
    (hclock : ∀ op ∈ ops, SpellOp.clockForward op = true) (P S : Int) (E : Time)
    (hE : w.1.cooldownEnd P S = some E) :
    ∃ E1, (runSpellOps F w ops).1.cooldownEnd P S = some E1 ∧ E ≤ E1 := by
  induction ops generalizing w E with
  | nil => exact ⟨E, hE, le_refl _⟩
  | cons op ops ih =>
    obtain ⟨E1, h1, hle1⟩ := SpellOp.apply_cooldownEnd_le F w hfree hnonneg op
      (hclock op (List.mem_cons_self _ _)) P S E hE
    obtain ⟨hf, hsm⟩ := SpellOp.apply_free F w hfree op
    obtain ⟨E2, h2, hle2⟩ := ih (op.apply F w) hf (by rw [hsm]; exact hnonneg)
      (fun o ho => hclock o (List.mem_cons_of_mem _ ho)) E1 h1
    exact ⟨E2, h2, le_trans hle1 hle2⟩

/-- C17. Cooldown timestamps only move forward: over any sequence of
`CastSpell` and `UpdateSpellSystem` calls whose clock readings do not
decrease (within a cast, the reading in `setCooldown` is not before the one
in `canCastSpell`), on a spell table whose cooldowns are not negative (as
in the table of `initializeSpells`), the cooldown end stored for a
(player, spell) pair is never deleted and never decreases; and a successful
cast of that pair stores a strictly later end than the one it replaces. -/
theorem C17_cooldown_forward (F : Float64Ops) (w : SpellSystem × Int) (ops : List SpellOp)
    (P S : Int) (E : Time)
    (hfree : w.1.Free)
    (hnonneg : ∀ id d, w.1.SpellManager.Spells.get id = some d → 0 ≤ d.Cooldown)
    (hclock : ∀ op ∈ ops, SpellOp.clockForward op = true)
    (hE : w.1.cooldownEnd P S = some E) :
    (∃ E1, (runSpellOps F w ops).1.cooldownEnd P S = some E1 ∧ E ≤ E1)
    ∧ (∀ (clock : CastClock) (x y : Float64) (t : Int), clock.check ≤ clock.set →
        castOk (w.1.CastSpell w.2 clock P S x y t) = true →
        ∃ E1, (w.1.CastSpell w.2 clock P S x y t).state.1.cooldownEnd P S = some E1
          ∧ E < E1)
    ∧ ∀ id d, NewSpellManager.Spells.get id = some d → 0 ≤ d.Cooldown := by
  refine ⟨runSpellOps_cooldownEnd_le F ops w hfree hnonneg hclock P S E hE, ?_,
    NewSpellManager_cooldown_nonneg⟩
  intro clock x y t hck hok
  obtain ⟨i, hi⟩ := (castOk_iff _).1 hok
  obtain ⟨d, hd, hr, _⟩ := CastSpell_ok_spec w.1 w.2 clock P S x y t i hi
  rw [CastSpell_success _ hfree _ _ _ _ _ _ _ d hd hr]
  refine ⟨_, cooldownEnd_write_self _ _ _ _, ?_⟩
  have h0 := hnonneg S d hd
  simp only [SpellSystem.ready, hE, Time.After, decide_eq_true_eq] at hr
  have h1 : E < clock.set := lt_of_lt_of_le hr hck
  have h2 : clock.set ≤ clock.set + d.Cooldown := le_add_of_nonneg_right h0
  exact lt_of_lt_of_le h1 h2

theorem C17_cooldown_forward_witness :
    ∃ E1, (runSpellOps stillOps
        ({ NewSpellSystem with CasterCooldowns := ⟨[(1, ⟨[(1, 50)]⟩)]⟩ }, 0)
        [.cast ⟨100, 100, 100, 100⟩ 1 1 ⟨1⟩ ⟨2⟩ 2, .update (16 * Millisecond) 120,
         .cast ⟨130, 130, 130, 130⟩ 1 1 ⟨1⟩ ⟨2⟩ 2]).1.cooldownEnd 1 1 = some E1
      ∧ (50 : Time) ≤ E1 :=
  (C17_cooldown_forward stillOps
    ({ NewSpellSystem with CasterCooldowns := ⟨[(1, ⟨[(1, 50)]⟩)]⟩ }, 0)
    [.cast ⟨100, 100, 100, 100⟩ 1 1 ⟨1⟩ ⟨2⟩ 2, .update (16 * Millisecond) 120,
     .cast ⟨130, 130, 130, 130⟩ 1 1 ⟨1⟩ ⟨2⟩ 2]
    1 1 50 ⟨rfl, rfl⟩ NewSpellManager_cooldown_nonneg (by decide) (by decide)).1

/-- C18 fails on the code. Two casts succeed, by players 10 and 11 of
spell 1, the second with a wall-clock reading in `generateSpellID` one
nanosecond below the first (100, then 99): both instances get the ID 101,
the second replaces the first in the active-instance table, and the two
successful casts leave one active instance. -/
theorem C18_instance_ids_collide :
    (castResults stillOps (NewSpellSystem, 0)
        [.cast ⟨100, 100, 100, 100⟩ 10 1 ⟨1⟩ ⟨2⟩ 2,
         .cast ⟨100, 99, 100, 100⟩ 11 1 ⟨1⟩ ⟨2⟩ 2]).map (fun i => (i.CasterID, i.ID))
      = [(10, 101), (11, 101)]
    ∧ (runSpellOps stillOps (NewSpellSystem, 0)
        [.cast ⟨100, 100, 100, 100⟩ 10 1 ⟨1⟩ ⟨2⟩ 2,
         .cast ⟨100, 99, 100, 100⟩ 11 1 ⟨1⟩ ⟨2⟩ 2]).1.ActiveSpells.len = 1
    ∧ ((runSpellOps stillOps (NewSpellSystem, 0)
        [.cast ⟨100, 100, 100, 100⟩ 10 1 ⟨1⟩ ⟨2⟩ 2,
         .cast ⟨100, 99, 100, 100⟩ 11 1 ⟨1⟩ ⟨2⟩ 2]).1.ActiveSpells.get 101).map
          (fun i => i.CasterID) = some 11 := by
  decide

/-! ## Expiry of active spells -/

theorem isSome_ite_none {α : Type} (c : Prop) [Decidable c] (x : α) :
    (if c then none else some x).isSome = true ↔ ¬ c := by
  by_cases h : c
  · simp [h]
  · simp [h]

theorem updateSpell_isSome (F : Float64Ops) (deltaTime : Time.Duration) (now : Time)
    (spellDef : Option Spell) (spell : SpellInstance) :
    (updateSpell F deltaTime now spellDef spell).isSome = true
      ↔ ¬ (spell.Duration > 0 ∧ Time.Sub now spell.StartTime > spell.Duration) := by
  unfold updateSpell
  cases spellDef with
  | none => exact isSome_ite_none _ _
  | some d =>
    cases hb : F.isPositive d.Speed with
    | false =>
      simp only [hb, Bool.false_eq_true, if_false]
      exact isSome_ite_none _ _
    | true =>
      simp only [hb, if_true]
      exact isSome_ite_none _ _

/-- C19 as stated fails: an instance of spell 2 (Heal, duration 0) started
at 100 is still in the active-instance table after `UpdateSpellSystem` runs
fifty seconds later, although the time since its start exceeds its
duration. -/
theorem C19_counterexample :
    (NewSpellSystem.CastSpell 0 ⟨100, 100, 100, 100⟩ 1 2 ⟨1⟩ ⟨2⟩ 2).state.1.ActiveSpells.get 101
      = some ⟨101, 2, 1, 2, ⟨1⟩, ⟨2⟩, Float64.zero, Float64.zero, 100, 0⟩
    ∧ Time.Sub (100 + 50 * Second) 100 > (0 : Time.Duration)
    ∧ (SpellSystem.UpdateSpellSystem stillOps
        (NewSpellSystem.CastSpell 0 ⟨100, 100, 100, 100⟩ 1 2 ⟨1⟩ ⟨2⟩ 2).state.1
        (16 * Millisecond) (100 + 50 * Second)).state.ActiveSpells.contains 101 = true := by
  decide

/-- C19, amended. Expiry: `UpdateSpellSystem`, run at clock time `now` with
the locks free, returns, and afterwards an instance is in the
active-instance table if and only if it was there before and it is not the
case that its `Duration` is positive and `now - StartTime` exceeds it; so
every instance of positive duration whose elapsed time exceeds its duration
is removed, and an instance whose duration is 0 (the instant spells) is
never removed. -/
theorem C19_expiry (F : Float64Ops) (ss : SpellSystem) (deltaTime : Time.Duration) (now : Time)
    (id : Int) (hfree : ss.Free) (hnd : ss.ActiveSpells.keys.Nodup) :
    (SpellSystem.UpdateSpellSystem F ss deltaTime now).ret = some ()
    ∧ ((SpellSystem.UpdateSpellSystem F ss deltaTime now).state.ActiveSpells.contains id = true
        ↔ ∃ i, ss.ActiveSpells.get id = some i
            ∧ ¬ (i.Duration > 0 ∧ Time.Sub now i.StartTime > i.Duration)) := by
  rw [UpdateSpellSystem_free F ss hfree]
  refine ⟨rfl, ?_⟩
  simp only [Call.state]
  rw [GoMap.contains_iff_mem_keys]
  simp only [GoMap.keys, GoMap.get, List.mem_map, List.mem_filterMap, Option.map_eq_some']
  constructor
  · rintro ⟨e1, ⟨e, he, i1, hi1, rfl⟩, rfl⟩
    refine ⟨e.2, ?_, ?_⟩
    · exact (GoMap.lookup_eq_some_iff_mem _ _ _ hnd).2 he
    · apply (updateSpell_isSome F deltaTime now _ e.2).1
      rw [hi1]
      rfl
  · rintro ⟨i, hi, hkeep⟩
    have hmem := (GoMap.lookup_eq_some_iff_mem _ _ _ hnd).1 hi
    have hsome := (updateSpell_isSome F deltaTime now
      (ss.SpellManager.Spells.get i.SpellID) i).2 hkeep
    obtain ⟨i1, hi1⟩ := Option.isSome_iff_exists.1 hsome
    exact ⟨(id, i1), ⟨(id, i), hmem, i1, hi1, rfl⟩, rfl⟩

theorem C19_expiry_witness :
    (SpellSystem.UpdateSpellSystem stillOps
        (NewSpellSystem.CastSpell 0 ⟨100, 100, 100, 100⟩ 1 3 ⟨1⟩ ⟨2⟩ 1).state.1
        (1 * Second) (100 + 11 * Second)).state.ActiveSpells.contains 101 = true
      ↔ ∃ i, (NewSpellSystem.CastSpell 0 ⟨100, 100, 100, 100⟩ 1 3 ⟨1⟩ ⟨2⟩ 1).state.1.ActiveSpells.get
              101 = some i
          ∧ ¬ (i.Duration > 0 ∧ Time.Sub (100 + 11 * Second) i.StartTime > i.Duration) :=
  (C19_expiry stillOps (NewSpellSystem.CastSpell 0 ⟨100, 100, 100, 100⟩ 1 3 ⟨1⟩ ⟨2⟩ 1).state.1
    (1 * Second) (100 + 11 * Second) 101 ⟨by decide, by decide⟩ (by decide)).2

/-! ## The tick over the player registry -/

theorem updateArenaList_returns (now : Time) (arenas : List (Int × Arena))
    (h : ∀ e ∈ arenas, e.2.State ≠ ArenaStateWaiting ∧ e.2.mu = RWMutex.unlocked) :
    updateArenaList now arenas = .returned arenas () := by
  induction arenas with
  | nil => rfl
  | cons e rest ih =>
    obtain ⟨id, arena⟩ := e
    obtain ⟨hs, hmu⟩ := h (id, arena) (List.mem_cons_self _ _)
    simp only at hs hmu
    simp only [updateArenaList, UpdateArena_unlocked arena hmu, if_neg hs,
      ih (fun e he => h e (List.mem_cons_of_mem _ he))]

/-- The step `UpdateArenas` leaves the player registry as it is, whether it
returns or not. -/
theorem UpdateArenas_Players (F : Float64Ops) (env : TickEnv) (gs : GameState) :
    (UpdateArenas F env gs).state.Players = gs.Players := by
  unfold UpdateArenas
  cases h1 : gs.ArenaManager.mu.RLock with
  | none => rfl
  | some mu =>
    simp only
    cases h2 : updateArenaList env.arena gs.ArenaManager.Arenas.entries with
    | blocked arenas => rfl
    | returned arenas r =>
      simp only
      cases h3 : SpellSystem.UpdateSpellSystem F gs.SpellSystem (16 * Millisecond) env.spell
        <;> rfl

theorem UpdateGameState_Players (F : Float64Ops) (env : TickEnv) (gs : GameState)
    (hmu : gs.mu = RWMutex.unlocked) :
    (UpdateGameState F env gs).state.Players
      = (regenPlayers env (prunePlayers env gs.Players).1).1 := by
  unfold UpdateGameState
  rw [hmu, Lock_unlocked]
  simp only
  split
  · rename_i gs4 h
    have := UpdateArenas_Players F env
      { gs with mu := ⟨true, 0⟩,
                Players := (regenPlayers env (prunePlayers env gs.Players).1).1 }
    rw [h] at this
    exact this
  · rename_i gs4 _ h
    have := UpdateArenas_Players F env
      { gs with mu := ⟨true, 0⟩,
                Players := (regenPlayers env (prunePlayers env gs.Players).1).1 }
    rw [h] at this
    exact this

/-- With the locks free and no arena `Waiting`, the tick returns. -/
theorem UpdateGameState_returns (F : Float64Ops) (env : TickEnv) (gs : GameState)
    (hmu : gs.mu = RWMutex.unlocked) (ham : gs.ArenaManager.mu.writer = false)
    (hss : gs.SpellSystem.Free)
    (harenas : ∀ e ∈ gs.ArenaManager.Arenas.entries,
      e.2.State ≠ ArenaStateWaiting ∧ e.2.mu = RWMutex.unlocked) :
    (UpdateGameState F env gs).ret = some () := by
  unfold UpdateGameState
  rw [hmu, Lock_unlocked]
  simp only [UpdateArenas, RWMutex.RLock, ham, if_true,
    updateArenaList_returns env.arena _ harenas, UpdateSpellSystem_free F _ hss]
  rfl

/-- C20. Inactivity prune: after one `UpdateGameState` tick that takes the
game state lock at clock time `now`, a player is in the registry if and only
if it was registered before the tick and `now - LastSeen <= 30 s`; this is
so whatever `SavePlayer` returns for the players removed; and the tick
returns when the other locks are free and no arena is `Waiting` (as in a
new game state). -/
theorem C20_inactivity_prune (F : Float64Ops) (env : TickEnv) (gs : GameState) (id : Int)
    (hmu : gs.mu = RWMutex.unlocked) (hnd : gs.Players.keys.Nodup) :
    ((UpdateGameState F env gs).state.Players.contains id = true
      ↔ ∃ p, gs.Players.get id = some p ∧ Time.Sub env.now p.LastSeen ≤ 30 * Second)
    ∧ (gs.ArenaManager.mu.writer = false → gs.SpellSystem.Free →
        (∀ e ∈ gs.ArenaManager.Arenas.entries,
          e.2.State ≠ ArenaStateWaiting ∧ e.2.mu = RWMutex.unlocked) →
        (UpdateGameState F env gs).ret = some ()) := by
  refine ⟨?_, fun ham hss harenas => UpdateGameState_returns F env gs hmu ham hss harenas⟩
  rw [UpdateGameState_Players F env gs hmu, GoMap.contains_iff_mem_keys]
  simp only [regenPlayers, prunePlayers, GoMap.keys, GoMap.get, List.map_map, List.mem_map,
    List.mem_filter, Function.comp, decide_eq_true_eq, not_lt]
  constructor
  · rintro ⟨e, ⟨he, hkeep⟩, rfl⟩
    exact ⟨e.2, (GoMap.lookup_eq_some_iff_mem _ _ _ hnd).2 he, hkeep⟩
  · rintro ⟨p, hp, hkeep⟩
    exact ⟨(id, p), ⟨(GoMap.lookup_eq_some_iff_mem _ _ _ hnd).1 hp, hkeep⟩, rfl⟩

theorem C20_inactivity_prune_witness :
    ((UpdateGameState stillOps (tickAt (100 * Second))
        { NewGameState with
          Players := ⟨[(1, ⟨1, "Player1", ⟨0⟩, ⟨0⟩, 50, 0, 90 * Second⟩),
                       (3, ⟨3, "Player3", ⟨0⟩, ⟨0⟩, 10, 0, 69 * Second⟩)]⟩ }).state.Players.contains 3
        = true
      ↔ ∃ p, (⟨[(1, ⟨1, "Player1", ⟨0⟩, ⟨0⟩, 50, 0, 90 * Second⟩),
                (3, ⟨3, "Player3", ⟨0⟩, ⟨0⟩, 10, 0, 69 * Second⟩)]⟩ : GoMap Player).get 3 = some p
          ∧ Time.Sub (tickAt (100 * Second)).now p.LastSeen ≤ 30 * Second)
    ∧ (UpdateGameState stillOps (tickAt (100 * Second))
        { NewGameState with
          Players := ⟨[(1, ⟨1, "Player1", ⟨0⟩, ⟨0⟩, 50, 0, 90 * Second⟩),
                       (3, ⟨3, "Player3", ⟨0⟩, ⟨0⟩, 10, 0, 69 * Second⟩)]⟩ }).state.Players.keys
        = [1] :=
  ⟨(C20_inactivity_prune stillOps (tickAt (100 * Second))
      { NewGameState with
        Players := ⟨[(1, ⟨1, "Player1", ⟨0⟩, ⟨0⟩, 50, 0, 90 * Second⟩),
                     (3, ⟨3, "Player3", ⟨0⟩, ⟨0⟩, 10, 0, 69 * Second⟩)]⟩ }
      3 rfl (by decide)).1,
   by decide⟩

/-! ## Health regeneration -/

theorem wrapInt64_of_range (x : Int) (h1 : -(2 ^ 63) ≤ x) (h2 : x < 2 ^ 63) :
    wrapInt64 x = x := by
  unfold wrapInt64
  omega

theorem minInt_eq_min (a b : Int) : minInt a b = min a b := by
  unfold minInt
  split_ifs with h
  · exact (min_eq_left h.le).symm
  · exact (min_eq_right (not_lt.1 h)).symm

namespace GoMap

theorem lookup_eq_none_of_not_mem {V : Type} (es : List (Int × V)) (k : Int)
    (h : k ∉ es.map Prod.fst) : es.lookup k = none := by
  have hc : (GoMap.mk es).contains k = false := by
    cases hb : (GoMap.mk es).contains k
    · rfl
    · exact absurd ((contains_iff_mem_keys _ _).1 hb) h
  simpa [contains, get] using hc

/-- A lookup after a filter and an update of the values, in a map with one
entry per key. -/
theorem lookup_map_filter {V : Type} (es : List (Int × V)) (k : Int)
    (keep : Int × V → Bool) (upd : Int × V → V) (hnd : (es.map Prod.fst).Nodup) :
    ((es.filter keep).map fun e => (e.1, upd e)).lookup k
      = (es.lookup k).bind fun v => if keep (k, v) then some (upd (k, v)) else none := by
  induction es with
  | nil => rfl
  | cons e es ih =>
    obtain ⟨k1, v1⟩ := e
    simp only [List.map_cons, List.nodup_cons] at hnd
    by_cases hk : k = k1
    · subst hk
      simp only [List.lookup_cons, beq_self_eq_true, Option.some_bind]
      by_cases hkeep : keep (k, v1) = true
      · simp only [List.filter_cons, hkeep, if_true, List.map_cons, List.lookup_cons,
          beq_self_eq_true]
      · simp only [List.filter_cons, hkeep, if_false, Bool.false_eq_true]
        rw [ih hnd.2, lookup_eq_none_of_not_mem es k hnd.1]
        rfl
    · have hb : (k == k1) = false := by simpa using hk
      simp only [List.lookup_cons, hb]
      by_cases hkeep : keep (k1, v1) = true
      · simp only [List.filter_cons, hkeep, if_true, List.map_cons, List.lookup_cons, hb]
        exact ih hnd.2
      · simp only [List.filter_cons, hkeep, if_false, Bool.false_eq_true]
        exact ih hnd.2

end GoMap

/-- The record of a player after a tick that took the lock: none for a
player pruned, the regenerated record for one kept. -/
theorem UpdateGameState_get (F : Float64Ops) (env : TickEnv) (gs : GameState) (id : Int)
    (hmu : gs.mu = RWMutex.unlocked) (hnd : gs.Players.keys.Nodup) :
    (UpdateGameState F env gs).state.Players.get id
      = (gs.Players.get id).bind fun p =>
          if Time.Sub env.now p.LastSeen > 30 * Second then none
          else some (regenPlayer env id p) := by
  rw [UpdateGameState_Players F env gs hmu]
  simp only [regenPlayers, prunePlayers, GoMap.get]
  have h := GoMap.lookup_map_filter gs.Players.entries id
    (fun e => decide ¬ (Time.Sub env.now e.2.LastSeen > 30 * Second))
    (fun e => regenPlayer env e.1 e.2) hnd
  rw [h]
  cases gs.Players.entries.lookup id with
  | none => rfl
  | some p =>
    simp only [Option.some_bind, decide_eq_true_eq]
    by_cases hp : Time.Sub env.now p.LastSeen > 30 * Second
    · simp only [hp, not_true_eq_false, if_false, if_true]
    · simp only [hp, not_false_eq_true, if_true, if_false]

/-- C21 as stated fails: a player whose health is the largest `int`,
`2^63 - 1`, and who stays registered has health `-2^63` after the tick, not
`min(100, h + 1) = 100`: the increment wraps around. -/
theorem C21_counterexample :
    ((UpdateGameState stillOps (tickAt (100 * Second))
        { NewGameState with
          Players := ⟨[(1, ⟨1, "Player1", ⟨0⟩, ⟨0⟩, 9223372036854775807, 0, 100 * Second⟩)]⟩
        }).state.Players.get 1).map (fun p => p.Health) = some (-9223372036854775808)
    ∧ min (100 : Int) (9223372036854775807 + 1) = 100 := by
  decide

/-- C21, amended. Health regeneration: after one `UpdateGameState` tick that
takes the game state lock, every player that remains registered and whose
health `h` before the tick is below the largest `int` has health
`min(100, h + 1)` (50 becomes 51, 100 stays 100); a player pruned in that
tick is gone from the registry and is passed to `SavePlayer` with its health
as it was. -/
theorem C21_health_regeneration (F : Float64Ops) (env : TickEnv) (gs : GameState) (id : Int)
    (p : Player) (hmu : gs.mu = RWMutex.unlocked) (hnd : gs.Players.keys.Nodup)
    (hp : gs.Players.get id = some p) :
    (Time.Sub env.now p.LastSeen ≤ 30 * Second →
      -(2 ^ 63) ≤ p.Health + 1 → p.Health + 1 < 2 ^ 63 →
      ∃ p1, (UpdateGameState F env gs).state.Players.get id = some p1
        ∧ p1.Health = min 100 (p.Health + 1))
    ∧ (Time.Sub env.now p.LastSeen > 30 * Second →
      (UpdateGameState F env gs).state.Players.get id = none
      ∧ (p, env.SavePlayer p) ∈ (prunePlayers env gs.Players).2) := by
  rw [UpdateGameState_get F env gs id hmu hnd, hp]
  simp only [Option.some_bind]
  constructor
  · intro hkeep h1 h2
    rw [if_neg (not_lt.2 hkeep)]
    refine ⟨_, rfl, ?_⟩
    simp only [regenPlayer, wrapInt64_of_range _ h1 h2, minInt_eq_min]
  · intro hprune
    rw [if_pos hprune]
    refine ⟨rfl, ?_⟩
    simp only [prunePlayers, List.mem_map, List.mem_filter, decide_eq_true_eq]
    exact ⟨(id, p), ⟨GoMap.mem_of_lookup_eq_some _ _ _ hp, hprune⟩, rfl⟩

theorem C21_health_regeneration_witness :
    ∃ p1, (UpdateGameState stillOps (tickAt (100 * Second))
        { NewGameState with
          Players := ⟨[(1, ⟨1, "Player1", ⟨0⟩, ⟨0⟩, 50, 0, 100 * Second⟩),
                       (2, ⟨2, "Player2", ⟨0⟩, ⟨0⟩, 100, 0, 100 * Second⟩)]⟩
        }).state.Players.get 1 = some p1
      ∧ p1.Health = min 100 ((⟨1, "Player1", ⟨0⟩, ⟨0⟩, 50, 0, 100 * Second⟩ : Player).Health + 1) :=
  (C21_health_regeneration stillOps (tickAt (100 * Second))
    { NewGameState with
      Players := ⟨[(1, ⟨1, "Player1", ⟨0⟩, ⟨0⟩, 50, 0, 100 * Second⟩),
                   (2, ⟨2, "Player2", ⟨0⟩, ⟨0⟩, 100, 0, 100 * Second⟩)]⟩ }
    1 ⟨1, "Player1", ⟨0⟩, ⟨0⟩, 50, 0, 100 * Second⟩ rfl (by decide) (by decide)).1
    (by decide) (by decide) (by decide)

/-- C22 as stated fails: a registered player with health -5 has health -4
after the tick, below 0. -/
theorem C22_counterexample :
    ((UpdateGameState stillOps (tickAt (100 * Second))
        { NewGameState with
          Players := ⟨[(1, ⟨1, "Player1", ⟨0⟩, ⟨0⟩, -5, 0, 100 * Second⟩)]⟩
        }).state.Players.get 1).map (fun p => p.Health) = some (-4) := by
  decide

/-- C22, amended. Health is capped at 100: for every registry state, after
an `UpdateGameState` tick that takes the game state lock the health of every
registered player is at most 100. There is no lower clamp: the health is at
least 0 when it was at least -1 (and below the largest `int`) before the
tick, and it is negative when it was below -1 before (and not below the
smallest `int`). -/
theorem C22_health_cap (F : Float64Ops) (env : TickEnv) (gs : GameState) (id : Int)
    (p1 : Player) (hmu : gs.mu = RWMutex.unlocked) (hnd : gs.Players.keys.Nodup)
    (hp1 : (UpdateGameState F env gs).state.Players.get id = some p1) :
    p1.Health ≤ 100
    ∧ ∃ p, gs.Players.get id = some p
        ∧ (-1 ≤ p.Health → p.Health + 1 < 2 ^ 63 → 0 ≤ p1.Health)
        ∧ (p.Health < -1 → -(2 ^ 63) ≤ p.Health + 1 → p1.Health < 0) := by
  rw [UpdateGameState_get F env gs id hmu hnd] at hp1
  cases hg : gs.Players.get id with
  | none => simp [hg] at hp1
  | some p =>
    simp only [hg, Option.some_bind] at hp1
    split_ifs at hp1 with hprune
    simp only [Option.some.injEq] at hp1
    subst hp1
    simp only [regenPlayer, minInt_eq_min]
    refine ⟨min_le_left _ _, p, rfl, ?_, ?_⟩
    · intro h1 h2
      rw [wrapInt64_of_range _ (by omega) h2]
      exact le_min (by decide) (by omega)
    · intro h1 h2
      rw [wrapInt64_of_range _ h2 (by omega)]
      exact lt_of_le_of_lt (min_le_right _ _) (by omega)

theorem C22_health_cap_witness :
    (⟨1, "Player1", ⟨0⟩, ⟨0⟩, 100, 0, 100 * Second⟩ : Player).Health ≤ 100 :=
  (C22_health_cap stillOps (tickAt (100 * Second))
    { NewGameState with
      Players := ⟨[(1, ⟨1, "Player1", ⟨0⟩, ⟨0⟩, 100, 0, 90 * Second⟩)]⟩ }
    1 ⟨1, "Player1", ⟨0⟩, ⟨0⟩, 100, 0, 100 * Second⟩ rfl (by decide) (by decide)).1

/-! ## Dispatch on the type tag -/

/-- The handler a frame of `NewPacket` reaches is decided by the low byte of
its tag. -/
theorem dispatchFrame_NewPacket (t : Nat) (d : List Byte) (ht : t < 2 ^ 16)
    (hd : d.length < 2 ^ 32) :
    dispatchFrame (NewPacket t d).Serialize
      = some (HandleMessage.handler ⟨t % 2 ^ 8, d⟩) := by
  have h := DeserializePacket_NewPacket t d [] ht hd
  rw [List.append_nil] at h
  simp only [dispatchFrame, ParseMessage, h]

/-- C23 fails on the code. The frame with type tag 257, which is not one of
1..11, and payload "Alice" is read by `ParseMessage` as a message of type 1:
the conversion of the 16-bit tag to the one-byte `MessageType` drops the
high byte. `HandleMessage` calls `handleLogin` for it, not the fallback;
the frame with tag 12 does reach the fallback. -/
theorem C23_tag_257_reaches_login :
    (ParseMessage (NewPacket 257 [0x41, 0x6C, 0x69, 0x63, 0x65]).Serialize).val
        = .ok { Typ := MsgLogin, Data := [0x41, 0x6C, 0x69, 0x63, 0x65] }
    ∧ dispatchFrame (NewPacket 257 [0x41, 0x6C, 0x69, 0x63, 0x65]).Serialize
        = some Handler.handleLogin
    ∧ dispatchFrame (NewPacket 12 [0x41, 0x6C, 0x69, 0x63, 0x65]).Serialize
        = some Handler.handleUnknownMessage :=
  ⟨by rfl, by decide, by decide⟩

/-- C24 fails on the code. `BuildMovePacket` writes the tag `PacketMove = 3`
and `BuildChatPacket` the tag `PacketChat = 4`, while the message type table
has `MsgMove = 2`, `MsgChat = 3` and `MsgLogout = 4`: a packet built by
`BuildMovePacket`, serialized, read back by `ParseMessage` and dispatched by
`HandleMessage` reaches `handleChat`, and one built by `BuildChatPacket`
reaches `handleLogout`. Only `BuildLoginPacket` reaches its handler. -/
theorem C24_builder_tags_disagree :
    (∀ x y, (BuildMovePacket x y).Typ = 3) ∧ MsgMove = 2
    ∧ (∀ m, (BuildChatPacket m).Typ = 4) ∧ MsgChat = 3 ∧ MsgLogout = 4
    ∧ dispatchFrame (BuildLoginPacket [0x41, 0x6C, 0x69, 0x63, 0x65]).Serialize
        = some Handler.handleLogin
    ∧ dispatchFrame (BuildMovePacket ⟨0x4025000000000000⟩ ⟨0x40344CCCCCCCCCCD⟩).Serialize
        = some Handler.handleChat
    ∧ dispatchFrame (BuildChatPacket [0x68, 0x65, 0x6C, 0x6C, 0x6F]).Serialize
        = some Handler.handleLogout :=
  ⟨fun _ _ => rfl, rfl, fun _ => rfl, rfl, rfl, by decide, by decide, by decide⟩

/-- C25 as stated fails: the packet with `Length = 0` and one byte of data
serializes to seven bytes whose length field is 0, while one payload byte
follows it. -/
theorem C25_counterexample :
    (Packet.mk 1 0 [0x41]).Serialize = [0x01, 0x00, 0x00, 0x00, 0x00, 0x00, 0x41]
    ∧ Uint32 (((Packet.mk 1 0 [0x41]).Serialize.drop 2).take 4) = 0
    ∧ (Packet.mk 1 0 [0x41]).Serialize.length - 6 = 1 := by
  decide

/-- C25, amended. Declared length equals actual length: for every packet
whose `Length` field equals the length of its `Data` (below `2^32`), as for
every packet `NewPacket(t, d)` with `len(d) < 2^32`, the 32-bit length field
that `Serialize` writes at bytes `[2,6)` equals the number of payload bytes
that follow it, `len(output) - 6`, and these bytes are `Data` unchanged. -/
theorem C25_declared_length (p : Packet) (hlen : p.Length = p.Data.length)
    (h32 : p.Data.length < 2 ^ 32) :
    Uint32 ((p.Serialize.drop 2).take 4) = p.Serialize.length - 6
    ∧ p.Serialize.drop 6 = p.Data
    ∧ ∀ (t : Nat) (d : List Byte), d.length < 2 ^ 32 → (NewPacket t d).Length = d.length := by
  refine ⟨?_, ?_, ?_⟩
  · rw [Serialize_length]
    have h : (p.Serialize.drop 2).take 4 = PutUint32 p.Length := by
      simp [Packet.Serialize, PutUint16, PutUint32]
    rw [h, Uint32_PutUint32 _ (by rw [hlen]; exact h32), hlen]
    omega
  · simp [Packet.Serialize, PutUint16, PutUint32]
  · intro t d hd
    exact Nat.mod_eq_of_lt hd

theorem C25_declared_length_witness :
    Uint32 (((NewPacket 1 [0x41, 0x6C]).Serialize.drop 2).take 4)
      = (NewPacket 1 [0x41, 0x6C]).Serialize.length - 6 :=
  (C25_declared_length (NewPacket 1 [0x41, 0x6C]) (by decide) (by decide)).1

/-! ## Payload parsers -/

theorem Uint64_PutUint64 (v : Nat) (h : v < 2 ^ 64) : Uint64 (PutUint64 v) = v := by
  simp only [Uint64, PutUint64, byteOf, List.getD_cons_zero, List.getD_cons_succ]
  omega

theorem binaryReadFloat64_enough (r : Reader) (v : Float64) (h : 8 ≤ r.length) :
    binaryReadFloat64 r v = (⟨Uint64 (r.take 8)⟩, r.drop 8) := by
  simp only [binaryReadFloat64, ReadFull_enough r 8 h]

theorem ParseCastSpellPacket_long (data : List Byte) (h : 24 ≤ data.length) :
    ParseCastSpellPacket data
      = .ok (0, ⟨Uint64 (data.take 8)⟩, ⟨Uint64 ((data.drop 8).take 8)⟩, 0) := by
  have h8 : 8 ≤ (data.drop 8).length := by
    rw [List.length_drop]
    omega
  simp only [ParseCastSpellPacket, if_neg (not_lt.2 h), binaryReadInt,
    binaryReadFloat64_enough data _ (by omega), binaryReadFloat64_enough _ _ h8]

/-- C26 fails on the code. For every payload of at least 24 bytes
`ParseCastSpellPacket` returns spell ID 0 and target ID 0, and takes targetX
from bytes `[0,8)` and targetY from bytes `[8,16)`: `binary.Read` into an
`int` reads nothing. On the payload of the test client (spell 1, x and y 50,
target 2) the little-endian 32-bit integers in bytes `[0,4)` and `[20,24)`
are 1 and 2 and the 64-bit pattern in bytes `[4,12)` is 50, while the
function returns 0, 0 and the pattern `0x3200000001`. -/
theorem C26_cast_payload_misread (data : List Byte) (h : 24 ≤ data.length) :
    ParseCastSpellPacket data
        = .ok (0, ⟨Uint64 (data.take 8)⟩, ⟨Uint64 ((data.drop 8).take 8)⟩, 0)
    ∧ Uint32 (castData.take 4) = 1
    ∧ Uint64 ((castData.drop 4).take 8) = 50
    ∧ Uint32 ((castData.drop 20).take 4) = 2
    ∧ ParseCastSpellPacket castData = .ok (0, ⟨0x3200000001⟩, ⟨0x3200000000⟩, 0) :=
  ⟨ParseCastSpellPacket_long data h, by decide, by decide, by decide, by rfl⟩

theorem C26_cast_payload_misread_witness :
    ParseCastSpellPacket castData
      = .ok (0, ⟨Uint64 (castData.take 8)⟩, ⟨Uint64 ((castData.drop 8).take 8)⟩, 0) :=
  (C26_cast_payload_misread castData (by decide)).1

/-- C27 fails on the code. For every payload of at least 8 bytes
`ParseJoinArenaPacket` returns arena ID 0 and team 0 (`TeamNone`):
`binary.Read` into an `int` or a `Team` reads nothing. On the payload of the
test client (arena 1, team Chaos) bytes `[0,4)` and `[4,8)` hold 1 and 1;
the JoinArena message with that payload, from player 7 to a game state with
the three empty arenas of `initializeArenas`, leaves the game state as it
is: arena 0 does not exist and nobody joins arena 1. -/
theorem C27_join_payload_misread (data : List Byte) (h : 8 ≤ data.length) :
    ParseJoinArenaPacket data = .ok (0, TeamNone)
    ∧ Uint32 (joinData.take 4) = 1
    ∧ Uint32 ((joinData.drop 4).take 4) = 1
    ∧ (initializeArenas NewGameState).state.ArenaManager.Arenas.keys = [1, 2, 3]
    ∧ handleJoinArena ⟨MsgJoinArena, joinData⟩ ⟨7, "Player7", ⟨0⟩, ⟨0⟩, 100, 0, 0⟩
        (initializeArenas NewGameState).state
      = .returned (initializeArenas NewGameState).state () := by
  refine ⟨?_, by decide, by decide, by decide, by decide⟩
  simp only [ParseJoinArenaPacket, if_neg (not_lt.2 h), binaryReadInt]

theorem C27_join_payload_misread_witness :
    ParseJoinArenaPacket joinData = .ok (0, TeamNone) :=
  (C27_join_payload_misread joinData (by decide)).1

/-- C28. Move payload round trip: for all 64-bit floats `x` and `y`,
`ParseMovePacket` on the payload of `BuildMovePacket(x, y)` succeeds and
returns `x` and `y` bit for bit; the payload is exactly 16 bytes, the
little-endian bit pattern of `x` followed by that of `y`. -/
theorem C28_move_roundtrip (x y : Float64) (hx : x.bits < 2 ^ 64) (hy : y.bits < 2 ^ 64) :
    ParseMovePacket (BuildMovePacket x y).Data = .ok (x, y)
    ∧ (BuildMovePacket x y).Data.length = 16
    ∧ (BuildMovePacket x y).Data = PutUint64 x.bits ++ PutUint64 y.bits
    ∧ Uint64 ((BuildMovePacket x y).Data.take 8) = x.bits
    ∧ Uint64 ((BuildMovePacket x y).Data.drop 8) = y.bits := by
  obtain ⟨xb⟩ := x
  obtain ⟨yb⟩ := y
  simp only at hx hy
  have hd : (BuildMovePacket ⟨xb⟩ ⟨yb⟩).Data = PutUint64 xb ++ PutUint64 yb := rfl
  have hl : (PutUint64 xb).length = 8 := rfl
  have htake : (PutUint64 xb ++ PutUint64 yb).take 8 = PutUint64 xb := by
    rw [← hl, List.take_left']
    rfl
  have hdrop : (PutUint64 xb ++ PutUint64 yb).drop 8 = PutUint64 yb := by
    rw [← hl, List.drop_left']
    rfl
  have hlen : (PutUint64 xb ++ PutUint64 yb).length = 16 := rfl
  have hty : (PutUint64 yb).take 8 = PutUint64 yb := rfl
  have hl1 : 8 ≤ (PutUint64 xb ++ PutUint64 yb).length := by rw [hlen]; decide
  have hl2 : 8 ≤ (PutUint64 yb).length := le_of_eq rfl
  refine ⟨?_, by rw [hd, hlen], hd, ?_, ?_⟩
  · rw [hd]
    simp only [ParseMovePacket, hlen, lt_self_iff_false, if_false,
      binaryReadFloat64_enough _ _ hl1, htake, hdrop,
      binaryReadFloat64_enough _ _ hl2, hty,
      Uint64_PutUint64 xb hx, Uint64_PutUint64 yb hy]
  · rw [hd, htake, Uint64_PutUint64 xb hx]
  · rw [hd, hdrop, Uint64_PutUint64 yb hy]

theorem C28_move_roundtrip_witness :
    ParseMovePacket (BuildMovePacket ⟨0x4025000000000000⟩ ⟨0x40344CCCCCCCCCCD⟩).Data
      = .ok (⟨0x4025000000000000⟩, ⟨0x40344CCCCCCCCCCD⟩) :=
  (C28_move_roundtrip ⟨0x4025000000000000⟩ ⟨0x40344CCCCCCCCCCD⟩ (by decide) (by decide)).1

theorem error_ite_iff {α : Type} (c : Prop) [Decidable c] (e0 : PayloadError) (v : α) :
    (∃ e, (if c then Except.error e0 else Except.ok v : Except PayloadError α) = .error e)
      ↔ c := by
  by_cases h : c
  · simp [h]
  · simp [h]

/-- C29. Payload length validation: on every byte string each payload parser
returns, and returns an error exactly when the payload is shorter than the
minimum of its message type: `ParseLoginPacket` and `ParseChatPacket` 1 byte
(and otherwise they return the payload bytes unchanged), `ParseMovePacket`
16, `ParseJoinArenaPacket` 8, `ParseLeaveArenaPacket` 4,
`ParseArenaUpdatePacket` 20, `ParseCastSpellPacket` 24. -/
theorem C29_payload_length_validation (data : List Byte) :
    ((∃ e, ParseLoginPacket data = .error e) ↔ data.length < 1)
    ∧ (1 ≤ data.length → ParseLoginPacket data = .ok data)
    ∧ ((∃ e, ParseChatPacket data = .error e) ↔ data.length < 1)
    ∧ (1 ≤ data.length → ParseChatPacket data = .ok data)
    ∧ ((∃ e, ParseMovePacket data = .error e) ↔ data.length < 16)
    ∧ ((∃ e, ParseJoinArenaPacket data = .error e) ↔ data.length < 8)
    ∧ ((∃ e, ParseLeaveArenaPacket data = .error e) ↔ data.length < 4)
    ∧ ((∃ e, ParseArenaUpdatePacket data = .error e) ↔ data.length < 20)
    ∧ ((∃ e, ParseCastSpellPacket data = .error e) ↔ data.length < 24) := by
  refine ⟨?_, ?_, ?_, ?_, ?_, ?_, ?_, ?_, ?_⟩
  · rw [ParseLoginPacket, error_ite_iff]
    omega
  · intro h
    rw [ParseLoginPacket, if_neg (by omega)]
  · rw [ParseChatPacket, error_ite_iff]
    omega
  · intro h
    rw [ParseChatPacket, if_neg (by omega)]
  · exact error_ite_iff _ _ _
  · exact error_ite_iff _ _ _
  · exact error_ite_iff _ _ _
  · exact error_ite_iff _ _ _
  · exact error_ite_iff _ _ _

theorem C29_payload_length_validation_witness :
    ParseLoginPacket [0x41, 0x6C, 0x69, 0x63, 0x65] = .ok [0x41, 0x6C, 0x69, 0x63, 0x65] :=
  (C29_payload_length_validation [0x41, 0x6C, 0x69, 0x63, 0x65]).2.1 (by decide)

/-! ## Leaving an arena -/

namespace GoMap

theorem delete_of_not_contains {V : Type} (m : GoMap V) (k : Int)
    (h : m.contains k = false) : m.delete k = m := by
  have hk : k ∉ m.keys := by
    intro hmem
    rw [(contains_iff_mem_keys m k).2 hmem] at h
    cases h
  obtain ⟨es⟩ := m
  simp only [delete, GoMap.mk.injEq, List.filter_eq_self, decide_eq_true_eq]
  intro e he heq
  exact hk (List.mem_map.2 ⟨e, he, heq⟩)

theorem get_delete_self {V : Type} (m : GoMap V) (k : Int) : (m.delete k).get k = none := by
  apply lookup_eq_none_of_not_mem
  simp only [delete, List.mem_map, List.mem_filter, decide_eq_true_eq, not_exists, not_and]
  intro e he heq
  exact he.2 heq

theorem get_delete_of_ne {V : Type} (m : GoMap V) (k k1 : Int) (hne : k1 ≠ k) :
    (m.delete k).get k1 = m.get k1 := by
  obtain ⟨es⟩ := m
  simp only [delete, get]
  induction es with
  | nil => rfl
  | cons e es ih =>
    obtain ⟨k2, v2⟩ := e
    by_cases hk : k2 = k
    · have hb : (k1 == k2) = false := by rw [hk]; simpa using hne
      simp only [List.filter_cons, hk, ne_eq, not_true_eq_false, decide_False,
        Bool.false_eq_true, if_false, List.lookup_cons]
      rw [← hk, hb, hk]
      exact ih
    · simp only [List.filter_cons, ne_eq, hk, not_false_eq_true, decide_True, if_true,
        List.lookup_cons]
      cases hb : k1 == k2
      · exact ih
      · rfl

theorem length_filter_ne {V : Type} (es : List (Int × V)) (k : Int)
    (hnd : (es.map Prod.fst).Nodup) (hmem : k ∈ es.map Prod.fst) :
    (es.filter fun e => e.1 ≠ k).length + 1 = es.length := by
  induction es with
  | nil => simp at hmem
  | cons e es ih =>
    obtain ⟨k2, v2⟩ := e
    simp only [List.map_cons, List.nodup_cons] at hnd
    by_cases hk : k2 = k
    · subst hk
      have hall : (es.filter fun e => e.1 ≠ k2) = es := by
        simp only [List.filter_eq_self, ne_eq, decide_eq_true_eq]
        intro e he heq
        exact hnd.1 (List.mem_map.2 ⟨e, he, heq⟩)
      simp only [List.filter_cons, ne_eq, not_true_eq_false, decide_False, Bool.false_eq_true,
        if_false, List.length_cons]
      have hall2 : (es.filter fun e => !decide (e.1 = k2)) = es := by
        simpa using hall
      simp only [ne_eq, decide_not] at hall ⊢
      rw [hall2]
    · have hmem2 : k ∈ es.map Prod.fst := by
        simp only [List.map_cons, List.mem_cons] at hmem
        rcases hmem with h | h
        · exact absurd h.symm hk
        · exact h
      simp only [List.filter_cons, ne_eq, hk, not_false_eq_true, decide_True, if_true,
        List.length_cons]
      have := ih hnd.2 hmem2
      simp only [ne_eq] at this
      omega

end GoMap

theorem Arena.GetPlayer_unlocked (a : Arena) (h : a.mu = RWMutex.unlocked) (playerID : Int) :
    a.GetPlayer playerID = .returned a (a.Players.get playerID) := by
  obtain ⟨_, _, _, _, _, _, _, _, mu⟩ := a
  simp only at h
  subst h
  rfl

/-- C30. `RemovePlayer` on an arena is idempotent. Called with the arena
lock free it returns (it has no error result); removing an ID that is not in
the roster leaves the arena unchanged; removing twice equals removing once;
after `RemovePlayer(id)`, `GetPlayer(id)` reports absence, the roster size
has dropped by one if `id` was present, all other roster entries are
unchanged, and so is the rest of the arena. -/
theorem C30_RemovePlayer_idempotent (a : Arena) (id : Int) (hmu : a.mu = RWMutex.unlocked) :
    (∃ a1, a.RemovePlayer id = .returned a1 ())
    ∧ (a.Players.contains id = false → a.RemovePlayer id = .returned a ())
    ∧ (a.RemovePlayer id).state.RemovePlayer id = .returned (a.RemovePlayer id).state ()
    ∧ ((a.RemovePlayer id).state.GetPlayer id).ret = some none
    ∧ (a.Players.keys.Nodup → a.Players.contains id = true →
        (a.RemovePlayer id).state.Players.len + 1 = a.Players.len)
    ∧ (∀ k, k ≠ id → (a.RemovePlayer id).state.Players.get k = a.Players.get k)
    ∧ (a.RemovePlayer id).state = { a with Players := (a.RemovePlayer id).state.Players } := by
  rw [Arena.RemovePlayer_unlocked a hmu]
  simp only [Call.state]
  refine ⟨⟨_, rfl⟩, ?_, ?_, ?_, ?_, ?_, trivial⟩
  · intro h
    rw [GoMap.delete_of_not_contains _ _ h]
  · have h2 := Arena.RemovePlayer_unlocked { a with Players := a.Players.delete id } hmu id
    rw [h2]
    have h : (a.Players.delete id).contains id = false := by
      simp [GoMap.contains, GoMap.get_delete_self]
    simp only [GoMap.delete_of_not_contains _ _ h]
  · have h2 := Arena.GetPlayer_unlocked { a with Players := a.Players.delete id } hmu id
    rw [h2]
    simp only [Call.ret, GoMap.get_delete_self]
  · intro hnd hc
    exact GoMap.length_filter_ne _ _ hnd ((GoMap.contains_iff_mem_keys _ _).1 hc)
  · intro k hk
    exact GoMap.get_delete_of_ne _ _ _ hk

theorem C30_RemovePlayer_idempotent_witness :
    ((runOps (testArena 2) [.addPlayer 1 TeamChaos, .addPlayer 2 TeamBalance]).RemovePlayer
        1).state.RemovePlayer 1
      = .returned
          ((runOps (testArena 2) [.addPlayer 1 TeamChaos, .addPlayer 2 TeamBalance]).RemovePlayer
            1).state () :=
  (C30_RemovePlayer_idempotent
    (runOps (testArena 2) [.addPlayer 1 TeamChaos, .addPlayer 2 TeamBalance]) 1
    (by decide)).2.2.1

/-! ## Position updates, the arena directory and the player registry -/

theorem ArenaManager.CreateArena_unlocked (am : ArenaManager) (h : am.mu = RWMutex.unlocked)
    (id : Int) (name : String) (maxPlayers gridID : Int) :
    am.CreateArena id name maxPlayers gridID
      = .returned
          { am with Arenas := (am.Arenas.set id
              ⟨id, name, maxPlayers, GoMap.empty, ArenaStateWaiting, 0, 0, gridID,
                RWMutex.unlocked⟩) }
          ⟨id, name, maxPlayers, GoMap.empty, ArenaStateWaiting, 0, 0, gridID,
            RWMutex.unlocked⟩ := by
  obtain ⟨arenas, mu⟩ := am
  simp only at h
  subst h
  rfl

theorem ArenaManager.GetArena_unlocked (am : ArenaManager) (h : am.mu = RWMutex.unlocked)
    (id : Int) : am.GetArena id = .returned am (am.Arenas.get id) := by
  obtain ⟨arenas, mu⟩ := am
  simp only at h
  subst h
  rfl

theorem registry_AddPlayer_unlocked (gs : GameState) (h : gs.mu = RWMutex.unlocked)
    (p : Player) :
    gs.AddPlayer p = .returned { gs with Players := gs.Players.set p.ID p } () := by
  obtain ⟨players, am, ss, mu⟩ := gs
  simp only at h
  subst h
  rfl

theorem registry_RemovePlayer_unlocked (gs : GameState) (h : gs.mu = RWMutex.unlocked)
    (id : Int) :
    gs.RemovePlayer id = .returned { gs with Players := gs.Players.delete id } () := by
  obtain ⟨players, am, ss, mu⟩ := gs
  simp only at h
  subst h
  rfl

theorem registry_GetPlayer_unlocked (gs : GameState) (h : gs.mu = RWMutex.unlocked)
    (id : Int) : gs.GetPlayer id = .returned gs (gs.Players.get id) := by
  obtain ⟨players, am, ss, mu⟩ := gs
  simp only at h
  subst h
  rfl

/-- C31. Frame of `UpdatePlayerPosition`, called with the arena lock free. If
`id` is in the roster, the call returns, the entry of `id` has the new
position and its old ID, team, health and score, every other entry is
unchanged, no entry is added or removed, and every other field of the arena
is unchanged. If `id` is not in the roster, the call returns and the arena is
unchanged: no entry is created. -/
theorem C31_UpdatePlayerPosition_frame (a : Arena) (id : Int) (x y : Float64)
    (hmu : a.mu = RWMutex.unlocked) :
    (∀ player, a.Players.get id = some player →
        a.UpdatePlayerPosition id x y
          = .returned { a with Players := (a.UpdatePlayerPosition id x y).state.Players } ()
        ∧ (a.UpdatePlayerPosition id x y).state.Players.get id
            = some ⟨player.PlayerID, player.Team, x, y, player.Health, player.Score⟩
        ∧ (∀ k, k ≠ id →
            (a.UpdatePlayerPosition id x y).state.Players.get k = a.Players.get k)
        ∧ (a.UpdatePlayerPosition id x y).state.Players.keys = a.Players.keys)
    ∧ (a.Players.get id = none → a.UpdatePlayerPosition id x y = .returned a ()) := by
  rw [Arena.UpdatePlayerPosition_unlocked a hmu]
  constructor
  · intro player hp
    have hc : a.Players.contains id = true := by simp [GoMap.contains, hp]
    simp only [hp, Call.state]
    refine ⟨trivial, GoMap.get_set_self _ _ _, ?_, GoMap.keys_set_of_contains _ _ _ hc⟩
    intro k hk
    exact GoMap.get_set_of_ne _ _ _ _ hk
  · intro hp
    simp only [hp]

theorem C31_UpdatePlayerPosition_frame_witness :
    ((runOps (testArena 2) [.addPlayer 1 TeamChaos, .addPlayer 2 TeamBalance]).UpdatePlayerPosition
        1 ⟨7⟩ ⟨9⟩).state.Players.get 1
      = some ⟨1, TeamChaos, ⟨7⟩, ⟨9⟩, 100, 0⟩ :=
  ((C31_UpdatePlayerPosition_frame
    (runOps (testArena 2) [.addPlayer 1 TeamChaos, .addPlayer 2 TeamBalance]) 1 ⟨7⟩ ⟨9⟩
    (by decide)).1 ⟨1, TeamChaos, Float64.zero, Float64.zero, 100, 0⟩ (by decide)).2.1

/-- C32. The arena directory, called with the directory lock free.
`CreateArena(id, name, max, grid)` returns an arena with those fields, an
empty roster and state Waiting; afterwards `GetArena(id)` returns that arena,
whatever was registered under `id` before, and `GetArena` of every other ID
returns what it returned before. `GetArena` of an ID the directory does not
hold returns not-found and leaves the directory unchanged; in particular in a
new directory. -/
theorem C32_arena_directory (am : ArenaManager) (id : Int) (name : String)
    (maxPlayers gridID : Int) (hmu : am.mu = RWMutex.unlocked) :
    (am.CreateArena id name maxPlayers gridID).ret
        = some ⟨id, name, maxPlayers, GoMap.empty, ArenaStateWaiting, 0, 0, gridID,
            RWMutex.unlocked⟩
    ∧ ((am.CreateArena id name maxPlayers gridID).state.GetArena id).ret
        = some (some ⟨id, name, maxPlayers, GoMap.empty, ArenaStateWaiting, 0, 0, gridID,
            RWMutex.unlocked⟩)
    ∧ (∀ k, k ≠ id →
        ((am.CreateArena id name maxPlayers gridID).state.GetArena k).ret = (am.GetArena k).ret)
    ∧ (∀ k, am.Arenas.contains k = false → am.GetArena k = .returned am none)
    ∧ (∀ k, NewArenaManager.GetArena k = .returned NewArenaManager none) := by
  rw [ArenaManager.CreateArena_unlocked am hmu]
  simp only [Call.state, Call.ret]
  refine ⟨trivial, ?_, ?_, ?_, ?_⟩
  · have h2 := ArenaManager.GetArena_unlocked
      { am with Arenas := (am.Arenas.set id
          ⟨id, name, maxPlayers, GoMap.empty, ArenaStateWaiting, 0, 0, gridID,
            RWMutex.unlocked⟩) } hmu id
    rw [h2]
    simp only [Call.ret, GoMap.get_set_self]
  · intro k hk
    have h2 := ArenaManager.GetArena_unlocked
      { am with Arenas := (am.Arenas.set id
          ⟨id, name, maxPlayers, GoMap.empty, ArenaStateWaiting, 0, 0, gridID,
            RWMutex.unlocked⟩) } hmu k
    rw [h2, ArenaManager.GetArena_unlocked am hmu]
    simp only [Call.ret, GoMap.get_set_of_ne _ _ _ _ hk]
  · intro k hk
    rw [ArenaManager.GetArena_unlocked am hmu]
    have hn : am.Arenas.get k = none := by
      simpa [GoMap.contains] using hk
    rw [hn]
  · intro k
    rfl

theorem C32_arena_directory_witness :
    (((NewArenaManager.CreateArena 1 "Old" 4 1).state.CreateArena 1 "Training Grounds" 8
        1).state.GetArena 1).ret
      = some (some ⟨1, "Training Grounds", 8, GoMap.empty, ArenaStateWaiting, 0, 0, 1,
          RWMutex.unlocked⟩) :=
  (C32_arena_directory (NewArenaManager.CreateArena 1 "Old" 4 1).state 1 "Training Grounds" 8 1
    (by decide)).2.1

/-- C33. The player registry is a finite map from ID to player, for calls
that find the registry lock free. `AddPlayer(p)` returns and afterwards
`GetPlayer(p.ID)` yields `p` as present, whatever was stored under that ID
before (the last write wins), and every other ID reads as before. After
`RemovePlayer(id)`, `GetPlayer(id)` reports absence and every other ID reads
as before; `RemovePlayer` of an absent ID leaves the registry unchanged.
`GetPlayer` never changes the registry. -/
theorem C33_registry_finite_map (gs : GameState) (p : Player) (id : Int)
    (hmu : gs.mu = RWMutex.unlocked) :
    (∃ gs1, gs.AddPlayer p = .returned gs1 ())
    ∧ ((gs.AddPlayer p).state.GetPlayer p.ID).ret = some (some p)
    ∧ (∀ q : Player, q.ID = p.ID →
        (((gs.AddPlayer q).state.AddPlayer p).state.GetPlayer p.ID).ret = some (some p))
    ∧ (∀ k, k ≠ p.ID → ((gs.AddPlayer p).state.GetPlayer k).ret = (gs.GetPlayer k).ret)
    ∧ (∃ gs1, gs.RemovePlayer id = .returned gs1 ())
    ∧ ((gs.RemovePlayer id).state.GetPlayer id).ret = some none
    ∧ (∀ k, k ≠ id → ((gs.RemovePlayer id).state.GetPlayer k).ret = (gs.GetPlayer k).ret)
    ∧ (gs.Players.contains id = false → gs.RemovePlayer id = .returned gs ())
    ∧ gs.GetPlayer id = .returned gs (gs.Players.get id) := by
  have hadd : ∀ (g : GameState), g.mu = RWMutex.unlocked → ∀ (r : Player) (k : Int),
      ((g.AddPlayer r).state.GetPlayer k).ret = some ((g.Players.set r.ID r).get k) := by
    intro g hg r k
    rw [registry_AddPlayer_unlocked g hg]
    have h2 := registry_GetPlayer_unlocked { g with Players := g.Players.set r.ID r } hg k
    simp only [Call.state]
    rw [h2]
    rfl
  have hdel : ∀ (k : Int),
      ((gs.RemovePlayer id).state.GetPlayer k).ret = some ((gs.Players.delete id).get k) := by
    intro k
    rw [registry_RemovePlayer_unlocked gs hmu]
    have h2 := registry_GetPlayer_unlocked { gs with Players := gs.Players.delete id } hmu k
    simp only [Call.state]
    rw [h2]
    rfl
  have hget : ∀ k, (gs.GetPlayer k).ret = some (gs.Players.get k) := by
    intro k
    rw [registry_GetPlayer_unlocked gs hmu]
    rfl
  refine ⟨⟨_, registry_AddPlayer_unlocked gs hmu p⟩, ?_, ?_, ?_,
    ⟨_, registry_RemovePlayer_unlocked gs hmu id⟩, ?_, ?_, ?_,
    registry_GetPlayer_unlocked gs hmu id⟩
  · rw [hadd gs hmu, GoMap.get_set_self]
  · intro q _
    have hq : (gs.AddPlayer q).state.mu = RWMutex.unlocked := by
      rw [registry_AddPlayer_unlocked gs hmu]
      exact hmu
    rw [hadd _ hq, GoMap.get_set_self]
  · intro k hk
    rw [hadd gs hmu, hget, GoMap.get_set_of_ne _ _ _ _ hk]
  · rw [hdel, GoMap.get_delete_self]
  · intro k hk
    rw [hdel, hget, GoMap.get_delete_of_ne _ _ _ hk]
  · intro hc
    rw [registry_RemovePlayer_unlocked gs hmu, GoMap.delete_of_not_contains _ _ hc]

theorem C33_registry_finite_map_witness :
    (((NewGameState.AddPlayer ⟨1, "Old", ⟨0⟩, ⟨0⟩, 100, 0, 0⟩).state.AddPlayer
        ⟨1, "New", ⟨0⟩, ⟨0⟩, 80, 0, 5⟩).state.GetPlayer 1).ret
      = some (some ⟨1, "New", ⟨0⟩, ⟨0⟩, 80, 0, 5⟩) :=
  (C33_registry_finite_map (NewGameState.AddPlayer ⟨1, "Old", ⟨0⟩, ⟨0⟩, 100, 0, 0⟩).state
    ⟨1, "New", ⟨0⟩, ⟨0⟩, 80, 0, 5⟩ 1 (by decide)).2.1


/-! ## The spell table -/

theorem GetAllSpells_free (sm : SpellManager) (h : sm.mu.writer = false) :
    sm.GetAllSpells = .returned sm (sm.Spells.entries.map Prod.snd) := by
  obtain ⟨spells, ⟨w, r⟩⟩ := sm
  simp only at h
  subst h
  simp [SpellManager.GetAllSpells, RWMutex.RLock, RWMutex.RUnlock]

/-- C34. The spell table `NewSpellManager` builds holds exactly the keys 1 to
5, each spell under its own ID. `GetSpell(id)` returns and yields a definition
exactly when `1 ≤ id ≤ 5`, otherwise none; a definition it yields has
`ID = id`; spell 1 is Fire Bolt with damage 25; `GetSpell(999)` yields none.
`GetAllSpells` returns and yields the five definitions of `initializeSpells`
and nothing else (as a list in some order: Go leaves the order of a map
iteration open). None of the calls changes the table. -/
theorem C34_spell_table :
    NewSpellManager.Spells.keys = [1, 2, 3, 4, 5]
    ∧ (∀ id, NewSpellManager.GetSpell id
        = .returned NewSpellManager (NewSpellManager.Spells.get id))
    ∧ (∀ id, (∃ spell, NewSpellManager.Spells.get id = some spell) ↔ 1 ≤ id ∧ id ≤ 5)
    ∧ (∀ id spell, NewSpellManager.Spells.get id = some spell → spell.ID = id)
    ∧ (∃ spell, (NewSpellManager.GetSpell 1).ret = some (some spell)
        ∧ spell.Name = "Fire Bolt" ∧ spell.Damage = 25)
    ∧ (NewSpellManager.GetSpell 999).ret = some none
    ∧ (∃ spells, NewSpellManager.GetAllSpells = .returned NewSpellManager spells
        ∧ spells.Perm initialSpells ∧ spells.length = 5) := by
  have hkeys : NewSpellManager.Spells.keys = [1, 2, 3, 4, 5] := by decide
  have hids : ∀ e ∈ NewSpellManager.Spells.entries, e.2.ID = e.1 := by decide
  refine ⟨hkeys, fun id => GetSpell_free _ (by decide) id, ?_, ?_, ?_, by decide, ?_⟩
  · intro id
    have h1 : (∃ spell, NewSpellManager.Spells.get id = some spell)
        ↔ NewSpellManager.Spells.contains id = true := by
      simp only [GoMap.contains, Option.isSome_iff_exists]
    rw [h1, GoMap.contains_iff_mem_keys, hkeys]
    simp only [List.mem_cons, List.mem_singleton, List.not_mem_nil, or_false]
    omega
  · intro id spell h
    exact hids (id, spell) (GoMap.mem_of_lookup_eq_some _ _ _ h)
  · exact ⟨initialSpells.head (by decide), by decide, by decide, by decide⟩
  · refine ⟨_, GetAllSpells_free _ (by decide), ?_, by decide⟩
    have h : NewSpellManager.Spells.entries.map Prod.snd = initialSpells := by decide
    rw [h]


/-! ## The bounded debug log -/

/-- One step of the bounded log on lists: append, then drop the oldest entry
if the bound is exceeded. -/
theorem bounded_append_step {α : Type} (L R : List α) (c : α) (m : Nat) (hL : L.length ≤ m) :
    (if m < L.length + 1 then (L ++ [c]).drop 1 else L ++ [c]).length ≤ m
    ∧ ((if m < L.length + 1 then (L ++ [c]).drop 1 else L ++ [c]) ++ R).drop
          ((if m < L.length + 1 then (L ++ [c]).drop 1 else L ++ [c]).length + R.length - m)
        = (L ++ c :: R).drop (L.length + (R.length + 1) - m) := by
  by_cases h : m < L.length + 1
  · have hm : L.length = m := by omega
    rw [if_pos h]
    have h1 : 1 ≤ (L ++ [c]).length := by simp
    have hlen : ((L ++ [c]).drop 1).length = m := by simp [hm]
    refine ⟨le_of_eq hlen, ?_⟩
    rw [hlen, ← List.drop_append_of_le_length h1, List.drop_drop, List.append_assoc]
    have e1 : m + R.length - m + 1 = L.length + (R.length + 1) - m := by omega
    simp only [List.singleton_append]
    rw [← e1]
    congr 1
    omega
  · rw [if_neg h]
    have hlen : (L ++ [c]).length = L.length + 1 := by simp
    refine ⟨by omega, ?_⟩
    rw [hlen, List.append_assoc]
    simp only [List.singleton_append]
    congr 1
    omega

theorem CapturePacket_enabled (d : DebugPacketLogger) (msg : Message) (player : Player)
    (timestamp : String) (hen : d.Enabled = true) :
    d.CapturePacket msg player timestamp
      = { d with CapturedPackets :=
            if ((d.CapturedPackets ++ [captureOf (msg, player, timestamp)]).length : Int)
                > d.MaxPackets
            then (d.CapturedPackets ++ [captureOf (msg, player, timestamp)]).drop 1
            else d.CapturedPackets ++ [captureOf (msg, player, timestamp)] } := by
  obtain ⟨L, M, en⟩ := d
  simp only at hen
  subst hen
  simp only [DebugPacketLogger.CapturePacket, captureOf, Bool.not_true, Bool.false_eq_true,
    if_false]
  split <;> rfl

/-- A sequence of captures into a log that is within its bound keeps the last
entries, as many as the bound allows. -/
theorem captureAll_spec (cs : List (Message × Player × String)) (d : DebugPacketLogger)
    (hen : d.Enabled = true) (hM : 0 ≤ d.MaxPackets)
    (hlen : d.CapturedPackets.length ≤ d.MaxPackets.toNat) :
    captureAll d cs
      = { d with CapturedPackets :=
            ((d.CapturedPackets ++ cs.map captureOf).drop
              (d.CapturedPackets.length + cs.length - d.MaxPackets.toNat)) } := by
  induction cs generalizing d with
  | nil =>
    obtain ⟨L, M, en⟩ := d
    simp only [captureAll, List.foldl_nil, List.map_nil, List.append_nil, List.length_nil,
      Nat.add_zero]
    simp only at hlen
    rw [Nat.sub_eq_zero_of_le hlen, List.drop_zero]
  | cons c rest ih =>
    obtain ⟨msg, player, timestamp⟩ := c
    have hstep := CapturePacket_enabled d msg player timestamp hen
    have hcond : (((d.CapturedPackets ++ [captureOf (msg, player, timestamp)]).length : Int)
        > d.MaxPackets) ↔ d.MaxPackets.toNat < d.CapturedPackets.length + 1 := by
      simp only [List.length_append, List.length_singleton]
      omega
    have hb := bounded_append_step d.CapturedPackets (rest.map captureOf)
      (captureOf (msg, player, timestamp)) d.MaxPackets.toNat hlen
    simp only [captureAll, List.foldl_cons] at ih ⊢
    have ih2 := ih (d.CapturePacket msg player timestamp)
      (by rw [hstep]; exact hen) (by rw [hstep]; exact hM)
      (by rw [hstep]; simp only [hcond]; exact hb.1)
    rw [ih2, hstep]
    simp only [hcond, List.map_cons, List.length_cons, List.length_map] at hb ⊢
    rw [hb.2]

/-- C35. The bounded debug log. With the sink enabled, `MaxPackets = M ≥ 1`
and an initially empty log, after any `n` captures the log holds exactly the
last `min(n, M)` captured packets in capture order (the captures with the
first `n - M` dropped), so its length is `min(n, M)` and never exceeds `M`;
the other fields of the logger are unchanged. -/
theorem C35_bounded_debug_log (d : DebugPacketLogger) (cs : List (Message × Player × String))
    (hen : d.Enabled = true) (hM : 1 ≤ d.MaxPackets) (hempty : d.CapturedPackets = []) :
    captureAll d cs
        = { d with CapturedPackets := (cs.map captureOf).drop (cs.length - d.MaxPackets.toNat) }
    ∧ (captureAll d cs).CapturedPackets.length = min cs.length d.MaxPackets.toNat
    ∧ ((captureAll d cs).CapturedPackets.length : Int) ≤ d.MaxPackets := by
  have h := captureAll_spec cs d hen (by omega) (by simp [hempty])
  simp only [hempty, List.nil_append, List.length_nil, Nat.zero_add] at h
  have hl : (captureAll d cs).CapturedPackets.length = min cs.length d.MaxPackets.toNat := by
    rw [h]
    simp only [List.length_drop, List.length_map]
    omega
  refine ⟨h, hl, ?_⟩
  rw [hl]
  omega

theorem C35_bounded_debug_log_witness :
    (captureAll ⟨[], 3, true⟩
        [(⟨100, [0]⟩, ⟨1, "T", ⟨0⟩, ⟨0⟩, 100, 0, 0⟩, "t0"),
         (⟨101, [1]⟩, ⟨1, "T", ⟨0⟩, ⟨0⟩, 100, 0, 0⟩, "t1"),
         (⟨102, [2]⟩, ⟨1, "T", ⟨0⟩, ⟨0⟩, 100, 0, 0⟩, "t2"),
         (⟨103, [3]⟩, ⟨1, "T", ⟨0⟩, ⟨0⟩, 100, 0, 0⟩, "t3"),
         (⟨104, [4]⟩, ⟨1, "T", ⟨0⟩, ⟨0⟩, 100, 0, 0⟩, "t4")]).CapturedPackets
      = [⟨102, [2], 1, "T", "t2"⟩, ⟨103, [3], 1, "T", "t3"⟩, ⟨104, [4], 1, "T", "t4"⟩] :=
  (congrArg DebugPacketLogger.CapturedPackets
    (C35_bounded_debug_log ⟨[], 3, true⟩
      [(⟨100, [0]⟩, ⟨1, "T", ⟨0⟩, ⟨0⟩, 100, 0, 0⟩, "t0"),
       (⟨101, [1]⟩, ⟨1, "T", ⟨0⟩, ⟨0⟩, 100, 0, 0⟩, "t1"),
       (⟨102, [2]⟩, ⟨1, "T", ⟨0⟩, ⟨0⟩, 100, 0, 0⟩, "t2"),
       (⟨103, [3]⟩, ⟨1, "T", ⟨0⟩, ⟨0⟩, 100, 0, 0⟩, "t3"),
       (⟨104, [4]⟩, ⟨1, "T", ⟨0⟩, ⟨0⟩, 100, 0, 0⟩, "t4")]
      (by decide) (by decide) (by decide)).1).trans (by decide)


/-! ## Ticks in sequence -/

theorem UpdateGameState_locked (F : Float64Ops) (env : TickEnv) (gs : GameState)
    (h : gs.mu ≠ RWMutex.unlocked) : UpdateGameState F env gs = .blocked gs := by
  unfold UpdateGameState
  rw [Lock_eq_none_of_ne gs.mu h]

theorem UpdateGameState_keys_nodup (F : Float64Ops) (env : TickEnv) (gs : GameState)
    (hmu : gs.mu = RWMutex.unlocked) (hnd : gs.Players.keys.Nodup) :
    (UpdateGameState F env gs).state.Players.keys.Nodup := by
  rw [UpdateGameState_Players F env gs hmu]
  simp only [regenPlayers, prunePlayers, GoMap.keys, List.map_map]
  have hfun : (Prod.fst ∘ fun (e : Int × Player) => (e.1, regenPlayer env e.1 e.2)) = Prod.fst := by
    funext e
    rfl
  rw [hfun]
  exact List.Nodup.sublist (List.Sublist.map _ (List.filter_sublist _)) hnd

/-- A player found after a tick that took the lock was there before, was not
older than 30 seconds, and is the regenerated player. -/
theorem UpdateGameState_get_some (F : Float64Ops) (env : TickEnv) (gs : GameState) (id : Int)
    (hmu : gs.mu = RWMutex.unlocked) (hnd : gs.Players.keys.Nodup) (q : Player)
    (h : (UpdateGameState F env gs).state.Players.get id = some q) :
    ∃ p, gs.Players.get id = some p ∧ ¬ (Time.Sub env.now p.LastSeen > 30 * Second)
      ∧ q = regenPlayer env id p := by
  rw [UpdateGameState_get F env gs id hmu hnd] at h
  cases hp : gs.Players.get id with
  | none =>
    rw [hp] at h
    cases h
  | some p =>
    rw [hp] at h
    simp only [Option.some_bind] at h
    by_cases hold : Time.Sub env.now p.LastSeen > 30 * Second
    · rw [if_pos hold] at h
      cases h
    · rw [if_neg hold] at h
      exact ⟨p, rfl, hold, (Option.some.inj h).symm⟩

/-- A sequence of ticks that start at most 30 seconds apart, each storing
readings not earlier than its start, removes no player whose `LastSeen` is
not earlier than the reference time `t`. -/
theorem runTicks_keeps (F : Float64Ops) (envs : List TickEnv) (t : Time) (gs : GameState)
    (hinv : gs.mu = RWMutex.unlocked →
      gs.Players.keys.Nodup ∧ ∀ id p, gs.Players.get id = some p → t ≤ p.LastSeen)
    (hfwd : ∀ e ∈ envs, e.forward) (hclose : ticksClose t envs) (id : Int)
    (hin : gs.Players.contains id = true) :
    (runTicks F gs envs).Players.contains id = true := by
  induction envs generalizing t gs with
  | nil => exact hin
  | cons env rest ih =>
    obtain ⟨hgap, hrest⟩ := hclose
    have hf : env.forward := hfwd env (List.mem_cons_self _ _)
    have hfr : ∀ e ∈ rest, e.forward := fun e he => hfwd e (List.mem_cons_of_mem _ he)
    show (runTicks F (UpdateGameState F env gs).state rest).Players.contains id = true
    by_cases hmu : gs.mu = RWMutex.unlocked
    · obtain ⟨hnd, hseen⟩ := hinv hmu
      apply ih env.now _ _ hfr hrest
      · obtain ⟨p, hp⟩ := Option.isSome_iff_exists.1 hin
        have hget := UpdateGameState_get F env gs id hmu hnd
        have hle : t ≤ p.LastSeen := hseen id p hp
        have hkeep : ¬ (Time.Sub env.now p.LastSeen > 30 * Second) := by
          have h1 : Time.Sub env.now p.LastSeen ≤ Time.Sub env.now t := by
            unfold Time.Sub
            exact sub_le_sub_left hle _
          exact not_lt.2 (le_trans h1 hgap)
        simp only [GoMap.contains, GoMap.get] at hp ⊢
        simp only [GoMap.get, hp, Option.some_bind, if_neg hkeep] at hget
        rw [hget]
        rfl
      · intro _
        refine ⟨UpdateGameState_keys_nodup F env gs hmu hnd, ?_⟩
        intro k q hq
        obtain ⟨p, _, _, hqp⟩ := UpdateGameState_get_some F env gs k hmu hnd q hq
        rw [hqp]
        exact hf k
    · rw [UpdateGameState_locked F env gs hmu]
      apply ih env.now gs _ hfr hrest hin
      intro h
      exact absurd h hmu

/-- C36. A tick refreshes last-activity. After a tick that took the game
state lock, every player left in the registry has `LastSeen` equal to the
clock reading the tick took for it, which is not earlier than the start of
the tick when the clock does not run backwards. Hence a player that is in
the registry after one tick is in the registry after any number of further
ticks, as long as each tick starts at most 30 seconds after the one before
and nothing but ticks touches the registry: no message of the player is
needed. -/
theorem C36_tick_refreshes_activity (F : Float64Ops) (gs : GameState) (env : TickEnv)
    (envs : List TickEnv) (hmu : gs.mu = RWMutex.unlocked) (hnd : gs.Players.keys.Nodup)
    (hfwd : env.forward) (hfwds : ∀ e ∈ envs, e.forward) (hclose : ticksClose env.now envs) :
    (∀ id p, (UpdateGameState F env gs).state.Players.get id = some p →
        p.LastSeen = env.seen id ∧ env.now ≤ p.LastSeen)
    ∧ (∀ id, (UpdateGameState F env gs).state.Players.contains id = true →
        (runTicks F (UpdateGameState F env gs).state envs).Players.contains id = true) := by
  have hseen : ∀ id p, (UpdateGameState F env gs).state.Players.get id = some p →
      p.LastSeen = env.seen id ∧ env.now ≤ p.LastSeen := by
    intro id q hq
    obtain ⟨p, _, _, hqp⟩ := UpdateGameState_get_some F env gs id hmu hnd q hq
    rw [hqp]
    exact ⟨rfl, hfwd id⟩
  refine ⟨hseen, ?_⟩
  intro id hin
  apply runTicks_keeps F envs env.now _ _ hfwds hclose id hin
  intro _
  exact ⟨UpdateGameState_keys_nodup F env gs hmu hnd, fun k q hq => (hseen k q hq).2⟩

theorem C36_tick_refreshes_activity_witness :
    (runTicks stillOps
        (UpdateGameState stillOps (tickAt (100 * Second))
          { NewGameState with
            Players := ⟨[(1, ⟨1, "Player1", ⟨0⟩, ⟨0⟩, 50, 0, 90 * Second⟩)]⟩ }).state
        [tickAt (130 * Second), tickAt (160 * Second)]).Players.contains 1 = true :=
  (C36_tick_refreshes_activity stillOps
    { NewGameState with Players := ⟨[(1, ⟨1, "Player1", ⟨0⟩, ⟨0⟩, 50, 0, 90 * Second⟩)]⟩ }
    (tickAt (100 * Second)) [tickAt (130 * Second), tickAt (160 * Second)]
    rfl (by decide) (fun _ => le_refl _)
    (by
      intro e he
      simp only [List.mem_cons, List.mem_singleton, List.not_mem_nil, or_false] at he
      rcases he with rfl | rfl <;> exact fun _ => le_refl _)
    ⟨by decide, by decide, trivial⟩).2 1 (by decide)


/-! ## The tick over the arenas -/

/-- Whether it returns or not, `UpdateArena` leaves every field of the arena
but the lock as it was. -/
theorem UpdateArena_state (a : Arena) (now : Time) :
    (UpdateArena a now).state = { a with mu := (UpdateArena a now).state.mu } := by
  by_cases h : a.mu = RWMutex.unlocked
  · rw [UpdateArena_unlocked a h]
    split_ifs <;> rfl
  · unfold UpdateArena
    rw [Lock_eq_none_of_ne a.mu h]
    rfl

theorem updateArenaList_map {β : Type} (f : Arena → β)
    (hf : ∀ (a : Arena) (mu : RWMutex), f { a with mu := mu } = f a) (now : Time)
    (arenas : List (Int × Arena)) :
    (updateArenaList now arenas).state.map (fun e => (e.1, f e.2))
      = arenas.map fun e => (e.1, f e.2) := by
  induction arenas with
  | nil => rfl
  | cons e rest ih =>
    obtain ⟨id, arena⟩ := e
    have hs := UpdateArena_state arena now
    unfold updateArenaList
    cases h1 : UpdateArena arena now with
    | blocked arena1 =>
      rw [h1] at hs
      simp only [Call.state] at hs ⊢
      rw [hs]
      simp only [List.map_cons, hf]
    | returned arena1 r =>
      rw [h1] at hs
      simp only [Call.state] at hs
      cases h2 : updateArenaList now rest with
      | blocked rest1 =>
        rw [h2] at ih
        simp only [Call.state] at ih ⊢
        rw [hs]
        simp only [List.map_cons, hf, ih]
      | returned rest1 r1 =>
        rw [h2] at ih
        simp only [Call.state] at ih ⊢
        rw [hs]
        simp only [List.map_cons, hf, ih]

/-- The loop over the arenas does not get past a waiting arena. -/
theorem updateArenaList_blocks (now : Time) (arenas : List (Int × Arena))
    (h : ∃ e ∈ arenas, e.2.State = ArenaStateWaiting ∧ e.2.mu = RWMutex.unlocked) :
    (updateArenaList now arenas).ret = none := by
  induction arenas with
  | nil =>
    obtain ⟨e, he, _⟩ := h
    cases he
  | cons e rest ih =>
    obtain ⟨id, arena⟩ := e
    unfold updateArenaList
    cases h1 : UpdateArena arena now with
    | blocked arena1 => rfl
    | returned arena1 r =>
      simp only
      have hrest : ∃ e ∈ rest, e.2.State = ArenaStateWaiting ∧ e.2.mu = RWMutex.unlocked := by
        obtain ⟨e, he, hw, hmu⟩ := h
        rcases List.mem_cons.1 he with rfl | hr
        · simp only at hw hmu
          rw [UpdateArena_unlocked arena hmu, if_pos hw] at h1
          cases h1
        · exact ⟨e, hr, hw, hmu⟩
      have h2 := ih hrest
      cases h3 : updateArenaList now rest with
      | blocked rest1 => rfl
      | returned rest1 r1 =>
        rw [h3] at h2
        cases h2

theorem UpdateArenas_blocks (F : Float64Ops) (env : TickEnv) (gs : GameState)
    (h : ∃ e ∈ gs.ArenaManager.Arenas.entries,
      e.2.State = ArenaStateWaiting ∧ e.2.mu = RWMutex.unlocked) :
    (UpdateArenas F env gs).ret = none := by
  unfold UpdateArenas
  cases h1 : gs.ArenaManager.mu.RLock with
  | none => rfl
  | some mu =>
    simp only
    have h2 := updateArenaList_blocks env.arena gs.ArenaManager.Arenas.entries h
    cases h3 : updateArenaList env.arena gs.ArenaManager.Arenas.entries with
    | blocked arenas => rfl
    | returned arenas r =>
      rw [h3] at h2
      cases h2

theorem UpdateArenas_mu (F : Float64Ops) (env : TickEnv) (gs : GameState) :
    (UpdateArenas F env gs).state.mu = gs.mu := by
  unfold UpdateArenas
  cases h1 : gs.ArenaManager.mu.RLock with
  | none => rfl
  | some mu =>
    simp only
    cases h2 : updateArenaList env.arena gs.ArenaManager.Arenas.entries with
    | blocked arenas => rfl
    | returned arenas r =>
      simp only
      cases h3 : SpellSystem.UpdateSpellSystem F gs.SpellSystem (16 * Millisecond) env.spell
        <;> rfl

theorem UpdateArenas_map {β : Type} (f : Arena → β)
    (hf : ∀ (a : Arena) (mu : RWMutex), f { a with mu := mu } = f a)
    (F : Float64Ops) (env : TickEnv) (gs : GameState) :
    (UpdateArenas F env gs).state.ArenaManager.Arenas.entries.map (fun e => (e.1, f e.2))
      = gs.ArenaManager.Arenas.entries.map fun e => (e.1, f e.2) := by
  have hl := updateArenaList_map f hf env.arena gs.ArenaManager.Arenas.entries
  unfold UpdateArenas
  cases h1 : gs.ArenaManager.mu.RLock with
  | none => rfl
  | some mu =>
    simp only
    cases h2 : updateArenaList env.arena gs.ArenaManager.Arenas.entries with
    | blocked arenas =>
      rw [h2] at hl
      exact hl
    | returned arenas r =>
      rw [h2] at hl
      simp only
      cases h3 : SpellSystem.UpdateSpellSystem F gs.SpellSystem (16 * Millisecond) env.spell
        <;> exact hl

/-- A tick does not return while the directory holds a waiting arena. -/
theorem UpdateGameState_blocks (F : Float64Ops) (env : TickEnv) (gs : GameState)
    (h : ∃ e ∈ gs.ArenaManager.Arenas.entries,
      e.2.State = ArenaStateWaiting ∧ e.2.mu = RWMutex.unlocked) :
    (UpdateGameState F env gs).ret = none := by
  unfold UpdateGameState
  cases h1 : gs.mu.Lock with
  | none => rfl
  | some mu =>
    simp only
    have h2 := UpdateArenas_blocks F env
      { gs with mu := mu, Players := (regenPlayers env (prunePlayers env gs.Players).1).1 } h
    cases h3 : UpdateArenas F env
        { gs with mu := mu, Players := (regenPlayers env (prunePlayers env gs.Players).1).1 } with
    | blocked gs4 => rfl
    | returned gs4 r =>
      rw [h3] at h2
      cases h2

/-- After a tick that found the game state lock free and did not return, the
lock is held. -/
theorem UpdateGameState_mu (F : Float64Ops) (env : TickEnv) (gs : GameState)
    (hmu : gs.mu = RWMutex.unlocked) (hret : (UpdateGameState F env gs).ret = none) :
    (UpdateGameState F env gs).state.mu = ⟨true, 0⟩ := by
  unfold UpdateGameState at hret ⊢
  rw [hmu, Lock_unlocked] at hret ⊢
  simp only at hret ⊢
  have h2 := UpdateArenas_mu F env
    { gs with mu := ⟨true, 0⟩, Players := (regenPlayers env (prunePlayers env gs.Players).1).1 }
  cases h3 : UpdateArenas F env
      { gs with mu := ⟨true, 0⟩,
                Players := (regenPlayers env (prunePlayers env gs.Players).1).1 } with
  | blocked gs4 =>
    rw [h3] at h2
    exact h2
  | returned gs4 r =>
    rw [h3] at hret
    cases hret

theorem UpdateGameState_map {β : Type} (f : Arena → β)
    (hf : ∀ (a : Arena) (mu : RWMutex), f { a with mu := mu } = f a)
    (F : Float64Ops) (env : TickEnv) (gs : GameState) :
    (UpdateGameState F env gs).state.ArenaManager.Arenas.entries.map (fun e => (e.1, f e.2))
      = gs.ArenaManager.Arenas.entries.map fun e => (e.1, f e.2) := by
  unfold UpdateGameState
  cases h1 : gs.mu.Lock with
  | none => rfl
  | some mu =>
    simp only
    have h2 := UpdateArenas_map f hf F env
      { gs with mu := mu, Players := (regenPlayers env (prunePlayers env gs.Players).1).1 }
    cases h3 : UpdateArenas F env
        { gs with mu := mu, Players := (regenPlayers env (prunePlayers env gs.Players).1).1 } with
    | blocked gs4 =>
      rw [h3] at h2
      exact h2
    | returned gs4 r =>
      rw [h3] at h2
      exact h2


theorem lookup_map_congr {V β : Type} (f : V → β) (l1 l2 : List (Int × V))
    (h : l1.map (fun e => (e.1, f e.2)) = l2.map fun e => (e.1, f e.2)) (k : Int) :
    (l1.lookup k).map f = (l2.lookup k).map f := by
  induction l1 generalizing l2 with
  | nil =>
    cases l2 with
    | nil => rfl
    | cons e2 r2 => simp at h
  | cons e1 r1 ih =>
    cases l2 with
    | nil => simp at h
    | cons e2 r2 =>
      obtain ⟨k1, v1⟩ := e1
      obtain ⟨k2, v2⟩ := e2
      simp only [List.map_cons, List.cons.injEq, Prod.mk.injEq] at h
      obtain ⟨⟨hk, hv⟩, hr⟩ := h
      subst hk
      by_cases hkk : k = k1
      · subst hkk
        simp only [List.lookup_cons, beq_self_eq_true, Option.map_some', hv]
      · have hb : (k == k1) = false := by simpa using hkk
        simp only [List.lookup_cons, hb]
        exact ih r2 hr

theorem GameState.RemovePlayer_ArenaManager (gs : GameState) (id : Int) :
    (gs.RemovePlayer id).state.ArenaManager = gs.ArenaManager := by
  unfold GameState.RemovePlayer
  cases gs.mu.Lock <;> rfl

/-- C37 fails on the code. Holding the arena lock, `UpdateArena` requests
that lock again through `GetPlayerCount` on every arena in state `Waiting`.
So for every arena of the directory that is `Waiting` with its lock free, as
each of the three arenas `initializeArenas` creates, `UpdateArena` does not
return and keeps the lock, and `UpdateGameState` on a game state holding
such an arena does not return either and keeps the game state lock if it
took it. -/
theorem C37_tick_never_completes (F : Float64Ops) (env : TickEnv) (gs : GameState) (id : Int)
    (arena : Arena) (hin : (id, arena) ∈ gs.ArenaManager.Arenas.entries)
    (hw : arena.State = ArenaStateWaiting) (hmu : arena.mu = RWMutex.unlocked) :
    UpdateArena arena env.arena = .blocked { arena with mu := ⟨true, 0⟩ }
    ∧ (UpdateGameState F env gs).ret = none
    ∧ (gs.mu = RWMutex.unlocked → (UpdateGameState F env gs).state.mu = ⟨true, 0⟩)
    ∧ (initializeArenas NewGameState).ret = some ()
    ∧ (∀ e ∈ (initializeArenas NewGameState).state.ArenaManager.Arenas.entries,
        e.2.State = ArenaStateWaiting ∧ e.2.mu = RWMutex.unlocked)
    ∧ (UpdateGameState F env (initializeArenas NewGameState).state).ret = none := by
  have hblock : (UpdateGameState F env gs).ret = none :=
    UpdateGameState_blocks F env gs ⟨(id, arena), hin, hw, hmu⟩
  refine ⟨?_, hblock, fun hgs => UpdateGameState_mu F env gs hgs hblock, by decide, by decide,
    ?_⟩
  · rw [UpdateArena_unlocked arena hmu, if_pos hw]
  · exact UpdateGameState_blocks F env _
      ⟨(1, ⟨1, "Chaos Arena", 8, GoMap.empty, ArenaStateWaiting, 0, 0, 1, RWMutex.unlocked⟩),
        by decide, rfl, rfl⟩

theorem C37_tick_never_completes_witness :
    (UpdateGameState stillOps (tickAt 5) (initializeArenas NewGameState).state).ret = none
    ∧ (UpdateGameState stillOps (tickAt 5) (initializeArenas NewGameState).state).state.mu
        = ⟨true, 0⟩ :=
  ⟨(C37_tick_never_completes stillOps (tickAt 5) (initializeArenas NewGameState).state 2
      ⟨2, "Balance Arena", 8, GoMap.empty, ArenaStateWaiting, 0, 0, 2, RWMutex.unlocked⟩
      (by decide) rfl rfl).2.1,
   by decide⟩

/-- C38. Registry removal does not touch the arenas. `GameState.RemovePlayer`
leaves the arena directory as it is, and a whole tick (inactivity prune
included) leaves every arena under its key with the roster, capacity and
state it had. So a player in the roster of an arena is still in that roster,
and the roster has the same size, after the player is removed from the
registry by `RemovePlayer` or by a tick, whether or not these calls return. -/
theorem C38_registry_removal_keeps_rosters (F : Float64Ops) (env : TickEnv) (gs : GameState)
    (id k : Int) (a : Arena) (hget : gs.ArenaManager.Arenas.get k = some a)
    (hin : a.Players.contains id = true) :
    (gs.RemovePlayer id).state.ArenaManager = gs.ArenaManager
    ∧ (UpdateGameState F env gs).state.ArenaManager.Arenas.entries.map
          (fun e => (e.1, e.2.Players, e.2.MaxPlayers, e.2.State))
        = gs.ArenaManager.Arenas.entries.map
            (fun e => (e.1, e.2.Players, e.2.MaxPlayers, e.2.State))
    ∧ (∃ a1, (UpdateGameState F env gs).state.ArenaManager.Arenas.get k = some a1
        ∧ a1.Players = a.Players ∧ a1.MaxPlayers = a.MaxPlayers ∧ a1.State = a.State
        ∧ a1.Players.contains id = true ∧ a1.Players.len = a.Players.len) := by
  have hmap := UpdateGameState_map (fun a => (a.Players, a.MaxPlayers, a.State))
    (fun _ _ => rfl) F env gs
  refine ⟨GameState.RemovePlayer_ArenaManager gs id, hmap, ?_⟩
  have hl := lookup_map_congr (fun (a : Arena) => (a.Players, a.MaxPlayers, a.State)) _ _ hmap k
  simp only [GoMap.get] at hget ⊢
  rw [hget] at hl
  cases h1 : (UpdateGameState F env gs).state.ArenaManager.Arenas.entries.lookup k with
  | none =>
    rw [h1] at hl
    cases hl
  | some a1 =>
    rw [h1] at hl
    simp only [Option.map_some', Option.some.injEq, Prod.mk.injEq] at hl
    obtain ⟨hp, hm, hs⟩ := hl
    refine ⟨a1, rfl, hp, hm, hs, ?_, ?_⟩
    · rw [hp]
      exact hin
    · rw [hp]

theorem C38_registry_removal_keeps_rosters_witness :
    (UpdateGameState stillOps (tickAt (100 * Second))
        ({ NewGameState with
            Players := ⟨[(7, ⟨7, "Player7", ⟨0⟩, ⟨0⟩, 50, 0, 0⟩)]⟩ }.withArena 1
          (runOps (testArena 4) [.addPlayer 7 TeamChaos, .startArena 1]))).state.Players.contains 7
      = false
    ∧ ∃ a1, (UpdateGameState stillOps (tickAt (100 * Second))
        ({ NewGameState with
            Players := ⟨[(7, ⟨7, "Player7", ⟨0⟩, ⟨0⟩, 50, 0, 0⟩)]⟩ }.withArena 1
          (runOps (testArena 4) [.addPlayer 7 TeamChaos, .startArena 1]))).state.ArenaManager.Arenas.get
            1 = some a1
        ∧ a1.Players.contains 7 = true :=
  ⟨by decide,
   match (C38_registry_removal_keeps_rosters stillOps (tickAt (100 * Second))
      ({ NewGameState with
          Players := ⟨[(7, ⟨7, "Player7", ⟨0⟩, ⟨0⟩, 50, 0, 0⟩)]⟩ }.withArena 1
        (runOps (testArena 4) [.addPlayer 7 TeamChaos, .startArena 1]))
      7 1 (runOps (testArena 4) [.addPlayer 7 TeamChaos, .startArena 1])
      (by decide) (by decide)).2.2 with
   | ⟨a1, h1, _, _, _, h2, _⟩ => ⟨a1, h1, h2⟩⟩


/-! ## The periodic save -/

/-- C39. The periodic save never fires. When at most 10 seconds pass between
the clock reading a tick stores in `LastSeen` and the reading `time.Since`
takes right after it, the second loop of the tick calls `SavePlayer` for no
player, so the `SavePlayer` calls of the tick are exactly those of the prune
loop: each is for a player that was in the registry with `LastSeen` more than
30 seconds before the start of the tick, and that player is not among the
players left. -/
theorem C39_periodic_save_never_fires (env : TickEnv) (gs : GameState)
    (hclock : ∀ id, Time.Sub (env.since id) (env.seen id) ≤ 10 * Second) :
    (regenPlayers env (prunePlayers env gs.Players).1).2 = []
    ∧ savePlayerCalls env gs = (prunePlayers env gs.Players).2
    ∧ (∀ c ∈ savePlayerCalls env gs, ∃ id,
        (id, c.1) ∈ gs.Players.entries ∧ Time.Sub env.now c.1.LastSeen > 30 * Second
        ∧ (id, c.1) ∉ (prunePlayers env gs.Players).1.entries
        ∧ c.2 = env.SavePlayer c.1) := by
  have hregen : ∀ players : GoMap Player, (regenPlayers env players).2 = [] := by
    intro players
    simp only [regenPlayers, List.map_eq_nil_iff, List.filter_eq_nil_iff, List.mem_map,
      decide_eq_true_eq, not_lt]
    rintro e ⟨e0, _, rfl⟩
    exact hclock e0.1
  have hcalls : savePlayerCalls env gs = (prunePlayers env gs.Players).2 := by
    simp only [savePlayerCalls, hregen, List.append_nil]
  refine ⟨hregen _, hcalls, ?_⟩
  intro c hc
  rw [hcalls] at hc
  simp only [prunePlayers, List.mem_map, List.mem_filter, decide_eq_true_eq] at hc
  obtain ⟨e, ⟨he, hold⟩, rfl⟩ := hc
  refine ⟨e.1, he, hold, ?_, rfl⟩
  simp only [prunePlayers, List.mem_filter, decide_eq_true_eq, not_and, not_not]
  intro _
  exact hold

theorem C39_periodic_save_never_fires_witness :
    savePlayerCalls (tickAt (100 * Second))
        { NewGameState with
          Players := ⟨[(1, ⟨1, "Player1", ⟨0⟩, ⟨0⟩, 50, 0, 90 * Second⟩),
                       (3, ⟨3, "Player3", ⟨0⟩, ⟨0⟩, 10, 0, 69 * Second⟩)]⟩ }
      = [(⟨3, "Player3", ⟨0⟩, ⟨0⟩, 10, 0, 69 * Second⟩, true)] :=
  ((C39_periodic_save_never_fires (tickAt (100 * Second))
    { NewGameState with
      Players := ⟨[(1, ⟨1, "Player1", ⟨0⟩, ⟨0⟩, 50, 0, 90 * Second⟩),
                   (3, ⟨3, "Player3", ⟨0⟩, ⟨0⟩, 10, 0, 69 * Second⟩)]⟩ }
    (fun _ => (by decide : Time.Sub (100 * Second) (100 * Second) ≤ 10 * Second))).2.1).trans
    (by decide)

/-! ## The player update payload -/

/-- C40 fails on the code. `binary.Write` of an `int` writes nothing, so the
payload `BuildPlayerUpdatePacket` builds is the name bytes, the zero
terminator and the little-endian 64-bit `X` and `Y`: neither the ID nor the
health is in it. Two players that differ in ID, in health, or in both, and
agree in name and position, yield the same payload and the same packet. -/
theorem C40_payload_omits_id_and_health (player : Player) (id health : Int) :
    (BuildPlayerUpdatePacket player).Data
        = stringBytes player.Name ++ [0] ++ PutUint64 player.X.bits ++ PutUint64 player.Y.bits
    ∧ (BuildPlayerUpdatePacket player).Typ = PacketPlayerUpdate
    ∧ BuildPlayerUpdatePacket { player with ID := id } = BuildPlayerUpdatePacket player
    ∧ BuildPlayerUpdatePacket { player with Health := health } = BuildPlayerUpdatePacket player
    ∧ BuildPlayerUpdatePacket { player with ID := id, Health := health }
        = BuildPlayerUpdatePacket player
    ∧ (BuildPlayerUpdatePacket
          ⟨1, "Test", ⟨0x3FF0000000000000⟩, ⟨0x4000000000000000⟩, 100, 0, 0⟩).Data
        = (BuildPlayerUpdatePacket
          ⟨2, "Test", ⟨0x3FF0000000000000⟩, ⟨0x4000000000000000⟩, 50, 0, 0⟩).Data := by
  refine ⟨?_, rfl, rfl, rfl, rfl, rfl⟩
  simp only [BuildPlayerUpdatePacket, NewPacket, binaryWriteInt, binaryWriteFloat64,
    List.nil_append, List.append_nil]


end SplatServer
